import Mathlib

/-!
# gocrosshair: the overlay package

Shallow embedding of the rectangle generators (`overlay/shapes.go`), of the
monitor selection (`overlay/monitor.go`) and of the overlay window
(`overlay/overlay.go`), and the properties of them that the specification
states.

Conventions of the embedding:

* a Go `int16` is an `Int` in `[-32768, 32767]`; every `int16` operation of the
  source is followed by `wrap16`, the two's-complement wraparound;
* a Go `uint16` is an `Int` in `[0, 65535]`; the conversion `uint16(e)` is
  `toU16`, reduction modulo `2^16`;
* `xproto.Rectangle` is the structure `Rectangle` (`X`, `Y` are `int16`,
  `Width`, `Height` are `uint16`);
* a slice is a `List`, `nil` and the empty slice are both `[]`;
* the `for` loop of `generateFilledCircle` is a function with an iteration
  budget; it answers `none` when the budget is used up before the loop
  condition fails, so that termination is a theorem and not an assumption;
  the functions that call it return an `Option` for that reason;
* positions in the statements are those of the `int16` coordinate space
  (`sub16`, `add16`), for every centre; where a statement is about plain integer
  positions it says in which range of centres they coincide;
* the X server is explicit: the functions that talk to it take its answers as
  arguments (replies, or a function from a checked request to the error the
  server raises) and return the list of the requests they sent along with
  their Go result; a Go `error` is a `GoError`, `nil` is `none`;
* `sort.Slice` of the Go standard library is a parameter of `GetMonitors`,
  taken by its contract `SortSliceContract`.
-/

namespace Overlay

/-! ## Machine integers -/

/-- Two's-complement wraparound of an integer into the `int16` range. -/
def wrap16 (z : Int) : Int := (z + 32768) % 65536 - 32768

/-- The conversion `uint16(e)` of an integer: reduction modulo `2^16`. -/
def toU16 (z : Int) : Int := z % 65536

/-- Membership in the `int16` range. -/
def isInt16 (z : Int) : Prop := -32768 ≤ z ∧ z ≤ 32767

/-- Membership in the `uint16` range. -/
def isUInt16 (z : Int) : Prop := 0 ≤ z ∧ z ≤ 65535

instance (z : Int) : Decidable (isInt16 z) := by unfold isInt16; infer_instance

instance (z : Int) : Decidable (isUInt16 z) := by unfold isUInt16; infer_instance

/-- The `int16` sum `a + b`. -/
def add16 (a b : Int) : Int := wrap16 (a + b)

/-- The `int16` difference `a - b`. -/
def sub16 (a b : Int) : Int := wrap16 (a - b)

/-- The `int16` product `a * b`. -/
def mul16 (a b : Int) : Int := wrap16 (a * b)

/-- The `int16` quotient `a / b` of Go: truncation toward zero. -/
def div16 (a b : Int) : Int := wrap16 (Int.tdiv a b)

/-- The `uint16` sum `a + b`. -/
def addU16 (a b : Int) : Int := toU16 (a + b)

/-! ## Rectangles -/

/-- The `xproto.Rectangle` of the source: position `int16`, extent `uint16`. -/
structure Rectangle where
  X : Int
  Y : Int
  Width : Int
  Height : Int
deriving DecidableEq

/-- The pixel `(px, py)` lies inside the rectangle: the rectangle covers the
columns `X .. X + Width - 1` and the rows `Y .. Y + Height - 1`. -/
def Rectangle.covers (r : Rectangle) (px py : Int) : Prop :=
  r.X ≤ px ∧ px < r.X + r.Width ∧ r.Y ≤ py ∧ py < r.Y + r.Height

instance (r : Rectangle) (px py : Int) : Decidable (r.covers px py) := by
  unfold Rectangle.covers; infer_instance

/-- Two rectangles overlap when some pixel is covered by both. -/
def Rectangle.overlaps (r s : Rectangle) : Prop :=
  ∃ px py : Int, r.covers px py ∧ s.covers px py

/-! ## `GenerateCross` -/

/-- `GenerateCross` of `shapes.go`: two bars when `gap <= 0`, four arms
otherwise. -/
def GenerateCross (centerX centerY size thickness gap : Int) : List Rectangle :=
  let halfThickness := div16 thickness 2
  if gap ≤ 0 then
    [ { X := sub16 centerX size
        Y := sub16 centerY halfThickness
        Width := toU16 (mul16 size 2)
        Height := toU16 thickness },
      { X := sub16 centerX halfThickness
        Y := sub16 centerY size
        Width := toU16 thickness
        Height := toU16 (mul16 size 2) } ]
  else
    let halfGap := div16 gap 2
    [ { X := sub16 centerX size
        Y := sub16 centerY halfThickness
        Width := toU16 (sub16 size halfGap)
        Height := toU16 thickness },
      { X := add16 centerX halfGap
        Y := sub16 centerY halfThickness
        Width := toU16 (sub16 size halfGap)
        Height := toU16 thickness },
      { X := sub16 centerX halfThickness
        Y := sub16 centerY size
        Width := toU16 thickness
        Height := toU16 (sub16 size halfGap) },
      { X := sub16 centerX halfThickness
        Y := add16 centerY halfGap
        Width := toU16 thickness
        Height := toU16 (sub16 size halfGap) } ]

/-! ## Circles and dots -/

/-- `makeCenteredLine` of `shapes.go`: the one-pixel-high line of half-width
`offset` centred on column `cx` of row `cy`. -/
def makeCenteredLine (cx cy offset : Int) : Rectangle :=
  { X := sub16 cx offset
    Y := cy
    Width := toU16 (add16 (mul16 offset 2) 1)
    Height := 1 }

/-- The rectangles appended by one pass through the body of the loop of
`generateFilledCircle`, at offsets `x` and `y`. -/
def circleEmit (centerX centerY x y : Int) (rects : List Rectangle) : List Rectangle :=
  let rects1 :=
    if x > 0 then
      (rects ++ [makeCenteredLine centerX (sub16 centerY x) y])
        ++ [makeCenteredLine centerX (add16 centerY x) y]
    else
      rects ++ [makeCenteredLine centerX centerY y]
  if x ≠ y then
    (rects1 ++ [makeCenteredLine centerX (sub16 centerY y) x])
      ++ [makeCenteredLine centerX (add16 centerY y) x]
  else
    rects1

/-- The loop `for y >= x { ... }` of `generateFilledCircle`, with state
`x`, `y`, `d` and the slice built so far. The first argument bounds the number
of iterations: `none` means that the bound was reached with `y >= x` still
true. -/
def circleLoop (centerX centerY : Int) :
    Nat → Int → Int → Int → List Rectangle → Option (List Rectangle)
  | 0, x, y, _, rects => if y ≥ x then none else some rects
  | fuel + 1, x, y, d, rects =>
    if y ≥ x then
      let rects1 := circleEmit centerX centerY x y rects
      if d > 0 then
        let y1 := sub16 y 1
        circleLoop centerX centerY fuel (add16 x 1) y1
          (add16 (add16 d (mul16 4 (sub16 x y1))) 10) rects1
      else
        circleLoop centerX centerY fuel (add16 x 1) y
          (add16 (add16 d (mul16 4 x)) 6) rects1
    else
      some rects

/-- Iteration budget given to the loop of `generateFilledCircle`: the number of
values of an `int16`. -/
def loopBudget : Nat := 65536

/-- `generateFilledCircle` of `shapes.go` (midpoint circle algorithm). -/
def generateFilledCircle (centerX centerY radius : Int) : Option (List Rectangle) :=
  circleLoop centerX centerY loopBudget 0 radius (sub16 3 (mul16 2 radius)) []

/-- `GenerateDot` of `shapes.go`. -/
def GenerateDot (centerX centerY size : Int) : Option (List Rectangle) :=
  if size ≤ 0 then some []
  else
    let radius := div16 size 2
    if radius < 1 then
      some [{ X := centerX, Y := centerY, Width := 1, Height := 1 }]
    else
      generateFilledCircle centerX centerY radius

/-- `GenerateCircle` of `shapes.go`. -/
def GenerateCircle (centerX centerY radius : Int) : Option (List Rectangle) :=
  if radius ≤ 0 then some []
  else generateFilledCircle centerX centerY radius

/-! ## Composite shapes -/

/-- `GenerateCrossDot` of `shapes.go`: the cross with its gap raised to the dot
size, followed by the dot. -/
def GenerateCrossDot (centerX centerY size thickness gap dotSize : Int) :
    Option (List Rectangle) :=
  let effectiveGap := if gap < dotSize then dotSize else gap
  let rects := GenerateCross centerX centerY size thickness effectiveGap
  match GenerateDot centerX centerY dotSize with
  | none => none
  | some dotRects => some (rects ++ dotRects)

/-- `GenerateOutline` of `shapes.go`: every rectangle grown by the outline
thickness, nothing when the thickness is not positive. -/
def GenerateOutline (rects : List Rectangle) (outlineThickness : Int) : List Rectangle :=
  if outlineThickness ≤ 0 then []
  else
    rects.map fun r =>
      { X := sub16 r.X outlineThickness
        Y := sub16 r.Y outlineThickness
        Width := addU16 r.Width (toU16 (mul16 outlineThickness 2))
        Height := addU16 r.Height (toU16 (mul16 outlineThickness 2)) }

/-- `GenerateShape` of `shapes.go`: dispatch on the shape name, the cross being
the default. -/
def GenerateShape (shape : String) (centerX centerY size thickness gap : Int) :
    Option (List Rectangle) :=
  if shape = "cross" then
    some (GenerateCross centerX centerY size thickness gap)
  else if shape = "dot" then
    GenerateDot centerX centerY size
  else if shape = "circle" then
    GenerateCircle centerX centerY size
  else if shape = "cross-dot" then
    let dotSize := max (div16 size 3) 2
    GenerateCrossDot centerX centerY size thickness gap dotSize
  else
    some (GenerateCross centerX centerY size thickness gap)

/-! ## Notions used by the specification -/

/-- No two rectangles of the list overlap: no pixel is covered by two of them. -/
def PairwiseDisjoint (rects : List Rectangle) : Prop :=
  rects.Pairwise fun r s => ¬ r.overlaps s

/-- The one-pixel-high line of half-width `k` centred on column `cx`, on the row
at offset `dy` from row `cy`; positions are taken in the `int16` coordinate
space. -/
def scanline (cx cy k dy : Int) : Rectangle :=
  { X := sub16 cx k, Y := add16 cy dy, Width := 2 * k + 1, Height := 1 }

/-- Mirror image of a rectangle in the horizontal axis through row `cy`: the rows
`Y .. Y + Height - 1` go to the rows `2*cy - (Y + Height - 1) .. 2*cy - Y`, so
that row `cy + dy` goes to row `cy - dy`. The new position is taken in the
`int16` coordinate space. -/
def reflectRows (cy : Int) (r : Rectangle) : Rectangle :=
  { r with Y := wrap16 (2 * cy - (r.Y + r.Height - 1)) }

/-- Mirror image of a rectangle in the vertical axis through column `cx`: the
columns `X .. X + Width - 1` go to the columns
`2*cx - (X + Width - 1) .. 2*cx - X`, so that column `cx + dx` goes to column
`cx - dx`. The new position is taken in the `int16` coordinate space. -/
def reflectCols (cx : Int) (r : Rectangle) : Rectangle :=
  { r with X := wrap16 (2 * cx - (r.X + r.Width - 1)) }

/-- The gap handed to `GenerateCross` by `GenerateShape`: raised to the dot size
`max(size/3, 2)` for the kind "cross-dot", the configured gap otherwise. -/
def armGap (shape : String) (size gap : Int) : Int :=
  if shape = "cross-dot" then max gap (max (div16 size 3) 2) else gap

/-! ## Monitors (`overlay/monitor.go`) -/

/-- The `Monitor` of the source: a display output with its geometry. -/
structure Monitor where
  Name : String
  X : Int
  Y : Int
  Width : Int
  Height : Int
  Primary : Bool
  Connected : Bool
deriving DecidableEq

/-- The loop `for _, m := range monitors { if m.Primary { return m } }` of
`SelectMonitor`: the first monitor flagged primary, if there is one. -/
def firstPrimary : List Monitor → Option Monitor
  | [] => none
  | m :: rest => if m.Primary then some m else firstPrimary rest

/-- `SelectMonitor` of `monitor.go`. The index is a Go `int`. -/
def SelectMonitor (monitors : List Monitor) (index : Int) : Monitor :=
  if h0 : monitors.length = 0 then
    { Name := "", X := 0, Y := 0, Width := 1920, Height := 1080,
      Primary := false, Connected := false }
  else if index = -1 then
    match firstPrimary monitors with
    | some m => m
    | none => monitors.get ⟨0, by omega⟩
  else if h : 0 ≤ index ∧ index < monitors.length then
    monitors.get ⟨index.toNat, by omega⟩
  else
    monitors.get ⟨0, by omega⟩

/-- A Go `error` value: a message, or a message wrapping a cause, as built by
`fmt.Errorf` with the verb `%w`. -/
inductive GoError where
  | message (text : String)
  | wrap (context : String) (cause : GoError)
deriving DecidableEq

/-- The fields of the reply `randr.GetOutputInfo` that `GetMonitors` reads. -/
structure OutputInfo where
  Name : String
  Connection : Nat
  Crtc : Nat

/-- The fields of the reply `randr.GetCrtcInfo` that `GetMonitors` reads. -/
structure CrtcInfo where
  X : Int
  Y : Int
  Width : Int
  Height : Int

/-- The constant `randr.ConnectionConnected` of the RandR protocol. -/
def ConnectionConnected : Nat := 0

/-- The fields of `xproto.ScreenInfo` that the overlay reads. -/
structure ScreenInfo where
  WidthInPixels : Int
  HeightInPixels : Int

/-- The answers of the X server to the requests issued by `GetMonitors`: the
error of `randr.Init` (`none` for success), the outputs of
`randr.GetScreenResources`, the output of `randr.GetOutputPrimary`, and the
replies to `randr.GetOutputInfo` and `randr.GetCrtcInfo`, each a reply or an
error. -/
structure Server where
  randrInit : Option GoError
  screenResources : Except GoError (List Nat)
  outputPrimary : Except GoError Nat
  outputInfo : Nat → Except GoError OutputInfo
  crtcInfo : Nat → Except GoError CrtcInfo

/-- One pass through the body of the loop over the outputs in `GetMonitors`:
the monitor appended for the output, `none` where the source says
`continue`. -/
def outputMonitor (srv : Server) (primaryOutput output : Nat) : Option Monitor :=
  match srv.outputInfo output with
  | .error _ => none
  | .ok outputInfo =>
    if outputInfo.Connection ≠ ConnectionConnected then none
    else if outputInfo.Crtc = 0 then none
    else
      match srv.crtcInfo outputInfo.Crtc with
      | .error _ => none
      | .ok crtcInfo =>
        if crtcInfo.Width = 0 ∨ crtcInfo.Height = 0 then none
        else
          some
            { Name := outputInfo.Name
              X := crtcInfo.X
              Y := crtcInfo.Y
              Width := crtcInfo.Width
              Height := crtcInfo.Height
              Primary := output == primaryOutput
              Connected := true }

/-- The slice built by the loop over the outputs in `GetMonitors`: the monitors
of the outputs that pass the activity filter, in the order of the outputs. -/
def activeMonitors (srv : Server) (primaryOutput : Nat) (outputs : List Nat) : List Monitor :=
  outputs.filterMap (outputMonitor srv primaryOutput)

/-- The comparison handed to `sort.Slice` in `GetMonitors`: by `X`, then by
`Y`. -/
def monitorLess (a b : Monitor) : Bool :=
  if a.X ≠ b.X then decide (a.X < b.X) else decide (a.Y < b.Y)

/-- The monitor synthesized by `GetMonitors` when no output is active. -/
def defaultMonitor (screen : ScreenInfo) : Monitor :=
  { Name := "default", X := 0, Y := 0, Width := screen.WidthInPixels,
    Height := screen.HeightInPixels, Primary := true, Connected := true }

/-- `GetMonitors` of `monitor.go`. The function `sort.Slice` of the Go standard
library is the parameter `sortSlice`. -/
def GetMonitors (sortSlice : (Monitor → Monitor → Bool) → List Monitor → List Monitor)
    (srv : Server) (screen : ScreenInfo) : Except GoError (List Monitor) :=
  match srv.randrInit with
  | some err => .error (.wrap "failed to initialize RandR" err)
  | none =>
    match srv.screenResources with
    | .error err => .error (.wrap "failed to get screen resources" err)
    | .ok outputs =>
      match srv.outputPrimary with
      | .error err => .error (.wrap "failed to get primary output" err)
      | .ok primaryOutput =>
        let monitors := sortSlice monitorLess (activeMonitors srv primaryOutput outputs)
        if monitors.length = 0 then .ok (monitors ++ [defaultMonitor screen])
        else .ok monitors

/-- What the Go documentation asks of a `less` function: it never holds of an
element and itself, it is transitive, and so is its negation. -/
def LessOrdering (less : Monitor → Monitor → Bool) : Prop :=
  (∀ a, less a a = false)
    ∧ (∀ a b c, less a b = true → less b c = true → less a c = true)
    ∧ (∀ a b c, less a b = false → less b c = false → less a c = false)

/-- The contract of `sort.Slice`: for a valid `less`, the result is a
rearrangement of the slice in which no element is `less` than its
predecessor. -/
def SortSliceContract
    (sortSlice : (Monitor → Monitor → Bool) → List Monitor → List Monitor) : Prop :=
  ∀ less, LessOrdering less → ∀ l,
    (sortSlice less l).Perm l ∧ (sortSlice less l).Chain' fun a b => less b a = false

/-- A function that meets the contract of `sort.Slice`: insertion sort. -/
def insertionSortSlice (less : Monitor → Monitor → Bool) (l : List Monitor) : List Monitor :=
  l.insertionSort fun a b => less b a = false

/-- The order of the monitor indices: ascending `X`, ties by ascending `Y`. -/
def monitorOrdered (a b : Monitor) : Prop :=
  a.X < b.X ∨ (a.X = b.X ∧ a.Y ≤ b.Y)

/-! ## The overlay (`overlay/overlay.go`) -/

/-- The `CrosshairConfig` of the configuration package; the numbers are Go
`int`s. -/
structure CrosshairConfig where
  Shape : String
  Color : String
  Size : Int
  Thickness : Int
  Gap : Int
  OutlineThickness : Int
  OutlineColor : String

/-- The `PositionConfig` of the configuration package. -/
structure PositionConfig where
  Monitor : Int
  OffsetX : Int
  OffsetY : Int

/-- The `Config` of the configuration package. -/
structure Config where
  Crosshair : CrosshairConfig
  Position : PositionConfig

/-- `Monitor.CenterX` of `monitor.go`: `m.X + int16(m.Width/2)`. -/
def Monitor.CenterX (m : Monitor) : Int := add16 m.X (wrap16 (m.Width / 2))

/-- `Monitor.CenterY` of `monitor.go`: `m.Y + int16(m.Height/2)`. -/
def Monitor.CenterY (m : Monitor) : Int := add16 m.Y (wrap16 (m.Height / 2))

set_option linter.dupNamespace false in
/-- The `Overlay` of `overlay.go`. The connection is `none` for a nil pointer,
identifiers are numbers, `0` being the zero value. -/
structure Overlay where
  conn : Option Nat
  screen : ScreenInfo
  windowID : Nat
  gcID : Nat
  outlineGC : Nat
  config : Config
  monitor : Monitor
  centerX : Int
  centerY : Int

/-- The monitor list that `NewOverlay` hands to `SelectMonitor`: the result of
`GetMonitors`, or the list it substitutes when `GetMonitors` fails. -/
def resolveMonitors (sortSlice : (Monitor → Monitor → Bool) → List Monitor → List Monitor)
    (srv : Server) (screen : ScreenInfo) : List Monitor :=
  match GetMonitors sortSlice srv screen with
  | .error _ =>
    [ { Name := "default", X := 0, Y := 0, Width := screen.WidthInPixels,
        Height := screen.HeightInPixels, Primary := true, Connected := false } ]
  | .ok monitors => monitors

/-- `NewOverlay` of `overlay.go`. The arguments `newConn` and `shapeInit` are the
results of `xgb.NewConn` and of `shape.Init`. -/
def NewOverlay (sortSlice : (Monitor → Monitor → Bool) → List Monitor → List Monitor)
    (newConn : Except GoError Nat) (shapeInit : Option GoError)
    (srv : Server) (screen : ScreenInfo) (cfg : Config) : Except GoError Overlay :=
  match newConn with
  | .error err => .error (.wrap "failed to connect to X server" err)
  | .ok conn =>
    match shapeInit with
    | some err => .error (.wrap "failed to initialize shape extension" err)
    | none =>
      let monitors := resolveMonitors sortSlice srv screen
      let monitor := SelectMonitor monitors cfg.Position.Monitor
      .ok
        { conn := some conn
          screen := screen
          windowID := 0
          gcID := 0
          outlineGC := 0
          config := cfg
          monitor := monitor
          centerX := add16 monitor.CenterX (wrap16 cfg.Position.OffsetX)
          centerY := add16 monitor.CenterY (wrap16 cfg.Position.OffsetY) }

/-- The operations of the SHAPE extension (`shape.So...`); `set` replaces the
region. -/
inductive ShapeOp where
  | set
  | union
  | intersect
  | subtract
  | invert
deriving DecidableEq

/-- The region kinds of the SHAPE extension (`shape.Sk...`). -/
inductive ShapeKind where
  | bounding
  | clip
  | input
deriving DecidableEq

/-- The constant `xproto.ClipOrderingUnsorted`. -/
def ClipOrderingUnsorted : Nat := 0

/-- The checked requests that the overlay sends to the X server, with those of
their arguments that the overlay computes (identifiers, geometry, rectangle
lists, and the attribute values of the window). -/
inductive Request where
  | createWindow (wid : Nat) (x y : Int) (width height : Int) (borderWidth : Int)
      (backPixel : Nat) (overrideRedirect : Nat)
  | createGC (cid : Nat) (drawable : Nat) (foreground : Nat)
  | shapeRectangles (operation : ShapeOp) (destinationKind : ShapeKind) (ordering : Nat)
      (window : Nat) (xOffset yOffset : Int) (rectangles : List Rectangle)
  | mapWindow (window : Nat)
  | polyFillRectangle (drawable : Nat) (gc : Nat) (rectangles : List Rectangle)
deriving DecidableEq

/-- `Overlay.createWindow` of `overlay.go`: the updated overlay, the requests
sent and the error returned. `newWindowId` is the result of
`xproto.NewWindowId`, `check` the answer of the server to a checked request
(`none` for success). -/
def createWindow (o : Overlay) (newWindowId : Except GoError Nat)
    (check : Request → Option GoError) : Overlay × List Request × Option GoError :=
  match newWindowId with
  | .error err => (o, [], some (.wrap "failed to create window ID" err))
  | .ok wid =>
    let o1 := { o with windowID := wid }
    let request := Request.createWindow wid 0 0 o.screen.WidthInPixels
      o.screen.HeightInPixels 0 0 1
    match check request with
    | some err => (o1, [request], some (.wrap "failed to create window" err))
    | none => (o1, [request], none)

/-- `Overlay.createGraphicsContext` of `overlay.go`. `newGcontextId k` is the
result of the call number `k` of `xproto.NewGcontextId`, and `colorOf` stands
for the colour value that `GetColorUint32` and `GetOutlineColorUint32` read
from a colour string. -/
def createGraphicsContext (o : Overlay) (colorOf : String → Nat)
    (newGcontextId : Nat → Except GoError Nat) (check : Request → Option GoError) :
    Overlay × List Request × Option GoError :=
  match newGcontextId 0 with
  | .error err => (o, [], some (.wrap "failed to create GC ID" err))
  | .ok gcid =>
    let o1 := { o with gcID := gcid }
    let createMain := Request.createGC gcid o1.windowID (colorOf o1.config.Crosshair.Color)
    match check createMain with
    | some err => (o1, [createMain], some (.wrap "failed to create GC" err))
    | none =>
      if o1.config.Crosshair.OutlineThickness > 0 then
        match newGcontextId 1 with
        | .error err => (o1, [createMain], some (.wrap "failed to create outline GC ID" err))
        | .ok outlineGC =>
          let o2 := { o1 with outlineGC := outlineGC }
          let createOutline := Request.createGC outlineGC o2.windowID
            (colorOf o2.config.Crosshair.OutlineColor)
          match check createOutline with
          | some err =>
            (o2, [createMain, createOutline], some (.wrap "failed to create outline GC" err))
          | none => (o2, [createMain, createOutline], none)
      else (o1, [createMain], none)

/-- The call of `GenerateShape` made by `applyShape` and by `drawCrosshair`: the
stored centre and the configured numbers converted to `int16`. -/
def overlayShape (o : Overlay) : Option (List Rectangle) :=
  GenerateShape o.config.Crosshair.Shape o.centerX o.centerY
    (wrap16 o.config.Crosshair.Size) (wrap16 o.config.Crosshair.Thickness)
    (wrap16 o.config.Crosshair.Gap)

/-- The rectangle list `boundingRects` built by `applyShape`. -/
def boundingRects (o : Overlay) (shapeRects : List Rectangle) : List Rectangle :=
  (if o.config.Crosshair.OutlineThickness > 0 then
      [] ++ GenerateOutline shapeRects (wrap16 o.config.Crosshair.OutlineThickness)
    else [])
    ++ shapeRects

/-- `Overlay.applyShape` of `overlay.go`: the requests sent and the error
returned; `none` only if `GenerateShape` does not return. -/
def applyShape (o : Overlay) (check : Request → Option GoError) :
    Option (List Request × Option GoError) :=
  match overlayShape o with
  | none => none
  | some shapeRects =>
    let setBounding := Request.shapeRectangles .set .bounding ClipOrderingUnsorted o.windowID
      0 0 (boundingRects o shapeRects)
    match check setBounding with
    | some err => some ([setBounding], some (.wrap "failed to set bounding shape" err))
    | none =>
      let setInput := Request.shapeRectangles .set .input ClipOrderingUnsorted o.windowID
        0 0 []
      match check setInput with
      | some err =>
        some ([setBounding, setInput], some (.wrap "failed to set input shape" err))
      | none => some ([setBounding, setInput], none)

/-- The second half of `drawCrosshair`: the fill of the shape rectangles with
the main graphics context, skipped when there is no rectangle. -/
def drawShapeLayer (o : Overlay) (check : Request → Option GoError)
    (shapeRects : List Rectangle) : List Request × Option GoError :=
  if shapeRects.length > 0 then
    let fillShape := Request.polyFillRectangle o.windowID o.gcID shapeRects
    match check fillShape with
    | some err => ([fillShape], some (.wrap "failed to draw crosshair" err))
    | none => ([fillShape], none)
  else ([], none)

/-- `Overlay.drawCrosshair` of `overlay.go`: the requests sent and the error
returned; `none` only if `GenerateShape` does not return. -/
def drawCrosshair (o : Overlay) (check : Request → Option GoError) :
    Option (List Request × Option GoError) :=
  match overlayShape o with
  | none => none
  | some shapeRects =>
    if o.config.Crosshair.OutlineThickness > 0 ∧ o.outlineGC ≠ 0 then
      let outlineRects := GenerateOutline shapeRects (wrap16 o.config.Crosshair.OutlineThickness)
      if outlineRects.length > 0 then
        let fillOutline := Request.polyFillRectangle o.windowID o.outlineGC outlineRects
        match check fillOutline with
        | some err => some ([fillOutline], some (.wrap "failed to draw outline" err))
        | none =>
          let rest := drawShapeLayer o check shapeRects
          some (fillOutline :: rest.1, rest.2)
      else some (drawShapeLayer o check shapeRects)
    else some (drawShapeLayer o check shapeRects)

/-- The events that `Run` tells apart: an `xproto.ExposeEvent`, or any other
event. -/
inductive Event where
  | exposeEvent
  | otherEvent (code : Nat)
deriving DecidableEq

/-- A result `(ev, err)` of `conn.WaitForEvent()`. -/
structure WaitResult where
  ev : Option Event
  err : Option GoError
deriving DecidableEq

/-- What one pass of the event loop does besides waiting: a call of
`drawCrosshair` with the requests it sent and its result, or the warning
logged after a failed call. -/
inductive LoopEffect where
  | repaint (requests : List Request) (result : Option GoError)
  | logWarning (cause : GoError)
deriving DecidableEq

/-- How the event loop stands after the results it was given: it has returned
an error or `nil`, or it is blocked in `WaitForEvent`. -/
inductive LoopOutcome where
  | returned (err : Option GoError)
  | waiting
deriving DecidableEq

/-- The effects of the case `xproto.ExposeEvent` of the loop: the call of
`drawCrosshair`, and the warning logged when it returned an error. -/
def repaintEffects (requests : List Request) (result : Option GoError) : List LoopEffect :=
  match result with
  | some err => [LoopEffect.repaint requests result, LoopEffect.logWarning err]
  | none => [LoopEffect.repaint requests result]

/-- The loop `for { ... }` of `Run`, over the successive results of
`WaitForEvent`. `checks n` is the answer of the server to the requests of pass
`n`. The result is `none` only if `drawCrosshair` does not return. -/
def eventLoop (o : Overlay) (checks : Nat → Request → Option GoError) :
    Nat → List WaitResult → Option (List LoopEffect × LoopOutcome)
  | _, [] => some ([], .waiting)
  | n, w :: rest =>
    match w.err with
    | some err => some ([], .returned (some (.wrap "X11 connection error" err)))
    | none =>
      match w.ev with
      | none => some ([], .returned none)
      | some .exposeEvent =>
        match drawCrosshair o (checks n) with
        | none => none
        | some (requests, result) =>
          match eventLoop o checks (n + 1) rest with
          | none => none
          | some (more, outcome) => some (repaintEffects requests result ++ more, outcome)
      | some (.otherEvent _) => eventLoop o checks (n + 1) rest

/-- `Overlay.Run` of `overlay.go`: the requests of the start-up sequence, the
effects of the event loop, and how the call stands. The start-up requests are
answered by `checks 0`, the passes of the loop by `checks 1`, `checks 2`, and
so on. -/
def Run (o : Overlay) (colorOf : String → Nat) (newWindowId : Except GoError Nat)
    (newGcontextId : Nat → Except GoError Nat) (checks : Nat → Request → Option GoError)
    (waits : List WaitResult) : Option (List Request × List LoopEffect × LoopOutcome) :=
  match createWindow o newWindowId (checks 0) with
  | (_, sent1, some err) => some (sent1, [], .returned (some err))
  | (o1, sent1, none) =>
    match createGraphicsContext o1 colorOf newGcontextId (checks 0) with
    | (_, sent2, some err) => some (sent1 ++ sent2, [], .returned (some err))
    | (o2, sent2, none) =>
      match applyShape o2 (checks 0) with
      | none => none
      | some (sent3, some err) => some (sent1 ++ sent2 ++ sent3, [], .returned (some err))
      | some (sent3, none) =>
        let mapRequest := Request.mapWindow o2.windowID
        match checks 0 mapRequest with
        | some err =>
          some (sent1 ++ sent2 ++ sent3 ++ [mapRequest], [],
            .returned (some (.wrap "failed to map window" err)))
        | none =>
          match drawCrosshair o2 (checks 0) with
          | none => none
          | some (sent4, some err) =>
            some (sent1 ++ sent2 ++ sent3 ++ [mapRequest] ++ sent4, [], .returned (some err))
          | some (sent4, none) =>
            match eventLoop o2 checks 1 waits with
            | none => none
            | some (effects, outcome) =>
              some (sent1 ++ sent2 ++ sent3 ++ [mapRequest] ++ sent4, effects, outcome)

/-- The fill requests that `drawCrosshair` has to send for the shape rectangles
`shapeRects`: the outline list with the outline graphics context, when the
outline thickness is positive, the outline context exists and the list is not
empty, then the shape list with the main graphics context, when it is not
empty. -/
def plannedFills (o : Overlay) (shapeRects : List Rectangle) : List Request :=
  (if 0 < o.config.Crosshair.OutlineThickness ∧ o.outlineGC ≠ 0
        ∧ GenerateOutline shapeRects (wrap16 o.config.Crosshair.OutlineThickness) ≠ [] then
      [Request.polyFillRectangle o.windowID o.outlineGC
        (GenerateOutline shapeRects (wrap16 o.config.Crosshair.OutlineThickness))]
    else [])
    ++ (if shapeRects ≠ [] then [Request.polyFillRectangle o.windowID o.gcID shapeRects]
        else [])

/-- The rectangles painted by a sequence of requests, each with the graphics
context that paints it, in the order of painting. -/
def paintedRects : List Request → List (Nat × Rectangle)
  | [] => []
  | Request.polyFillRectangle _ gc rectangles :: rest =>
    rectangles.map (fun r => (gc, r)) ++ paintedRects rest
  | _ :: rest => paintedRects rest

/-- The loop goes on after this result of `WaitForEvent`: no error and an
event. -/
def WaitResult.continues (w : WaitResult) : Bool :=
  w.err.isNone && w.ev.isSome

/-- The result of `WaitForEvent` is an exposure event. -/
def WaitResult.isExpose (w : WaitResult) : Bool :=
  decide (w.ev = some Event.exposeEvent)

/-- The number of calls of `drawCrosshair` among the effects of the loop. -/
def countRepaints : List LoopEffect → Nat
  | [] => 0
  | LoopEffect.repaint _ _ :: rest => countRepaints rest + 1
  | LoopEffect.logWarning _ :: rest => countRepaints rest

/-- How the loop must stand after the results `waits`: blocked when every
result lets it go on, and otherwise returned at the first result that does
not, with the wrapped error or with `nil`. -/
def expectedOutcome (waits : List WaitResult) : LoopOutcome :=
  match waits.dropWhile WaitResult.continues with
  | [] => .waiting
  | w :: _ =>
    match w.err with
    | some err => .returned (some (.wrap "X11 connection error" err))
    | none => .returned none

/-- Lines of a bar on the negative side of the centre line `c`, the bar
starting at line `start`: the `int16` difference `c - start`. -/
def linesBefore (c start : Int) : Int := sub16 c start

/-- Lines of a bar on the positive side of the centre line `c`, the bar
starting at line `start` and spanning `extent` lines. -/
def linesAfter (c start extent : Int) : Int := extent - 1 - sub16 c start

/-- An overlay with the default cross and an outline of one pixel, centred on
`(960, 540)`, after its window and graphics contexts were created. -/
def sampleOverlay : Overlay :=
  { conn := some 1
    screen := ⟨1920, 1080⟩
    windowID := 7
    gcID := 8
    outlineGC := 9
    config :=
      { Crosshair :=
          { Shape := "cross", Color := "#00FF00", Size := 10, Thickness := 2, Gap := 0,
            OutlineThickness := 1, OutlineColor := "#000000" }
        Position := { Monitor := 0, OffsetX := 0, OffsetY := 0 } }
    monitor := ⟨"default", 0, 0, 1920, 1080, true, true⟩
    centerX := 960
    centerY := 540 }

/-- Answers of a server that accepts every request except those of pass 3 of
the event loop. -/
def sampleChecks (n : Nat) (_ : Request) : Option GoError :=
  if n = 3 then some (.message "BadDrawable") else none

/-- A sequence of results of `WaitForEvent`: an exposure, another event, an
exposure, a connection error, and a result that the loop never reads. -/
def sampleWaits : List WaitResult :=
  [⟨some .exposeEvent, none⟩, ⟨some (.otherEvent 22), none⟩, ⟨some .exposeEvent, none⟩,
    ⟨none, some (.message "EOF")⟩, ⟨some .exposeEvent, none⟩]

/-! ## Sample servers -/

/-- A server whose RandR extension reports no output at all. -/
def emptyServer : Server :=
  { randrInit := none
    screenResources := .ok []
    outputPrimary := .ok 0
    outputInfo := fun _ => .error (.message "bad output")
    crtcInfo := fun _ => .error (.message "bad crtc") }

/-- A server without the RandR extension. -/
def failingServer : Server :=
  { randrInit := some (.message "RANDR extension missing")
    screenResources := .error (.message "no reply")
    outputPrimary := .error (.message "no reply")
    outputInfo := fun _ => .error (.message "bad output")
    crtcInfo := fun _ => .error (.message "bad crtc") }

/-- A server with three outputs: 66 is active at `(1920, 0)`, 67 is active at
`(0, 0)` and primary, 68 is disconnected. -/
def twoHeadServer : Server :=
  { randrInit := none
    screenResources := .ok [66, 67, 68]
    outputPrimary := .ok 67
    outputInfo := fun output =>
      if output = 66 then .ok { Name := "HDMI-1", Connection := 0, Crtc := 2 }
      else if output = 67 then .ok { Name := "DP-1", Connection := 0, Crtc := 1 }
      else if output = 68 then .ok { Name := "DP-2", Connection := 1, Crtc := 0 }
      else .error (.message "bad output")
    crtcInfo := fun crtc =>
      if crtc = 1 then .ok { X := 0, Y := 0, Width := 1920, Height := 1080 }
      else if crtc = 2 then .ok { X := 1920, Y := 0, Width := 1280, Height := 1024 }
      else .error (.message "bad crtc") }

/-! ## Invariants of the circle rasterizer -/

/-- What each pass of the loop maintains about the rows: every rectangle is a
scanline within the radius, the only line on the centre row has half-width
`r`, and the rows at offsets below `x` and above `y` in absolute value all have
a line. -/
def rowsInvariant (cx cy r x y : Int) (acc : List Rectangle) : Prop :=
  0 ≤ x ∧ (x = 0 → y = r)
    ∧ (∀ rect ∈ acc, ∃ k dy, rect = scanline cx cy k dy ∧ -r ≤ dy ∧ dy ≤ r ∧ 0 ≤ k ∧ k ≤ r
        ∧ (dy = 0 → k = r))
    ∧ (∀ dy, -x < dy → dy < x → ∃ k, scanline cx cy k dy ∈ acc)
    ∧ (∀ dy, (dy < -y ∨ y < dy) → -r ≤ dy → dy ≤ r → ∃ k, scanline cx cy k dy ∈ acc)
    ∧ (0 < x → scanline cx cy r 0 ∈ acc)

/-- What each pass of the loop maintains about the distances, for a radius small
enough for the decision variable not to wrap: `d` is
`2(x+1)^2 + y^2 + (y-1)^2 - 2r^2` plus four times the number of decrements of
`y`, the offsets of the next pass are within `r^2 + r` of the centre, and so
are the far ends of the scanlines emitted so far. -/
def distInvariant (cx cy r x y d : Int) (acc : List Rectangle) : Prop :=
  d = 2 * (x + 1) * (x + 1) + y * y + (y - 1) * (y - 1) - 2 * r * r + 4 * (r - y)
    ∧ -4 * r ≤ d
    ∧ (x ≤ y → x * x + y * y ≤ r * r + r)
    ∧ ∀ rect ∈ acc, ∃ k dy, rect = scanline cx cy k dy ∧ 0 ≤ k ∧ k ≤ r ∧ -r ≤ dy ∧ dy ≤ r
        ∧ k * k + dy * dy ≤ r * r + r

/-- The scanlines that a pass of the loop body at offsets `x` and `y` appends to
the slice. -/
def passLines (cx cy x y : Int) : List Rectangle :=
  (if 0 < x then [scanline cx cy y (-x), scanline cx cy y x] else [scanline cx cy y 0])
    ++ (if x ≠ y then [scanline cx cy x (-y), scanline cx cy x y] else [])

/-- What each pass of the loop maintains about repetitions: no rectangle occurs
twice in the slice, and each is a scanline emitted either on a row at an offset
below `x` in absolute value with a half-width of at least `y`, or with a
half-width below `x` on a row at an offset of at least `y` in absolute
value. -/
def nodupInvariant (cx cy r x y : Int) (acc : List Rectangle) : Prop :=
  acc.Nodup
    ∧ ∀ rect ∈ acc, ∃ k dy, rect = scanline cx cy k dy ∧ -r ≤ dy ∧ dy ≤ r
        ∧ ((-x < dy ∧ dy < x ∧ y ≤ k) ∨ (k < x ∧ (dy ≤ -y ∨ y ≤ dy)))

/-- The rectangle `a` lies inside the rectangle `b`: the columns and the rows
of `a` are columns and rows of `b`. -/
def Rectangle.within (a b : Rectangle) : Prop :=
  b.X ≤ a.X ∧ a.X + a.Width ≤ b.X + b.Width ∧ b.Y ≤ a.Y ∧ a.Y + a.Height ≤ b.Y + b.Height

instance (a b : Rectangle) : Decidable (a.within b) := by
  unfold Rectangle.within; infer_instance

/-- No rectangle of the list lies inside (or equals) another one. -/
def NoneWithinAnother (rects : List Rectangle) : Prop :=
  rects.Pairwise fun a b => ¬ a.within b ∧ ¬ b.within a

/-- The number of rectangles of the list that start on row `row`. -/
def countOnRow (rects : List Rectangle) (row : Int) : Nat :=
  (rects.filter fun rect => decide (rect.Y = row)).length

instance (rects : List Rectangle) : Decidable (NoneWithinAnother rects) := by
  unfold NoneWithinAnother; infer_instance

/-! ## Colour strings (`config.go`)

Go strings are modelled by their sequence of characters (`List Char`, the
`data` of a `String`): the configuration is read from valid UTF-8 text. The
library functions `strings.TrimSpace`, `strings.TrimPrefix`, `len` and
`strconv.ParseUint` are modelled after their documented behaviour. -/

/-- `unicode.IsSpace`: the white space characters of Unicode, which
`strings.TrimSpace` removes: tab, line feed, vertical tab, form feed, carriage
return, space, U+0085 and U+00A0 in Latin-1; beyond it U+1680, U+2000 to
U+200A, U+2028, U+2029, U+202F, U+205F and U+3000. -/
def IsSpace (c : Char) : Bool :=
  let r := c.toNat
  if r ≤ 255 then
    decide (r = 9 ∨ r = 10 ∨ r = 11 ∨ r = 12 ∨ r = 13 ∨ r = 32 ∨ r = 133 ∨ r = 160)
  else
    decide (r = 5760 ∨ (8192 ≤ r ∧ r ≤ 8202) ∨ r = 8232 ∨ r = 8233 ∨ r = 8239 ∨ r = 8287
      ∨ r = 12288)

/-- `strings.TrimSpace`: the string without its leading and trailing white
space. -/
def TrimSpace (s : List Char) : List Char :=
  ((s.dropWhile IsSpace).reverse.dropWhile IsSpace).reverse

/-- `strings.TrimPrefix`: the string without the leading string `lead`, or the
string itself when it does not start with `lead`. -/
def TrimPrefix (s lead : List Char) : List Char :=
  if lead.isPrefixOf s then s.drop lead.length else s

/-- Number of bytes of the UTF-8 encoding of a character. -/
def utf8Len (c : Char) : Nat :=
  if c.toNat < 128 then 1 else if c.toNat < 2048 then 2 else if c.toNat < 65536 then 3 else 4

/-- Go's `len` of a string: its number of bytes. -/
def len (s : List Char) : Nat :=
  (s.map utf8Len).sum

/-- The error of `strconv.ParseUint`, a `*NumError` for the input `num` whose
`Err` is `ErrSyntax` or `ErrRange`. -/
inductive NumError
  | ErrSyntax (num : List Char)
  | ErrRange (num : List Char)
  deriving DecidableEq

/-- The value of a byte as a digit in the loop of `strconv.ParseUint`: decimal
digits, then letters of either case from 10 on; any other byte (so every byte
of a character outside ASCII) is a syntax error. -/
def digitValue (c : Char) : Option Nat :=
  let b := c.toNat
  if 48 ≤ b ∧ b ≤ 57 then some (b - 48)
  else if 97 ≤ b ∧ b ≤ 122 then some (b - 97 + 10)
  else if 65 ≤ b ∧ b ≤ 90 then some (b - 65 + 10)
  else none

/-- The loop of `strconv.ParseUint` over the bytes of the string, with the
accumulator `n` in `uint64` arithmetic. -/
def parseUintLoop (base cutoff maxVal : Nat) (s0 : List Char) :
    List Char → Nat → Except NumError Nat
  | [], n => .ok n
  | c :: rest, n =>
    match digitValue c with
    | none => .error (.ErrSyntax s0)
    | some d =>
      if d ≥ base then .error (.ErrSyntax s0)
      else if n ≥ cutoff then .error (.ErrRange s0)
      else
        let n0 := n * base % 2 ^ 64
        let n1 := (n0 + d) % 2 ^ 64
        if n1 < n0 ∨ n1 > maxVal then .error (.ErrRange s0)
        else parseUintLoop base cutoff maxVal s0 rest n1

/-- `strconv.ParseUint(s, base, bitSize)` for an explicit base between 2 and 36
and a bit size between 1 and 64 (here: 16 and 32): no sign, no base prefix and
no underscore is accepted. The value returned next to an error is not
modelled. -/
def ParseUint (s : List Char) (base bitSize : Nat) : Except NumError Nat :=
  if s = [] then .error (.ErrSyntax s)
  else parseUintLoop base ((2 ^ 64 - 1) / base + 1) (2 ^ bitSize - 1) s s 0

/-- The errors of `ParseColor`: `color must be 6 hex digits (got %q)`, formatted
from what remained of the string, and `invalid hex color: %w`, wrapping the error
of `strconv.ParseUint`. -/
inductive ColorError
  | notSixBytes (got : List Char)
  | invalidHex (cause : NumError)
  deriving DecidableEq

/-- `ParseColor` of `config.go`: trims white space, removes a leading `#`, then
a leading `0x`, then a leading `0X`, requires six bytes and parses them in base
16 into a `uint32`. -/
def ParseColor (s : String) : Except ColorError Nat :=
  let s1 := TrimSpace s.data
  let s2 := TrimPrefix s1 ['#']
  let s3 := TrimPrefix s2 ['0', 'x']
  let s4 := TrimPrefix s3 ['0', 'X']
  if len s4 ≠ 6 then .error (.notSixBytes s4)
  else
    match ParseUint s4 16 32 with
    | .error err => .error (.invalidHex err)
    | .ok val => .ok (val % 2 ^ 32)

/-- A hexadecimal digit: `0` to `9`, `a` to `f` or `A` to `F`. -/
def isHexDigit (c : Char) : Prop :=
  (48 ≤ c.toNat ∧ c.toNat ≤ 57) ∨ (97 ≤ c.toNat ∧ c.toNat ≤ 102)
    ∨ (65 ≤ c.toNat ∧ c.toNat ≤ 70)

instance (c : Char) : Decidable (isHexDigit c) := by
  unfold isHexDigit; infer_instance

/-- A string of exactly six hexadecimal digits. -/
def sixHexDigits (h : List Char) : Prop :=
  h.length = 6 ∧ ∀ c ∈ h, isHexDigit c

instance (h : List Char) : Decidable (sixHexDigits h) := by
  unfold sixHexDigits; infer_instance

/-- The value of a hexadecimal digit. -/
def hexDigitValue (c : Char) : Nat :=
  if c.toNat ≤ 57 then c.toNat - 48
  else if 97 ≤ c.toNat then c.toNat - 87
  else c.toNat - 55

/-- The base-16 value of a string of hexadecimal digits, most significant digit
first. -/
def baseSixteenValue (h : List Char) : Nat :=
  h.foldl (fun n c => 16 * n + hexDigitValue c) 0

/-- What remains of a colour string after trimming the surrounding white space
and removing one optional lead, `#` or `0x`, of the formats `#RRGGBB`,
`0xRRGGBB` and `RRGGBB`. -/
def afterOptionalLead (s : String) : List Char :=
  let t := TrimSpace s.data
  if ['#'].isPrefixOf t then t.drop 1
  else if ['0', 'x'].isPrefixOf t then t.drop 2
  else t

/-- What remains of a colour string after trimming the surrounding white space
and removing, in this order, a leading `#`, a leading `0x` and a leading `0X`,
each if present. -/
def afterLeads (s : String) : List Char :=
  TrimPrefix (TrimPrefix (TrimPrefix (TrimSpace s.data) ['#']) ['0', 'x']) ['0', 'X']

/-! ## Closing the overlay -/

/-- The calls that the overlay makes on its connection besides the requests:
`(*xgb.Conn).Close`. -/
inductive ConnCall where
  | close (conn : Nat)
deriving DecidableEq

/-- `Overlay.Close` of `overlay.go`: the overlay after the call and the calls
made on the connection. The connection is closed when it is not nil; the
overlay keeps it. -/
def Close (o : Overlay) : Overlay × List ConnCall :=
  match o.conn with
  | some conn => (o, [.close conn])
  | none => (o, [])

/-- The state of the connections after a sequence of calls on them, `connClose`
being what `(*xgb.Conn).Close` of the library does to that state. -/
def connAfter {σ : Type} (connClose : Nat → σ → σ) (calls : List ConnCall) (s : σ) : σ :=
  calls.foldl (fun st call => match call with | .close conn => connClose conn st) s

/-! ## Basic facts on machine integers -/

theorem wrap16_of_isInt16 {z : Int} (h : isInt16 z) : wrap16 z = z := by
  unfold isInt16 at h
  unfold wrap16
  omega

theorem isInt16_wrap16 (z : Int) : isInt16 (wrap16 z) := by
  unfold isInt16 wrap16
  omega

theorem tdiv_of_nonneg {a : Int} (b : Nat) (h : 0 ≤ a) : Int.tdiv a b = a / b := by
  cases a with
  | ofNat n => rfl
  | negSucc n => exact absurd h (by simp)

theorem div16_of_nonneg {a : Int} (b : Nat) (h0 : 0 ≤ a) (h1 : a ≤ 32767) :
    div16 a b = a / b := by
  have hq : 0 ≤ a / (b : Int) := Int.ediv_nonneg h0 (Int.ofNat_nonneg b)
  have hle : a / (b : Int) ≤ a := Int.ediv_le_self _ h0
  unfold div16
  rw [tdiv_of_nonneg b h0]
  exact wrap16_of_isInt16 ⟨by omega, by omega⟩

theorem div16_two {a : Int} (h0 : 0 ≤ a) (h1 : a ≤ 32767) : div16 a 2 = a / 2 :=
  div16_of_nonneg 2 h0 h1

theorem toU16_of_isUInt16 {z : Int} (h : isUInt16 z) : toU16 z = z := by
  unfold isUInt16 at h
  unfold toU16
  omega

theorem toU16_double {s : Int} (h0 : 0 ≤ s) (h1 : s ≤ 32767) :
    toU16 (mul16 s 2) = 2 * s := by
  unfold toU16 mul16 wrap16
  omega

/-- Stored length of an arm of the gapped cross: `uint16(size - gap/2)`, which is
`size - gap/2` when the half gap fits in the size and `size - gap/2 + 65536`
when it does not. -/
theorem toU16_arm {size halfGap : Int} (hs : 0 ≤ size ∧ size ≤ 32767)
    (hg : 0 ≤ halfGap ∧ halfGap ≤ 32767) :
    toU16 (sub16 size halfGap) =
      if halfGap ≤ size then size - halfGap else size - halfGap + 65536 := by
  unfold toU16 sub16 wrap16
  split <;> omega

/-! ## The two branches of `GenerateCross` -/

/-- The branch `gap <= 0` of `GenerateCross`, for non-negative size and
thickness. -/
theorem GenerateCross_of_gap_nonpos (cx cy size thickness gap : Int)
    (hs : 0 ≤ size ∧ size ≤ 32767) (ht : 0 ≤ thickness ∧ thickness ≤ 32767)
    (hgap : gap ≤ 0) :
    GenerateCross cx cy size thickness gap =
      [ ⟨sub16 cx size, sub16 cy (thickness / 2), 2 * size, thickness⟩,
        ⟨sub16 cx (thickness / 2), sub16 cy size, thickness, 2 * size⟩ ] := by
  unfold GenerateCross
  rw [if_pos hgap, div16_two ht.1 ht.2, toU16_double hs.1 hs.2,
    toU16_of_isUInt16 (z := thickness) ⟨ht.1, by omega⟩]

/-- The branch `gap > 0` of `GenerateCross`, for non-negative size and
thickness. -/
theorem GenerateCross_of_gap_pos (cx cy size thickness gap : Int)
    (hs : 0 ≤ size ∧ size ≤ 32767) (ht : 0 ≤ thickness ∧ thickness ≤ 32767)
    (hgap : 0 < gap ∧ gap ≤ 32767) :
    GenerateCross cx cy size thickness gap =
      [ ⟨sub16 cx size, sub16 cy (thickness / 2),
          if gap / 2 ≤ size then size - gap / 2 else size - gap / 2 + 65536, thickness⟩,
        ⟨add16 cx (gap / 2), sub16 cy (thickness / 2),
          if gap / 2 ≤ size then size - gap / 2 else size - gap / 2 + 65536, thickness⟩,
        ⟨sub16 cx (thickness / 2), sub16 cy size, thickness,
          if gap / 2 ≤ size then size - gap / 2 else size - gap / 2 + 65536⟩,
        ⟨sub16 cx (thickness / 2), add16 cy (gap / 2), thickness,
          if gap / 2 ≤ size then size - gap / 2 else size - gap / 2 + 65536⟩ ] := by
  have hg2 : 0 ≤ gap / 2 ∧ gap / 2 ≤ 32767 := by omega
  unfold GenerateCross
  rw [if_neg (by omega), div16_two ht.1 ht.2, div16_two (by omega) hgap.2]
  dsimp only
  rw [toU16_arm hs hg2, toU16_of_isUInt16 (z := thickness) ⟨ht.1, by omega⟩]

/-! ## The solid cross -/

/-- C1. For every centre, every non-negative `int16` size and thickness and every
gap `<= 0`, `GenerateCross` (and `GenerateShape` with kind "cross") returns
exactly two rectangles, the horizontal bar
`(cx - size, cy - thickness/2, 2*size, thickness)` followed by the vertical bar
`(cx - thickness/2, cy - size, thickness, 2*size)`. The coordinates are the
`int16` differences of the source; they are the plain integer differences
whenever those lie in the `int16` range. -/
theorem GenerateCross_solid (cx cy size thickness gap : Int)
    (hs : 0 ≤ size ∧ size ≤ 32767) (ht : 0 ≤ thickness ∧ thickness ≤ 32767)
    (hgap : gap ≤ 0) :
    GenerateCross cx cy size thickness gap =
        [ ⟨sub16 cx size, sub16 cy (thickness / 2), 2 * size, thickness⟩,
          ⟨sub16 cx (thickness / 2), sub16 cy size, thickness, 2 * size⟩ ]
      ∧ GenerateShape "cross" cx cy size thickness gap =
          some (GenerateCross cx cy size thickness gap)
      ∧ (isInt16 (cx - size) → isInt16 (cy - size) →
          isInt16 (cx - thickness / 2) → isInt16 (cy - thickness / 2) →
          GenerateCross cx cy size thickness gap =
            [ ⟨cx - size, cy - thickness / 2, 2 * size, thickness⟩,
              ⟨cx - thickness / 2, cy - size, thickness, 2 * size⟩ ]) := by
  have hcross := GenerateCross_of_gap_nonpos cx cy size thickness gap hs ht hgap
  refine ⟨hcross, ?_, ?_⟩
  · unfold GenerateShape
    rw [if_pos rfl]
  · intro h1 h2 h3 h4
    rw [hcross]
    unfold sub16
    rw [wrap16_of_isInt16 h1, wrap16_of_isInt16 h2, wrap16_of_isInt16 h3,
      wrap16_of_isInt16 h4]

/-- Witness of C1: centre `(100, 100)`, size 10, thickness 2, gap 0 gives the bars
`(90, 99, 20, 2)` and `(99, 90, 2, 20)`. -/
theorem GenerateCross_solid_witness :
    GenerateCross 100 100 10 2 0 = [⟨90, 99, 20, 2⟩, ⟨99, 90, 2, 20⟩]
      ∧ GenerateShape "cross" 100 100 10 2 0 = some [⟨90, 99, 20, 2⟩, ⟨99, 90, 2, 20⟩] := by
  have h := GenerateCross_solid 100 100 10 2 0 (by decide) (by decide) (by decide)
  have hx := h.2.2 (by decide) (by decide) (by decide) (by decide)
  have hs := h.2.1
  rw [hx] at hs
  exact ⟨hx.trans (by decide), hs.trans (by decide)⟩

/-! ## The cross with a gap -/

/-- C2 fails as stated: with size 1, thickness 2 and gap 100 the arm length
`size - gap/2` would be `-49`; the code stores `uint16(-49) = 65487`. -/
theorem GenerateCross_gap_counterexample :
    GenerateCross 0 0 1 2 100 ≠
        [ ⟨0 - 1, 0 - 2 / 2, 1 - 100 / 2, 2⟩, ⟨0 + 100 / 2, 0 - 2 / 2, 1 - 100 / 2, 2⟩,
          ⟨0 - 2 / 2, 0 - 1, 2, 1 - 100 / 2⟩, ⟨0 - 2 / 2, 0 + 100 / 2, 2, 1 - 100 / 2⟩ ]
      ∧ GenerateCross 0 0 1 2 100 =
        [ ⟨-1, -1, 65487, 2⟩, ⟨50, -1, 65487, 2⟩, ⟨-1, -1, 2, 65487⟩, ⟨-1, 50, 2, 65487⟩ ] := by
  decide

/-- C2, amended. For every centre, every non-negative `int16` size and thickness
and every `int16` gap `> 0`, `GenerateCross` returns exactly four rectangles, in
the order left, right, top, bottom, at the positions the claim gives (in `int16`
arithmetic); each arm has length `size - gap/2` when `gap/2 <= size`, and the
wrapped length `size - gap/2 + 65536` when `gap/2 > size`. -/
theorem GenerateCross_gap (cx cy size thickness gap : Int)
    (hs : 0 ≤ size ∧ size ≤ 32767) (ht : 0 ≤ thickness ∧ thickness ≤ 32767)
    (hgap : 0 < gap ∧ gap ≤ 32767) :
    GenerateCross cx cy size thickness gap =
      [ ⟨sub16 cx size, sub16 cy (thickness / 2),
          if gap / 2 ≤ size then size - gap / 2 else size - gap / 2 + 65536, thickness⟩,
        ⟨add16 cx (gap / 2), sub16 cy (thickness / 2),
          if gap / 2 ≤ size then size - gap / 2 else size - gap / 2 + 65536, thickness⟩,
        ⟨sub16 cx (thickness / 2), sub16 cy size, thickness,
          if gap / 2 ≤ size then size - gap / 2 else size - gap / 2 + 65536⟩,
        ⟨sub16 cx (thickness / 2), add16 cy (gap / 2), thickness,
          if gap / 2 ≤ size then size - gap / 2 else size - gap / 2 + 65536⟩ ] :=
  GenerateCross_of_gap_pos cx cy size thickness gap hs ht hgap

/-- Witness of C2 (amended): centre `(100, 100)`, size 10, thickness 2, gap 4. -/
theorem GenerateCross_gap_witness :
    GenerateCross 100 100 10 2 4 =
      [ ⟨90, 99, 8, 2⟩, ⟨102, 99, 8, 2⟩, ⟨99, 90, 2, 8⟩, ⟨99, 102, 2, 8⟩ ] :=
  (GenerateCross_gap 100 100 10 2 4 (by decide) (by decide) (by decide)).trans (by decide)

/-! ## Overlap of the arms -/

/-- C3 fails as stated: with size 10, thickness 2 and gap 1 around `(0, 0)` the
left arm `(-10, -1, 10, 2)` and the top arm `(-1, -10, 2, 10)` both cover the
pixel `(-1, -1)`; and with size 1, thickness 2 and gap 100 the left arm
`(-1, -1, 65487, 2)` and the right arm `(50, -1, 65487, 2)` both cover the pixel
`(50, 0)`. -/
theorem GenerateCross_arms_overlap_counterexample :
    GenerateCross 0 0 10 2 1 =
        [ ⟨-10, -1, 10, 2⟩, ⟨0, -1, 10, 2⟩, ⟨-1, -10, 2, 10⟩, ⟨-1, 0, 2, 10⟩ ]
      ∧ Rectangle.covers ⟨-10, -1, 10, 2⟩ (-1) (-1)
      ∧ Rectangle.covers ⟨-1, -10, 2, 10⟩ (-1) (-1)
      ∧ ¬ PairwiseDisjoint (GenerateCross 0 0 10 2 1)
      ∧ ¬ PairwiseDisjoint (GenerateCross 0 0 1 2 100) := by
  refine ⟨by decide, by decide, by decide, ?_, ?_⟩
  · intro h
    have hg : GenerateCross 0 0 10 2 1 =
        [ ⟨-10, -1, 10, 2⟩, ⟨0, -1, 10, 2⟩, ⟨-1, -10, 2, 10⟩, ⟨-1, 0, 2, 10⟩ ] := by decide
    rw [hg] at h
    unfold PairwiseDisjoint at h
    have h02 := (List.pairwise_cons.1 h).1 ⟨-1, -10, 2, 10⟩ (by simp)
    exact h02 ⟨-1, -1, by decide, by decide⟩
  · intro h
    have hg : GenerateCross 0 0 1 2 100 =
        [ ⟨-1, -1, 65487, 2⟩, ⟨50, -1, 65487, 2⟩, ⟨-1, -1, 2, 65487⟩, ⟨-1, 50, 2, 65487⟩ ] := by
      decide
    rw [hg] at h
    unfold PairwiseDisjoint at h
    have h01 := (List.pairwise_cons.1 h).1 ⟨50, -1, 65487, 2⟩ (by simp)
    exact h01 ⟨50, 0, by decide, by decide⟩

/-- C3, amended. For every centre, every non-negative `int16` size and
thickness and every `int16` gap `> 0` such that the upper half of the thickness
fits in the half gap (`thickness - thickness/2 <= gap/2`) and the half gap fits
in the size (`gap/2 <= size`), no two of the four arms overlap. -/
theorem GenerateCross_arms_disjoint (cx cy size thickness gap : Int)
    (hs : 0 ≤ size ∧ size ≤ 32767) (ht : 0 ≤ thickness ∧ thickness ≤ 32767)
    (hgap : 0 < gap ∧ gap ≤ 32767)
    (hthick : thickness - thickness / 2 ≤ gap / 2) (hfit : gap / 2 ≤ size) :
    PairwiseDisjoint (GenerateCross cx cy size thickness gap) := by
  rw [GenerateCross_of_gap_pos cx cy size thickness gap hs ht hgap]
  simp only [if_pos hfit, PairwiseDisjoint, List.pairwise_cons, List.mem_cons,
    List.mem_singleton, List.not_mem_nil, forall_eq_or_imp, forall_eq, List.Pairwise.nil,
    Rectangle.overlaps, Rectangle.covers, sub16, add16, wrap16, not_exists, not_and,
    IsEmpty.forall_iff, implies_true, and_true]
  refine ⟨⟨?_, ?_, ?_⟩, ⟨?_, ?_⟩, ?_⟩ <;> intro px py <;> omega

/-- Witness of C3 (amended): centre `(100, 100)`, size 10, thickness 2, gap 4. -/
theorem GenerateCross_arms_disjoint_witness :
    PairwiseDisjoint (GenerateCross 100 100 10 2 4) :=
  GenerateCross_arms_disjoint 100 100 10 2 4 (by decide) (by decide) (by decide)
    (by decide) (by decide)

/-! ## The loop of the circle rasterizer -/

/-- Invariant rule for the loop of `generateFilledCircle`. Started with
`0 <= x`, `y <= r <= 32767` (and, when `y = 32767`, with `d > 0`, which makes
the first pass decrement `y`), the loop ends within `y + 1 - x` passes, never
wraps `x` or `y`, and maintains every property `Q` of the slice that each pass
of the body preserves at offsets `0 <= x <= y <= r`. -/
theorem circleLoop_rule (cx cy r : Int) (Q : List Rectangle → Prop)
    (hQ : ∀ x y acc, 0 ≤ x → x ≤ y → y ≤ r → Q acc → Q (circleEmit cx cy x y acc))
    (hr : r ≤ 32767) :
    ∀ (fuel : Nat) (x y d : Int) (acc : List Rectangle),
      0 ≤ x → y ≤ r → (y ≤ 32766 ∨ (0 < d ∧ x ≤ 32766)) → y + 1 - x ≤ fuel → Q acc →
      ∃ res, circleLoop cx cy fuel x y d acc = some res ∧ Q res := by
  intro fuel
  induction fuel with
  | zero =>
    intro x y d acc _ _ _ hfuel hacc
    refine ⟨acc, ?_, hacc⟩
    unfold circleLoop
    rw [if_neg (by omega)]
  | succ n ih =>
    intro x y d acc hx hy hd hfuel hacc
    unfold circleLoop
    by_cases hyx : y ≥ x
    · rw [if_pos hyx]
      have hx1 : add16 x 1 = x + 1 := by
        unfold add16 wrap16
        omega
      have hstep := hQ x y acc hx hyx hy hacc
      by_cases hdpos : d > 0
      · rw [if_pos hdpos]
        have hy1 : sub16 y 1 = y - 1 := by
          unfold sub16 wrap16
          omega
        dsimp only
        rw [hx1, hy1]
        exact ih _ _ _ _ (by omega) (by omega) (Or.inl (by omega)) (by omega) hstep
      · rw [if_neg hdpos]
        rw [hx1]
        exact ih _ _ _ _ (by omega) hy (Or.inl (by omega)) (by omega) hstep
    · rw [if_neg hyx]
      exact ⟨acc, rfl, hacc⟩

/-- Invariant rule for `generateFilledCircle`: for every radius
`0 <= r <= 32767` the function returns, and its result has every property that
holds of the empty slice and is preserved by each pass of the loop body. -/
theorem generateFilledCircle_rule (cx cy r : Int) (Q : List Rectangle → Prop)
    (hQ : ∀ x y acc, 0 ≤ x → x ≤ y → y ≤ r → Q acc → Q (circleEmit cx cy x y acc))
    (h0 : Q []) (hr0 : 0 ≤ r) (hr : r ≤ 32767) :
    ∃ res, generateFilledCircle cx cy r = some res ∧ Q res := by
  unfold generateFilledCircle
  apply circleLoop_rule cx cy r Q hQ hr loopBudget 0 r _ [] (le_refl 0) (le_refl r)
  · by_cases h : r ≤ 32766
    · exact Or.inl h
    · right
      have hr2 : r = 32767 := by omega
      subst hr2
      decide
  · unfold loopBudget
    omega
  · exact h0

/-! ## Shape of the scanlines -/

theorem makeCenteredLine_eq {k : Int} (cx row : Int) (h0 : 0 ≤ k) (h1 : k ≤ 32767) :
    makeCenteredLine cx row k = ⟨sub16 cx k, row, 2 * k + 1, 1⟩ := by
  have hw : toU16 (add16 (mul16 k 2) 1) = 2 * k + 1 := by
    unfold toU16 add16 mul16 wrap16
    omega
  unfold makeCenteredLine
  rw [hw]

theorem makeCenteredLine_above {k : Int} (cx cy m : Int) (h0 : 0 ≤ k) (h1 : k ≤ 32767) :
    makeCenteredLine cx (sub16 cy m) k = scanline cx cy k (-m) := by
  rw [makeCenteredLine_eq cx _ h0 h1]
  unfold scanline sub16 add16
  rw [← Int.sub_eq_add_neg]

theorem makeCenteredLine_below {k : Int} (cx cy m : Int) (h0 : 0 ≤ k) (h1 : k ≤ 32767) :
    makeCenteredLine cx (add16 cy m) k = scanline cx cy k m := by
  rw [makeCenteredLine_eq cx _ h0 h1]
  rfl

theorem makeCenteredLine_center {k cy : Int} (cx : Int) (hcy : isInt16 cy)
    (h0 : 0 ≤ k) (h1 : k ≤ 32767) :
    makeCenteredLine cx cy k = scanline cx cy k 0 := by
  rw [makeCenteredLine_eq cx _ h0 h1]
  unfold scanline add16
  rw [Int.add_zero, wrap16_of_isInt16 hcy]

/-- The rectangles in the slice after one pass of the loop body. -/
theorem mem_circleEmit {cx cy x y : Int} {acc : List Rectangle} {rect : Rectangle} :
    rect ∈ circleEmit cx cy x y acc ↔
      rect ∈ acc
      ∨ (0 < x ∧ (rect = makeCenteredLine cx (sub16 cy x) y
          ∨ rect = makeCenteredLine cx (add16 cy x) y))
      ∨ (¬ 0 < x ∧ rect = makeCenteredLine cx cy y)
      ∨ (x ≠ y ∧ (rect = makeCenteredLine cx (sub16 cy y) x
          ∨ rect = makeCenteredLine cx (add16 cy y) x)) := by
  unfold circleEmit
  dsimp only
  split_ifs <;> simp only [List.mem_append, List.mem_singleton] <;> tauto

/-- Every rectangle of the filled circle of radius `1 <= r <= 32767` is a
scanline of half-width `0 <= k <= r` on a row at offset `-r <= dy <= r`, and
the scanline of the same half-width on the opposite row is emitted too. -/
theorem generateFilledCircle_scanlines (cx cy r : Int) (hcy : isInt16 cy)
    (hr0 : 0 ≤ r) (hr : r ≤ 32767) :
    ∃ rects, generateFilledCircle cx cy r = some rects ∧
      ∀ rect ∈ rects, ∃ k dy, 0 ≤ k ∧ k ≤ r ∧ -r ≤ dy ∧ dy ≤ r ∧
        rect = scanline cx cy k dy ∧ scanline cx cy k (-dy) ∈ rects := by
  apply generateFilledCircle_rule cx cy r
    (fun acc => ∀ rect ∈ acc, ∃ k dy, 0 ≤ k ∧ k ≤ r ∧ -r ≤ dy ∧ dy ≤ r ∧
        rect = scanline cx cy k dy ∧ scanline cx cy k (-dy) ∈ acc) _ _ hr0 hr
  · intro x y acc hx hxy hy hacc rect hrect
    have hy0 : 0 ≤ y := by omega
    have hy1 : y ≤ 32767 := by omega
    have hx1 : x ≤ 32767 := by omega
    rcases mem_circleEmit.1 hrect with h | ⟨hpos, h | h⟩ | ⟨hpos, h⟩ | ⟨hne, h | h⟩
    · obtain ⟨k, dy, h1, h2, h3, h4, h5, h6⟩ := hacc rect h
      exact ⟨k, dy, h1, h2, h3, h4, h5, mem_circleEmit.2 (Or.inl h6)⟩
    · refine ⟨y, -x, hy0, hy, by omega, by omega, ?_, ?_⟩
      · rw [h, makeCenteredLine_above cx cy x hy0 hy1]
      · rw [neg_neg, ← makeCenteredLine_below cx cy x hy0 hy1]
        exact mem_circleEmit.2 (Or.inr (Or.inl ⟨hpos, Or.inr rfl⟩))
    · refine ⟨y, x, hy0, hy, by omega, by omega, ?_, ?_⟩
      · rw [h, makeCenteredLine_below cx cy x hy0 hy1]
      · rw [← makeCenteredLine_above cx cy x hy0 hy1]
        exact mem_circleEmit.2 (Or.inr (Or.inl ⟨hpos, Or.inl rfl⟩))
    · refine ⟨y, 0, hy0, hy, by omega, by omega, ?_, ?_⟩
      · rw [h, makeCenteredLine_center cx hcy hy0 hy1]
      · rw [neg_zero, ← makeCenteredLine_center cx hcy hy0 hy1]
        exact mem_circleEmit.2 (Or.inr (Or.inr (Or.inl ⟨hpos, rfl⟩)))
    · refine ⟨x, -y, hx, by omega, by omega, by omega, ?_, ?_⟩
      · rw [h, makeCenteredLine_above cx cy y hx hx1]
      · rw [neg_neg, ← makeCenteredLine_below cx cy y hx hx1]
        exact mem_circleEmit.2 (Or.inr (Or.inr (Or.inr ⟨hne, Or.inr rfl⟩)))
    · refine ⟨x, y, hx, by omega, by omega, by omega, ?_, ?_⟩
      · rw [h, makeCenteredLine_below cx cy y hx hx1]
      · rw [← makeCenteredLine_above cx cy y hx hx1]
        exact mem_circleEmit.2 (Or.inr (Or.inr (Or.inr ⟨hne, Or.inl rfl⟩)))
  · intro rect hrect
    exact absurd hrect (List.not_mem_nil rect)

/-! ## Positive extent -/

/-- C4 fails as stated: the cross of size 50, thickness 1 and gap 100, which
`Config.Validate` accepts, has four arms of length `50 - 100/2 = 0`; so has the
"cross-dot" of size 1, whose gap is raised to 2. -/
theorem GenerateShape_zero_area_counterexample :
    GenerateShape "cross" 0 0 50 1 100 =
        some [ ⟨-50, 0, 0, 1⟩, ⟨50, 0, 0, 1⟩, ⟨0, -50, 1, 0⟩, ⟨0, 50, 1, 0⟩ ]
      ∧ ¬ (∀ rects, GenerateShape "cross" 0 0 50 1 100 = some rects →
            ∀ rect ∈ rects, 0 < rect.Width ∧ 0 < rect.Height)
      ∧ ¬ (∀ rects, GenerateShape "cross-dot" 0 0 1 1 0 = some rects →
            ∀ rect ∈ rects, 0 < rect.Width ∧ 0 < rect.Height) := by
  refine ⟨by decide, ?_, ?_⟩
  · intro h
    have h0 := h [ ⟨-50, 0, 0, 1⟩, ⟨50, 0, 0, 1⟩, ⟨0, -50, 1, 0⟩, ⟨0, 50, 1, 0⟩ ] (by decide)
      ⟨-50, 0, 0, 1⟩ (by simp)
    exact absurd h0.1 (by decide)
  · intro h
    have h0 := h [ ⟨-1, 0, 0, 1⟩, ⟨1, 0, 0, 1⟩, ⟨0, -1, 1, 0⟩, ⟨0, 1, 1, 0⟩,
        ⟨-1, 0, 3, 1⟩, ⟨0, -1, 1, 1⟩, ⟨0, 1, 1, 1⟩ ] (by decide) ⟨-1, 0, 0, 1⟩ (by simp)
    exact absurd h0.1 (by decide)

/-- The rectangles of a cross have positive extent as soon as the size and the
thickness are positive and the half gap differs from the size. -/
theorem GenerateCross_positive (cx cy size thickness gap : Int)
    (hs : 1 ≤ size ∧ size ≤ 32767) (ht : 1 ≤ thickness ∧ thickness ≤ 32767)
    (hgap : gap ≤ 32767) (hne : gap / 2 ≠ size) :
    ∀ rect ∈ GenerateCross cx cy size thickness gap, 0 < rect.Width ∧ 0 < rect.Height := by
  by_cases hg : gap ≤ 0
  · rw [GenerateCross_of_gap_nonpos cx cy size thickness gap ⟨by omega, hs.2⟩ ⟨by omega, ht.2⟩ hg]
    intro rect hrect
    simp only [List.mem_cons, List.mem_singleton, List.not_mem_nil, or_false] at hrect
    rcases hrect with h | h <;> subst h <;> constructor <;> dsimp only <;> omega
  · rw [GenerateCross_of_gap_pos cx cy size thickness gap ⟨by omega, hs.2⟩ ⟨by omega, ht.2⟩
      ⟨by omega, hgap⟩]
    intro rect hrect
    simp only [List.mem_cons, List.mem_singleton, List.not_mem_nil, or_false] at hrect
    rcases hrect with h | h | h | h <;> subst h <;> constructor <;> dsimp only <;> omega

/-- The scanlines of a filled circle have positive extent. -/
theorem generateFilledCircle_positive (cx cy r : Int) (hr0 : 0 ≤ r) (hr : r ≤ 32767) :
    ∃ rects, generateFilledCircle cx cy r = some rects ∧
      ∀ rect ∈ rects, 0 < rect.Width ∧ 0 < rect.Height := by
  apply generateFilledCircle_rule cx cy r
    (fun acc => ∀ rect ∈ acc, 0 < rect.Width ∧ 0 < rect.Height) _ _ hr0 hr
  · intro x y acc hx hxy hy hacc rect hrect
    have hy0 : 0 ≤ y := by omega
    have hy1 : y ≤ 32767 := by omega
    have hx1 : x ≤ 32767 := by omega
    rcases mem_circleEmit.1 hrect with h | ⟨_, h | h⟩ | ⟨_, h⟩ | ⟨_, h | h⟩
    · exact hacc rect h
    all_goals
      first
        | rw [h, makeCenteredLine_eq cx _ hy0 hy1]
        | rw [h, makeCenteredLine_eq cx _ hx hx1]
      constructor <;> dsimp only <;> omega
  · intro rect hrect
    exact absurd hrect (List.not_mem_nil rect)

/-- The rectangles of a dot of positive size have positive extent. -/
theorem GenerateDot_positive (cx cy size : Int) (hs : 1 ≤ size ∧ size ≤ 32767) :
    ∃ rects, GenerateDot cx cy size = some rects ∧
      ∀ rect ∈ rects, 0 < rect.Width ∧ 0 < rect.Height := by
  unfold GenerateDot
  rw [if_neg (by omega), div16_two (by omega) hs.2]
  dsimp only
  by_cases h : size / 2 < 1
  · rw [if_pos h]
    refine ⟨_, rfl, ?_⟩
    intro rect hrect
    rw [List.mem_singleton] at hrect
    subst hrect
    exact ⟨Int.one_pos, Int.one_pos⟩
  · rw [if_neg h]
    exact generateFilledCircle_positive cx cy (size / 2) (by omega) (by omega)

theorem effectiveGap_eq_max (gap dotSize : Int) :
    (if gap < dotSize then dotSize else gap) = max gap dotSize := by
  split
  · exact (max_eq_right (by omega)).symm
  · exact (max_eq_left (by omega)).symm

/-- When half the gap equals the size, the left arm of the cross has length
zero. -/
theorem GenerateCross_zero_arm (cx cy size thickness gap : Int)
    (hs : 1 ≤ size ∧ size ≤ 32767) (ht : 1 ≤ thickness ∧ thickness ≤ 32767)
    (hgap : gap ≤ 32767) (heq : gap / 2 = size) :
    ∃ rect ∈ GenerateCross cx cy size thickness gap, rect.Width = 0 := by
  rw [GenerateCross_of_gap_pos cx cy size thickness gap ⟨by omega, hs.2⟩ ⟨by omega, ht.2⟩
    ⟨by omega, hgap⟩]
  refine ⟨_, List.mem_cons_self _ _, ?_⟩
  dsimp only
  omega

/-- What `GenerateShape` returns for the kinds that draw cross arms: the cross
with the gap `armGap`, followed by some further rectangles of positive extent
(the dot of the kind "cross-dot", nothing otherwise). -/
theorem GenerateShape_arms (shape : String) (cx cy size thickness gap : Int)
    (hs : 1 ≤ size ∧ size ≤ 32767) (hgap : 0 ≤ gap ∧ gap ≤ 32767)
    (h2 : shape ≠ "dot") (h3 : shape ≠ "circle") :
    armGap shape size gap ≤ 32767 ∧
      ∃ more, GenerateShape shape cx cy size thickness gap =
          some (GenerateCross cx cy size thickness (armGap shape size gap) ++ more)
        ∧ ∀ rect ∈ more, 0 < rect.Width ∧ 0 < rect.Height := by
  unfold GenerateShape armGap
  by_cases h4 : shape = "cross-dot"
  · have h1 : shape ≠ "cross" := by rw [h4]; decide
    rw [if_neg h1, if_neg h2, if_neg h3, if_pos h4, if_pos h4]
    have hd : div16 size 3 = size / 3 := div16_of_nonneg 3 (by omega) hs.2
    have hdot : 2 ≤ max (div16 size 3) 2 ∧ max (div16 size 3) 2 ≤ 32767 := by
      rw [hd]
      exact ⟨le_max_right _ _, max_le (by omega) (by omega)⟩
    obtain ⟨dot, hdoteq, hdotpos⟩ :=
      GenerateDot_positive cx cy (max (div16 size 3) 2) ⟨by omega, hdot.2⟩
    refine ⟨max_le hgap.2 hdot.2, dot, ?_, hdotpos⟩
    dsimp only
    unfold GenerateCrossDot
    rw [hdoteq, effectiveGap_eq_max]
  · rw [if_neg h4]
    refine ⟨hgap.2, [], ?_, ?_⟩
    · rw [List.append_nil]
      by_cases h1 : shape = "cross"
      · rw [if_pos h1]
      · rw [if_neg h1, if_neg h2, if_neg h3, if_neg h4]
    · intro rect hrect
      exact absurd hrect (List.not_mem_nil rect)

/-- C4, amended. For every shape kind, every centre and every `int16` size
`>= 1`, thickness `>= 1` and gap `>= 0`, `GenerateShape` returns, and every
rectangle it returns has width `> 0` and height `> 0` if and only if the kind is
"dot" or "circle" or half the gap handed to `GenerateCross` differs from the
size; when it equals the size, arms of length zero are emitted. -/
theorem GenerateShape_positive (shape : String) (cx cy size thickness gap : Int)
    (hs : 1 ≤ size ∧ size ≤ 32767) (ht : 1 ≤ thickness ∧ thickness ≤ 32767)
    (hgap : 0 ≤ gap ∧ gap ≤ 32767) :
    ∃ rects, GenerateShape shape cx cy size thickness gap = some rects ∧
      ((∀ rect ∈ rects, 0 < rect.Width ∧ 0 < rect.Height) ↔
        (shape ≠ "dot" → shape ≠ "circle" → armGap shape size gap / 2 ≠ size)) := by
  by_cases h2 : shape = "dot"
  · obtain ⟨rects, hrects, hpos⟩ := GenerateDot_positive cx cy size hs
    refine ⟨rects, ?_, ⟨fun _ h => absurd h2 h, fun _ => hpos⟩⟩
    unfold GenerateShape
    rw [if_neg (by rw [h2]; decide), if_pos h2]
    exact hrects
  by_cases h3 : shape = "circle"
  · obtain ⟨rects, hrects, hpos⟩ := generateFilledCircle_positive cx cy size (by omega) hs.2
    refine ⟨rects, ?_, ⟨fun _ _ h => absurd h3 h, fun _ => hpos⟩⟩
    unfold GenerateShape GenerateCircle
    rw [if_neg (by rw [h3]; decide), if_neg h2, if_pos h3, if_neg (by omega)]
    exact hrects
  obtain ⟨harm, more, hshape, hmore⟩ :=
    GenerateShape_arms shape cx cy size thickness gap hs hgap h2 h3
  refine ⟨_, hshape, ⟨?_, ?_⟩⟩
  · intro hpos _ _ heq
    obtain ⟨rect, hmem, hzero⟩ :=
      GenerateCross_zero_arm cx cy size thickness (armGap shape size gap) hs ht harm heq
    have hw := (hpos rect (List.mem_append.2 (Or.inl hmem))).1
    omega
  · intro hne rect hrect
    rcases List.mem_append.1 hrect with h | h
    · exact GenerateCross_positive cx cy size thickness _ hs ht harm (hne h2 h3) rect h
    · exact hmore rect h

/-- Witness of C4 (amended): the default cross, size 10, thickness 2, gap 0. -/
theorem GenerateShape_positive_witness :
    ∃ rects, GenerateShape "cross" 100 100 10 2 0 = some rects ∧
      ∀ rect ∈ rects, 0 < rect.Width ∧ 0 < rect.Height := by
  obtain ⟨rects, hrects, hiff⟩ :=
    GenerateShape_positive "cross" 100 100 10 2 0 (by decide) (by decide) (by decide)
  exact ⟨rects, hrects, hiff.2 (fun _ _ => by decide)⟩

/-! ## Dots and circles -/

/-- C5. For every centre and every `int16` size, `GenerateDot` returns the empty
sequence when `size <= 0`, exactly the one-pixel rectangle `(cx, cy, 1, 1)`
when `size/2 < 1`, that is when `size = 1`, and otherwise, for every
`size >= 2`, exactly what `GenerateCircle` returns for the radius `size/2`,
which is a result and not a failure. -/
theorem GenerateDot_cases (cx cy size : Int) (hsize : size ≤ 32767) :
    (size ≤ 0 → GenerateDot cx cy size = some [])
      ∧ (0 < size → size / 2 < 1 →
          size = 1 ∧ GenerateDot cx cy size = some [⟨cx, cy, 1, 1⟩])
      ∧ (2 ≤ size →
          1 ≤ size / 2
            ∧ GenerateDot cx cy size = generateFilledCircle cx cy (size / 2)
            ∧ GenerateDot cx cy size = GenerateCircle cx cy (size / 2)
            ∧ ∃ rects, GenerateDot cx cy size = some rects) := by
  refine ⟨?_, ?_, ?_⟩
  · intro h
    unfold GenerateDot
    rw [if_pos h]
  · intro h1 h2
    have h : size = 1 := by omega
    subst h
    exact ⟨rfl, rfl⟩
  · intro h
    have hdot : GenerateDot cx cy size = generateFilledCircle cx cy (size / 2) := by
      unfold GenerateDot
      rw [if_neg (by omega), div16_two (by omega) hsize]
      dsimp only
      rw [if_neg (by omega)]
    refine ⟨by omega, hdot, ?_, ?_⟩
    · rw [hdot]
      unfold GenerateCircle
      rw [if_neg (by omega)]
    · rw [hdot]
      obtain ⟨rects, hrects, _⟩ :=
        generateFilledCircle_positive cx cy (size / 2) (by omega) (by omega)
      exact ⟨rects, hrects⟩

/-- Witness of C5: centre `(0, 0)`, size 1 gives the single rectangle
`(0, 0, 1, 1)`. -/
theorem GenerateDot_cases_witness : GenerateDot 0 0 1 = some [⟨0, 0, 1, 1⟩] :=
  ((GenerateDot_cases 0 0 1 (by decide)).2.1 (by decide) (by decide)).2

/-- C6. `GenerateCircle` returns the empty sequence for every radius `<= 0`; for
every `int16` centre and every radius `1 <= r <= 32767` it returns, and every
rectangle it emits is `(cx - k, cy + dy, 2k + 1, 1)` for some `0 <= k <= r` and
`-r <= dy <= r`: odd width, centre pixel in column `cx`, within `[-r, r]` of the
centre on both axes. The coordinates are the `int16` ones of the source; they
are the plain integers `cx - k` and `cy + dy` whenever `cx - r`, `cy - r` and
`cy + r` lie in the `int16` range. -/
theorem GenerateCircle_form (cx cy r : Int) (hcx : isInt16 cx) (hcy : isInt16 cy)
    (hr : r ≤ 32767) :
    (r ≤ 0 → GenerateCircle cx cy r = some [])
      ∧ (1 ≤ r → ∃ rects, GenerateCircle cx cy r = some rects ∧
          ∀ rect ∈ rects, ∃ k dy, 0 ≤ k ∧ k ≤ r ∧ -r ≤ dy ∧ dy ≤ r
            ∧ rect = ⟨sub16 cx k, add16 cy dy, 2 * k + 1, 1⟩
            ∧ (isInt16 (cx - r) → isInt16 (cy - r) → isInt16 (cy + r) →
                rect = ⟨cx - k, cy + dy, 2 * k + 1, 1⟩)) := by
  refine ⟨?_, ?_⟩
  · intro h
    unfold GenerateCircle
    rw [if_pos h]
  · intro h
    obtain ⟨rects, hrects, hform⟩ :=
      generateFilledCircle_scanlines cx cy r hcy (by omega) hr
    refine ⟨rects, ?_, ?_⟩
    · unfold GenerateCircle
      rw [if_neg (by omega)]
      exact hrects
    · intro rect hrect
      obtain ⟨k, dy, h1, h2, h3, h4, h5, _⟩ := hform rect hrect
      refine ⟨k, dy, h1, h2, h3, h4, h5, ?_⟩
      intro hx1 hy1 hy2
      unfold isInt16 at hcx hcy hx1 hy1 hy2
      rw [h5]
      unfold scanline sub16 add16
      rw [wrap16_of_isInt16 (z := cx - k) ⟨by omega, by omega⟩,
        wrap16_of_isInt16 (z := cy + dy) ⟨by omega, by omega⟩]

/-- Witness of C6: the circle of radius 2 around `(100, 100)`. -/
theorem GenerateCircle_form_witness :
    ∃ rects, GenerateCircle 100 100 2 = some rects ∧
      ∀ rect ∈ rects, ∃ k dy, 0 ≤ k ∧ k ≤ 2 ∧ -2 ≤ dy ∧ dy ≤ 2
        ∧ rect = ⟨100 - k, 100 + dy, 2 * k + 1, 1⟩ := by
  obtain ⟨rects, hrects, hform⟩ :=
    (GenerateCircle_form 100 100 2 (by decide) (by decide) (by decide)).2 (by decide)
  refine ⟨rects, hrects, ?_⟩
  intro rect hrect
  obtain ⟨k, dy, h1, h2, h3, h4, _, h6⟩ := hform rect hrect
  exact ⟨k, dy, h1, h2, h3, h4, h6 (by decide) (by decide) (by decide)⟩

theorem reflectRows_scanline (cx cy k dy : Int) :
    reflectRows cy (scanline cx cy k dy) = scanline cx cy k (-dy) := by
  unfold reflectRows scanline add16 wrap16
  simp only [Rectangle.mk.injEq, true_and, and_true]
  omega

theorem reflectCols_scanline (cx cy k dy : Int) :
    reflectCols cx (scanline cx cy k dy) = scanline cx cy k dy := by
  unfold reflectCols scanline sub16 wrap16
  simp only [Rectangle.mk.injEq, true_and, and_true]
  omega

/-- C7. For every centre with an `int16` row and every radius `1 <= r <= 32767`, the set of
rectangles emitted by the circle rasterizer is invariant under the reflection
in the horizontal axis through the centre (row `cy + dy` to row `cy - dy`) and
under the reflection in the vertical axis through the centre (column `cx + dx`
to column `cx - dx`): the mirror image of every emitted rectangle is emitted.
Positions are those of the `int16` coordinate space; when `cy - r`, `cy + r`,
`cx - r` and `cx + r` lie in the `int16` range the mirror images are the plain
integer ones, row `2*cy - Y` and first column `2*cx - (X + Width - 1)`. -/
theorem GenerateCircle_symmetric (cx cy r : Int) (hcy : isInt16 cy)
    (hr0 : 1 ≤ r) (hr : r ≤ 32767) :
    ∃ rects, GenerateCircle cx cy r = some rects ∧
      ∀ rect ∈ rects,
        reflectRows cy rect ∈ rects ∧ reflectCols cx rect ∈ rects
          ∧ (isInt16 (cy - r) → isInt16 (cy + r) →
              { rect with Y := 2 * cy - rect.Y } ∈ rects)
          ∧ (isInt16 (cx - r) → isInt16 (cx + r) →
              { rect with X := 2 * cx - (rect.X + rect.Width - 1) } ∈ rects) := by
  obtain ⟨rects, hrects, hform⟩ :=
    generateFilledCircle_scanlines cx cy r hcy (by omega) hr
  refine ⟨rects, ?_, ?_⟩
  · unfold GenerateCircle
    rw [if_neg (by omega)]
    exact hrects
  · intro rect hrect
    obtain ⟨k, dy, h1, h2, h3, h4, h5, h6⟩ := hform rect hrect
    have hrows : reflectRows cy rect ∈ rects := by
      rw [h5, reflectRows_scanline]
      exact h6
    have hcols : reflectCols cx rect ∈ rects := by
      rw [h5, reflectCols_scanline, ← h5]
      exact hrect
    refine ⟨hrows, hcols, ?_, ?_⟩
    · intro hy1 hy2
      have heq : { rect with Y := 2 * cy - rect.Y } = reflectRows cy rect := by
        unfold isInt16 at hcy hy1 hy2
        rw [h5]
        unfold reflectRows scanline add16 wrap16
        simp only [Rectangle.mk.injEq, true_and, and_true]
        omega
      rw [heq]
      exact hrows
    · intro hx1 hx2
      have heq : { rect with X := 2 * cx - (rect.X + rect.Width - 1) }
          = reflectCols cx rect := by
        unfold isInt16 at hx1 hx2
        rw [h5]
        unfold reflectCols scanline sub16 wrap16
        simp only [Rectangle.mk.injEq, true_and, and_true]
        omega
      rw [heq]
      exact hcols

/-- Witness of C7: the circle of radius 2 around `(100, 100)`. -/
theorem GenerateCircle_symmetric_witness :
    ∃ rects, GenerateCircle 100 100 2 = some rects ∧
      ∀ rect ∈ rects,
        { rect with Y := 2 * 100 - rect.Y } ∈ rects
          ∧ { rect with X := 2 * 100 - (rect.X + rect.Width - 1) } ∈ rects := by
  obtain ⟨rects, hrects, hsym⟩ :=
    GenerateCircle_symmetric 100 100 2 (by decide) (by decide) (by decide)
  refine ⟨rects, hrects, ?_⟩
  intro rect hrect
  obtain ⟨_, _, h3, h4⟩ := hsym rect hrect
  exact ⟨h3 (by decide) (by decide), h4 (by decide) (by decide)⟩

/-! ## The cross with a dot -/

/-- The dot of every size `2 <= dotSize <= 32767` is generated. -/
theorem GenerateDot_returns (cx cy dotSize : Int) (h : 1 ≤ dotSize ∧ dotSize ≤ 32767) :
    ∃ rects, GenerateDot cx cy dotSize = some rects := by
  obtain ⟨rects, hrects, _⟩ := GenerateDot_positive cx cy dotSize h
  exact ⟨rects, hrects⟩

theorem dotSize_range (size : Int) :
    2 ≤ max (div16 size 3) 2 ∧ max (div16 size 3) 2 ≤ 32767 := by
  have h := isInt16_wrap16 (Int.tdiv size 3)
  unfold isInt16 at h
  exact ⟨le_max_right _ _, max_le h.2 (by omega)⟩

/-- C8. For every centre, size, thickness and gap, `GenerateShape` with kind
"cross-dot" returns `GenerateCross(centre, size, thickness, max(gap, dotSize))`
followed by `GenerateDot(centre, dotSize)`, where `dotSize = max(size/3, 2)`
(`int16` quotient); its length is the number of cross rectangles plus the number
of dot rectangles. With centre `(0, 0)`, size 30, thickness 2 and gap 0 the dot
size and the effective gap are 10, the result is the four arms followed by the
fifteen scanlines of the circle of radius 5, and every dot rectangle lies
within offsets `[-5, 5]` of the centre on both axes. -/
theorem GenerateShape_crossDot (cx cy size thickness gap : Int) :
    (∃ dot, GenerateDot cx cy (max (div16 size 3) 2) = some dot
        ∧ GenerateShape "cross-dot" cx cy size thickness gap =
            some (GenerateCross cx cy size thickness (max gap (max (div16 size 3) 2)) ++ dot)
        ∧ (GenerateCross cx cy size thickness (max gap (max (div16 size 3) 2)) ++ dot).length =
            (GenerateCross cx cy size thickness (max gap (max (div16 size 3) 2))).length
              + dot.length)
      ∧ max (div16 30 3) 2 = 10 ∧ max (0 : Int) (max (div16 30 3) 2) = 10
      ∧ GenerateCross 0 0 30 2 10 =
          [ ⟨-30, -1, 25, 2⟩, ⟨5, -1, 25, 2⟩, ⟨-1, -30, 2, 25⟩, ⟨-1, 5, 2, 25⟩ ]
      ∧ GenerateDot 0 0 10 = GenerateCircle 0 0 5
      ∧ GenerateDot 0 0 10 =
          some [ ⟨-5, 0, 11, 1⟩, ⟨0, -5, 1, 1⟩, ⟨0, 5, 1, 1⟩, ⟨-5, -1, 11, 1⟩, ⟨-5, 1, 11, 1⟩,
            ⟨-1, -5, 3, 1⟩, ⟨-1, 5, 3, 1⟩, ⟨-5, -2, 11, 1⟩, ⟨-5, 2, 11, 1⟩, ⟨-2, -5, 5, 1⟩,
            ⟨-2, 5, 5, 1⟩, ⟨-4, -3, 9, 1⟩, ⟨-4, 3, 9, 1⟩, ⟨-3, -4, 7, 1⟩, ⟨-3, 4, 7, 1⟩ ]
      ∧ GenerateShape "cross-dot" 0 0 30 2 0 =
          some ([ ⟨-30, -1, 25, 2⟩, ⟨5, -1, 25, 2⟩, ⟨-1, -30, 2, 25⟩, ⟨-1, 5, 2, 25⟩ ] ++
            [ ⟨-5, 0, 11, 1⟩, ⟨0, -5, 1, 1⟩, ⟨0, 5, 1, 1⟩, ⟨-5, -1, 11, 1⟩, ⟨-5, 1, 11, 1⟩,
              ⟨-1, -5, 3, 1⟩, ⟨-1, 5, 3, 1⟩, ⟨-5, -2, 11, 1⟩, ⟨-5, 2, 11, 1⟩, ⟨-2, -5, 5, 1⟩,
              ⟨-2, 5, 5, 1⟩, ⟨-4, -3, 9, 1⟩, ⟨-4, 3, 9, 1⟩, ⟨-3, -4, 7, 1⟩, ⟨-3, 4, 7, 1⟩ ])
      ∧ (∀ dot, GenerateDot 0 0 10 = some dot → ∀ rect ∈ dot,
          -5 ≤ rect.X ∧ rect.X + rect.Width - 1 ≤ 5 ∧ -5 ≤ rect.Y
            ∧ rect.Y + rect.Height - 1 ≤ 5) := by
  refine ⟨?_, by decide, by decide, by decide, by decide, by decide, by decide, ?_⟩
  · have hdot := dotSize_range size
    obtain ⟨dot, hdoteq⟩ :=
      GenerateDot_returns cx cy (max (div16 size 3) 2) ⟨by omega, hdot.2⟩
    refine ⟨dot, hdoteq, ?_, List.length_append _ _⟩
    unfold GenerateShape
    rw [if_neg (by decide), if_neg (by decide), if_neg (by decide), if_pos rfl]
    dsimp only
    unfold GenerateCrossDot
    rw [hdoteq, effectiveGap_eq_max]
  · intro dot hdot
    have hval : GenerateDot 0 0 10 =
        some [ ⟨-5, 0, 11, 1⟩, ⟨0, -5, 1, 1⟩, ⟨0, 5, 1, 1⟩, ⟨-5, -1, 11, 1⟩, ⟨-5, 1, 11, 1⟩,
          ⟨-1, -5, 3, 1⟩, ⟨-1, 5, 3, 1⟩, ⟨-5, -2, 11, 1⟩, ⟨-5, 2, 11, 1⟩, ⟨-2, -5, 5, 1⟩,
          ⟨-2, 5, 5, 1⟩, ⟨-4, -3, 9, 1⟩, ⟨-4, 3, 9, 1⟩, ⟨-3, -4, 7, 1⟩, ⟨-3, 4, 7, 1⟩ ] := by
      decide
    rw [hval] at hdot
    cases hdot
    decide

/-- C9 fails on the code: in the "cross-dot" of size 30, thickness 2 and gap 0
around `(0, 0)` the right arm `(5, -1, 25, 2)` and the centre scanline
`(-5, 0, 11, 1)` of the dot both cover the pixel `(5, 0)`, and the bottom arm
`(-1, 5, 2, 25)` and the scanline `(0, 5, 1, 1)` both cover the pixel
`(0, 5)`. -/
theorem GenerateShape_crossDot_collision :
    GenerateShape "cross-dot" 0 0 30 2 0 =
        some (GenerateCross 0 0 30 2 10 ++
          [ ⟨-5, 0, 11, 1⟩, ⟨0, -5, 1, 1⟩, ⟨0, 5, 1, 1⟩, ⟨-5, -1, 11, 1⟩, ⟨-5, 1, 11, 1⟩,
            ⟨-1, -5, 3, 1⟩, ⟨-1, 5, 3, 1⟩, ⟨-5, -2, 11, 1⟩, ⟨-5, 2, 11, 1⟩, ⟨-2, -5, 5, 1⟩,
            ⟨-2, 5, 5, 1⟩, ⟨-4, -3, 9, 1⟩, ⟨-4, 3, 9, 1⟩, ⟨-3, -4, 7, 1⟩, ⟨-3, 4, 7, 1⟩ ])
      ∧ GenerateDot 0 0 10 =
        some [ ⟨-5, 0, 11, 1⟩, ⟨0, -5, 1, 1⟩, ⟨0, 5, 1, 1⟩, ⟨-5, -1, 11, 1⟩, ⟨-5, 1, 11, 1⟩,
          ⟨-1, -5, 3, 1⟩, ⟨-1, 5, 3, 1⟩, ⟨-5, -2, 11, 1⟩, ⟨-5, 2, 11, 1⟩, ⟨-2, -5, 5, 1⟩,
          ⟨-2, 5, 5, 1⟩, ⟨-4, -3, 9, 1⟩, ⟨-4, 3, 9, 1⟩, ⟨-3, -4, 7, 1⟩, ⟨-3, 4, 7, 1⟩ ]
      ∧ (⟨5, -1, 25, 2⟩ : Rectangle) ∈ GenerateCross 0 0 30 2 10
      ∧ Rectangle.covers ⟨5, -1, 25, 2⟩ 5 0 ∧ Rectangle.covers ⟨-5, 0, 11, 1⟩ 5 0
      ∧ (⟨-1, 5, 2, 25⟩ : Rectangle) ∈ GenerateCross 0 0 30 2 10
      ∧ Rectangle.covers ⟨-1, 5, 2, 25⟩ 0 5 ∧ Rectangle.covers ⟨0, 5, 1, 1⟩ 0 5
      ∧ Rectangle.overlaps ⟨5, -1, 25, 2⟩ ⟨-5, 0, 11, 1⟩
      ∧ Rectangle.overlaps ⟨-1, 5, 2, 25⟩ ⟨0, 5, 1, 1⟩ := by
  refine ⟨by decide, by decide, by decide, by decide, by decide, by decide, by decide,
    by decide, ⟨5, 0, by decide, by decide⟩, ⟨0, 5, by decide, by decide⟩⟩

/-! ## Outlines -/

/-- C10. For every rectangle list and every `int16` outline thickness `t`,
`GenerateOutline` is empty when `t <= 0`; when `t > 0` it has the length of the
input and its `i`-th rectangle is the `i`-th input rectangle grown by `t` on
all four sides: `x - t`, `y - t`, `width + 2t`, `height + 2t`. The results are
those of the `int16` subtraction and of the `uint16` addition of the source;
they are the plain integers whenever `x - t` and `y - t` lie in the `int16`
range and `width + 2t` and `height + 2t` in the `uint16` range. -/
theorem GenerateOutline_grows (rects : List Rectangle) (t : Int) (ht : t ≤ 32767) :
    (t ≤ 0 → GenerateOutline rects t = [])
      ∧ (0 < t →
          (GenerateOutline rects t).length = rects.length
            ∧ ∀ (i : Nat) (r : Rectangle), rects[i]? = some r →
                (GenerateOutline rects t)[i]? =
                    some ⟨sub16 r.X t, sub16 r.Y t, addU16 r.Width (2 * t),
                      addU16 r.Height (2 * t)⟩
                  ∧ (isInt16 (r.X - t) → isInt16 (r.Y - t) →
                      isUInt16 (r.Width + 2 * t) → isUInt16 (r.Height + 2 * t) →
                      (GenerateOutline rects t)[i]? =
                        some ⟨r.X - t, r.Y - t, r.Width + 2 * t, r.Height + 2 * t⟩)) := by
  refine ⟨?_, ?_⟩
  · intro h
    unfold GenerateOutline
    rw [if_pos h]
  · intro h
    have hmul : toU16 (mul16 t 2) = 2 * t := toU16_double (by omega) ht
    have hout : GenerateOutline rects t = rects.map fun r =>
        ⟨sub16 r.X t, sub16 r.Y t, addU16 r.Width (2 * t), addU16 r.Height (2 * t)⟩ := by
      unfold GenerateOutline
      rw [if_neg (by omega), hmul]
    refine ⟨?_, ?_⟩
    · rw [hout, List.length_map]
    · intro i r hr
      have hi : (GenerateOutline rects t)[i]? =
          some ⟨sub16 r.X t, sub16 r.Y t, addU16 r.Width (2 * t),
            addU16 r.Height (2 * t)⟩ := by
        rw [hout, List.getElem?_map, hr]
        rfl
      refine ⟨hi, ?_⟩
      intro h1 h2 h3 h4
      rw [hi]
      unfold sub16 addU16
      rw [wrap16_of_isInt16 h1, wrap16_of_isInt16 h2, toU16_of_isUInt16 h3,
        toU16_of_isUInt16 h4]

/-- Witness of C10: the bars of the default cross grown by 1. -/
theorem GenerateOutline_grows_witness :
    (GenerateOutline [⟨90, 99, 20, 2⟩, ⟨99, 90, 2, 20⟩] 1).length = 2
      ∧ (GenerateOutline [⟨90, 99, 20, 2⟩, ⟨99, 90, 2, 20⟩] 1)[1]? =
          some ⟨99 - 1, 90 - 1, 2 + 2 * 1, 20 + 2 * 1⟩ := by
  have h := (GenerateOutline_grows [⟨90, 99, 20, 2⟩, ⟨99, 90, 2, 20⟩] 1 (by decide)).2
    (by decide)
  exact ⟨h.1, (h.2 1 ⟨99, 90, 2, 20⟩ rfl).2 (by decide) (by decide) (by decide) (by decide)⟩

/-! ## Selection of a monitor -/

theorem firstPrimary_append (pre post : List Monitor) (m : Monitor)
    (hpre : ∀ p ∈ pre, p.Primary = false) (hm : m.Primary = true) :
    firstPrimary (pre ++ m :: post) = some m := by
  induction pre with
  | nil =>
    rw [List.nil_append, firstPrimary, if_pos hm]
  | cons p rest ih =>
    have hp : p.Primary = false := hpre p (List.mem_cons_self _ _)
    rw [List.cons_append, firstPrimary, hp]
    exact ih (fun q hq => hpre q (List.mem_cons_of_mem _ hq))

theorem firstPrimary_none (monitors : List Monitor)
    (hall : ∀ p ∈ monitors, p.Primary = false) : firstPrimary monitors = none := by
  induction monitors with
  | nil => rfl
  | cons p rest ih =>
    have hp : p.Primary = false := hall p (List.mem_cons_self _ _)
    rw [firstPrimary, hp]
    exact ih (fun q hq => hall q (List.mem_cons_of_mem _ hq))

/-- With index `-1` and a non-empty list, `SelectMonitor` answers the result of
the search for a primary monitor, and the first monitor when there is none. -/
theorem SelectMonitor_minus_one (first : Monitor) (rest : List Monitor) :
    SelectMonitor (first :: rest) (-1) =
      match firstPrimary (first :: rest) with
      | some m => m
      | none => first := by
  unfold SelectMonitor
  rw [dif_neg (by simp), if_pos rfl]
  rfl

/-- C11. For every non-empty monitor list, `SelectMonitor(monitors, -1)` returns
the first monitor of the list whose `Primary` flag is set (the monitor `m` of
any splitting `pre ++ m :: post` of the list with no flag set in `pre`), and
`monitors[0]` if no monitor is flagged; in particular, on a list with exactly
one flagged monitor it returns that monitor, whatever its position. -/
theorem SelectMonitor_primary (monitors : List Monitor) (hne : monitors ≠ []) :
    (∀ pre m post, monitors = pre ++ m :: post → (∀ p ∈ pre, p.Primary = false) →
        m.Primary = true → SelectMonitor monitors (-1) = m)
      ∧ ((∀ p ∈ monitors, p.Primary = false) →
          monitors.head? = some (SelectMonitor monitors (-1)))
      ∧ (∀ pre m post, monitors = pre ++ m :: post → m.Primary = true →
          (∀ p ∈ pre ++ post, p.Primary = false) → SelectMonitor monitors (-1) = m) := by
  obtain ⟨first, rest, hmon⟩ := List.exists_cons_of_ne_nil hne
  have hfirst : ∀ pre m post, monitors = pre ++ m :: post →
      (∀ p ∈ pre, p.Primary = false) → m.Primary = true →
      SelectMonitor monitors (-1) = m := by
    intro pre m post hsplit hpre hm
    have hfp := firstPrimary_append pre post m hpre hm
    rw [← hsplit, hmon] at hfp
    rw [hmon, SelectMonitor_minus_one, hfp]
  refine ⟨hfirst, ?_, ?_⟩
  · intro hall
    have hfp := firstPrimary_none monitors hall
    rw [hmon] at hfp
    rw [hmon, SelectMonitor_minus_one, hfp]
    rfl
  · intro pre m post hsplit hm hothers
    exact hfirst pre m post hsplit
      (fun p hp => hothers p (List.mem_append.2 (Or.inl hp))) hm

/-- Witness of C11: the only primary monitor is the last of three. -/
theorem SelectMonitor_primary_witness :
    SelectMonitor [⟨"a", 0, 0, 1920, 1080, false, true⟩, ⟨"b", 1920, 0, 1920, 1080, false, true⟩,
        ⟨"c", 3840, 0, 1920, 1080, true, true⟩] (-1) = ⟨"c", 3840, 0, 1920, 1080, true, true⟩ :=
  (SelectMonitor_primary
      [⟨"a", 0, 0, 1920, 1080, false, true⟩, ⟨"b", 1920, 0, 1920, 1080, false, true⟩,
        ⟨"c", 3840, 0, 1920, 1080, true, true⟩] (by decide)).2.2
    [⟨"a", 0, 0, 1920, 1080, false, true⟩, ⟨"b", 1920, 0, 1920, 1080, false, true⟩]
    ⟨"c", 3840, 0, 1920, 1080, true, true⟩ [] rfl rfl (by decide)

/-- C12. For every monitor list and every index `i` with `0 <= i < len(monitors)`,
`SelectMonitor(monitors, i)` returns exactly the monitor at position `i` of the
list, with all its fields. -/
theorem SelectMonitor_index (monitors : List Monitor) (i : Nat) (hi : i < monitors.length) :
    SelectMonitor monitors (i : Int) = monitors.get ⟨i, hi⟩
      ∧ monitors[i]? = some (SelectMonitor monitors (i : Int)) := by
  have hsel : SelectMonitor monitors (i : Int) = monitors.get ⟨i, hi⟩ := by
    unfold SelectMonitor
    rw [dif_neg (by omega), if_neg (by omega), dif_pos ⟨by omega, by omega⟩]
    rfl
  refine ⟨hsel, ?_⟩
  rw [hsel, List.getElem?_eq_getElem hi]
  rfl

/-- Witness of C12: index 1 of a list of two monitors. -/
theorem SelectMonitor_index_witness :
    SelectMonitor [⟨"a", 0, 0, 1920, 1080, true, true⟩, ⟨"b", 1920, 0, 1280, 1024, false, true⟩] 1
      = ⟨"b", 1920, 0, 1280, 1024, false, true⟩ :=
  (SelectMonitor_index
    [⟨"a", 0, 0, 1920, 1080, true, true⟩, ⟨"b", 1920, 0, 1280, 1024, false, true⟩] 1
    (by decide)).1

/-- C13 fails as stated: the index `-1` lies outside `[0, len)`, and on the list
of a monitor `a` that is not primary followed by a primary monitor `b` the
answer is `b`, not the first element `a`. -/
theorem SelectMonitor_fallback_counterexample :
    ¬ ((0 : Int) ≤ -1 ∧ (-1 : Int) < 2)
      ∧ SelectMonitor [⟨"a", 0, 0, 1920, 1080, false, true⟩,
          ⟨"b", 1920, 0, 1920, 1080, true, true⟩] (-1) = ⟨"b", 1920, 0, 1920, 1080, true, true⟩
      ∧ SelectMonitor [⟨"a", 0, 0, 1920, 1080, false, true⟩,
          ⟨"b", 1920, 0, 1920, 1080, true, true⟩] (-1) ≠ ⟨"a", 0, 0, 1920, 1080, false, true⟩ := by
  decide

theorem firstPrimary_flag (monitors : List Monitor) (m : Monitor)
    (h : firstPrimary monitors = some m) : m.Primary = true := by
  induction monitors with
  | nil => exact absurd h (by simp [firstPrimary])
  | cons p rest ih =>
    rw [firstPrimary] at h
    by_cases hp : p.Primary = true
    · rw [if_pos hp] at h
      cases h
      exact hp
    · rw [if_neg hp] at h
      exact ih h

/-- With an index that is neither `-1` nor a position of the non-empty list,
`SelectMonitor` answers the first monitor. -/
theorem SelectMonitor_out_of_range (first : Monitor) (rest : List Monitor) (i : Int)
    (hout : ¬ (0 ≤ i ∧ i < (first :: rest).length)) (hi : i ≠ -1) :
    SelectMonitor (first :: rest) i = first := by
  unfold SelectMonitor
  rw [dif_neg (by simp), if_neg hi, dif_neg hout]
  rfl

/-- C13, amended. For every non-empty monitor list and every index `i` outside
`[0, len(monitors))` other than `-1`, `SelectMonitor(monitors, i)` returns the
first element of the list; for `i = -1` it returns the first element if and
only if the first monitor is flagged primary or no monitor is. -/
theorem SelectMonitor_fallback (first : Monitor) (rest : List Monitor) (i : Int)
    (hout : ¬ (0 ≤ i ∧ i < (first :: rest).length)) :
    (i ≠ -1 → SelectMonitor (first :: rest) i = first)
      ∧ (i = -1 → (SelectMonitor (first :: rest) i = first ↔
          (first.Primary = true ∨ ∀ p ∈ first :: rest, p.Primary = false))) := by
  refine ⟨?_, ?_⟩
  · intro hi
    exact SelectMonitor_out_of_range first rest i hout hi
  · intro hi
    subst hi
    rw [SelectMonitor_minus_one]
    constructor
    · intro hsel
      by_cases hp : first.Primary = true
      · exact Or.inl hp
      · right
        cases hfp : firstPrimary (first :: rest) with
        | none =>
          intro p hmem
          by_contra hflag
          have hex : ∃ q ∈ first :: rest, q.Primary = true :=
            ⟨p, hmem, by simpa using hflag⟩
          have hsome : ∀ l : List Monitor, (∃ q ∈ l, q.Primary = true) →
              firstPrimary l ≠ none := by
            intro l
            induction l with
            | nil =>
              rintro ⟨q, hq, _⟩
              exact absurd hq (List.not_mem_nil q)
            | cons a l ih =>
              rintro ⟨q, hq, hqp⟩
              rw [firstPrimary]
              by_cases ha : a.Primary = true
              · rw [if_pos ha]
                simp
              · rw [if_neg ha]
                rcases List.mem_cons.1 hq with h | h
                · subst h
                  exact absurd hqp ha
                · exact ih ⟨q, h, hqp⟩
          exact hsome _ hex hfp
        | some m =>
          rw [hfp] at hsel
          have hm := firstPrimary_flag _ m hfp
          dsimp only at hsel
          rw [hsel] at hm
          exact absurd hm hp
    · rintro (hp | hall)
      · rw [firstPrimary, if_pos hp]
      · rw [firstPrimary_none _ hall]

/-- Witness of C13 (amended): index 5 on a list of two monitors. -/
theorem SelectMonitor_fallback_witness :
    SelectMonitor [⟨"a", 0, 0, 1920, 1080, false, true⟩,
        ⟨"b", 1920, 0, 1920, 1080, true, true⟩] 5 = ⟨"a", 0, 0, 1920, 1080, false, true⟩ :=
  (SelectMonitor_fallback ⟨"a", 0, 0, 1920, 1080, false, true⟩
    [⟨"b", 1920, 0, 1920, 1080, true, true⟩] 5 (by decide)).1 (by decide)

/-- On a list of one monitor every index selects that monitor. -/
theorem SelectMonitor_singleton (m : Monitor) (i : Int) : SelectMonitor [m] i = m := by
  by_cases h1 : i = -1
  · subst h1
    rw [SelectMonitor_minus_one, firstPrimary]
    by_cases hp : m.Primary = true
    · rw [if_pos hp]
    · rw [if_neg hp]
      rfl
  · by_cases h2 : 0 ≤ i ∧ i < ([m] : List Monitor).length
    · have h3 : i = 0 := by
        have := h2.2
        simp only [List.length_singleton, Nat.cast_one] at this
        omega
      subst h3
      rfl
    · exact SelectMonitor_out_of_range m [] i h2 h1

/-! ## Enumeration of the monitors -/

/-- The comparison of `GetMonitors` is a valid `less` function. -/
theorem monitorLess_ordering : LessOrdering monitorLess := by
  unfold LessOrdering monitorLess
  refine ⟨?_, ?_, ?_⟩
  · intro a
    simp
  · intro a b c hab hbc
    split_ifs at hab hbc ⊢ <;> simp only [decide_eq_true_eq, ne_eq, not_not] at * <;> omega
  · intro a b c hab hbc
    split_ifs at hab hbc ⊢ <;>
      simp only [decide_eq_false_iff_not, ne_eq, not_not] at * <;> omega

/-- A pair that `monitorLess` does not put in the reverse order is in the order
of the monitor indices. -/
theorem monitorOrdered_of_not_less (a b : Monitor) (h : monitorLess b a = false) :
    monitorOrdered a b := by
  unfold monitorLess at h
  unfold monitorOrdered
  by_cases hx : b.X = a.X
  · simp only [hx, ne_eq, not_true_eq_false, if_false, decide_eq_false_iff_not] at h
    omega
  · simp only [hx, ne_eq, not_false_eq_true, if_true, decide_eq_false_iff_not] at h
    omega

/-- Insertion sort meets the contract of `sort.Slice`. -/
theorem insertionSortSlice_contract : SortSliceContract insertionSortSlice := by
  intro less hless l
  obtain ⟨hirr, htrans, hneg⟩ := hless
  haveI : IsTotal Monitor (fun a b => less b a = false) := by
    constructor
    intro a b
    by_cases h : less b a = false
    · exact Or.inl h
    · right
      by_contra h2
      have h3 := htrans a b a (by simpa using h2) (by simpa using h)
      rw [hirr a] at h3
      exact absurd h3 (by decide)
  haveI : IsTrans Monitor (fun a b => less b a = false) := by
    constructor
    intro a b c hab hbc
    exact hneg c b a hbc hab
  unfold insertionSortSlice
  exact ⟨List.perm_insertionSort _ l, (List.sorted_insertionSort _ l).chain'⟩

/-- C14 fails as stated: when no output passes the activity filter, here on a
server that reports no output, `GetMonitors` returns the one synthesized
monitor "default", which is not a rearrangement of the empty list of the
outputs that passed. -/
theorem GetMonitors_sorted_counterexample :
    GetMonitors insertionSortSlice emptyServer ⟨1920, 1080⟩ =
        .ok [⟨"default", 0, 0, 1920, 1080, true, true⟩]
      ∧ activeMonitors emptyServer 0 [] = []
      ∧ ¬ List.Perm [(⟨"default", 0, 0, 1920, 1080, true, true⟩ : Monitor)]
          (activeMonitors emptyServer 0 []) := by
  refine ⟨rfl, rfl, ?_⟩
  intro h
  exact absurd h.length_eq (by decide)

/-- What `GetMonitors` returns once the three initial requests are answered:
the sorted active monitors, or the synthesized monitor when there is none. -/
theorem GetMonitors_ok (sortSlice : (Monitor → Monitor → Bool) → List Monitor → List Monitor)
    (hsort : SortSliceContract sortSlice) (srv : Server) (screen : ScreenInfo)
    (outputs : List Nat) (primaryOutput : Nat)
    (hinit : srv.randrInit = none) (hres : srv.screenResources = .ok outputs)
    (hprim : srv.outputPrimary = .ok primaryOutput) :
    (activeMonitors srv primaryOutput outputs ≠ [] →
        GetMonitors sortSlice srv screen =
          .ok (sortSlice monitorLess (activeMonitors srv primaryOutput outputs)))
      ∧ (activeMonitors srv primaryOutput outputs = [] →
        GetMonitors sortSlice srv screen = .ok [defaultMonitor screen]) := by
  have hperm := (hsort monitorLess monitorLess_ordering
    (activeMonitors srv primaryOutput outputs)).1
  unfold GetMonitors
  rw [hinit, hres, hprim]
  dsimp only
  refine ⟨?_, ?_⟩
  · intro hne
    have hlen : (sortSlice monitorLess (activeMonitors srv primaryOutput outputs)).length ≠ 0 := by
      rw [hperm.length_eq]
      exact fun h => hne (List.length_eq_zero.1 h)
    rw [if_neg hlen]
  · intro hnil
    have hs : sortSlice monitorLess (activeMonitors srv primaryOutput outputs) = [] :=
      List.Perm.eq_nil (hperm.trans (by rw [hnil]))
    rw [hs]
    rfl

/-- C14, amended. Whenever `GetMonitors` returns a list (the three initial
requests are answered), the list is sorted ascending by `X`, ties broken
ascending by `Y`: every adjacent pair `(a, b)` has `a.X < b.X`, or
`a.X == b.X` and `a.Y <= b.Y`. It is a rearrangement of the outputs that
passed the activity filter when at least one passed; when none passed it is the
single synthesized monitor "default". `sort.Slice` is taken by its contract. -/
theorem GetMonitors_sorted
    (sortSlice : (Monitor → Monitor → Bool) → List Monitor → List Monitor)
    (hsort : SortSliceContract sortSlice) (srv : Server) (screen : ScreenInfo)
    (outputs : List Nat) (primaryOutput : Nat)
    (hinit : srv.randrInit = none) (hres : srv.screenResources = .ok outputs)
    (hprim : srv.outputPrimary = .ok primaryOutput) :
    ∃ monitors, GetMonitors sortSlice srv screen = .ok monitors
      ∧ monitors.Chain' monitorOrdered
      ∧ (activeMonitors srv primaryOutput outputs ≠ [] →
          monitors.Perm (activeMonitors srv primaryOutput outputs))
      ∧ (activeMonitors srv primaryOutput outputs = [] →
          monitors = [defaultMonitor screen]) := by
  obtain ⟨hsome, hnone⟩ :=
    GetMonitors_ok sortSlice hsort srv screen outputs primaryOutput hinit hres hprim
  obtain ⟨hperm, hchain⟩ :=
    hsort monitorLess monitorLess_ordering (activeMonitors srv primaryOutput outputs)
  by_cases hne : activeMonitors srv primaryOutput outputs = []
  · refine ⟨_, hnone hne, List.chain'_singleton _, fun h => absurd hne h, fun _ => rfl⟩
  · refine ⟨_, hsome hne, ?_, fun _ => hperm, fun h => absurd h hne⟩
    exact hchain.imp fun {a b} h => monitorOrdered_of_not_less a b h

/-- Witness of C14 (amended): the server with outputs 66 at `(1920, 0)`, 67 at
`(0, 0)` and the inactive 68 gives the monitors of 67 and 66, in this order. -/
theorem GetMonitors_sorted_witness :
    ∃ monitors, GetMonitors insertionSortSlice twoHeadServer ⟨3200, 1080⟩ = .ok monitors
      ∧ monitors.Chain' monitorOrdered
      ∧ monitors.Perm [⟨"HDMI-1", 1920, 0, 1280, 1024, false, true⟩,
          ⟨"DP-1", 0, 0, 1920, 1080, true, true⟩] := by
  obtain ⟨monitors, h1, h2, h3, _⟩ :=
    GetMonitors_sorted insertionSortSlice insertionSortSlice_contract twoHeadServer
      ⟨3200, 1080⟩ [66, 67, 68] 67 rfl rfl rfl
  have hact : activeMonitors twoHeadServer 67 [66, 67, 68] =
      [⟨"HDMI-1", 1920, 0, 1280, 1024, false, true⟩,
        ⟨"DP-1", 0, 0, 1920, 1080, true, true⟩] := by decide
  rw [hact] at h3
  exact ⟨monitors, h1, h2, h3 (by decide)⟩

/-- Every monitor that `GetMonitors` returns has `Connected = true`. -/
theorem GetMonitors_connected
    (sortSlice : (Monitor → Monitor → Bool) → List Monitor → List Monitor)
    (hsort : SortSliceContract sortSlice) (srv : Server) (screen : ScreenInfo)
    (monitors : List Monitor) (hget : GetMonitors sortSlice srv screen = .ok monitors) :
    ∀ m ∈ monitors, m.Connected = true := by
  have hactive : ∀ primaryOutput outputs, ∀ m ∈ activeMonitors srv primaryOutput outputs,
      m.Connected = true := by
    intro primaryOutput outputs m hm
    unfold activeMonitors at hm
    obtain ⟨output, _, hout⟩ := List.mem_filterMap.1 hm
    unfold outputMonitor at hout
    split at hout
    · exact absurd hout (by simp)
    · split_ifs at hout
      split at hout
      · exact absurd hout (by simp)
      · split_ifs at hout
        cases hout
        rfl
  cases hinit : srv.randrInit with
  | some err =>
    unfold GetMonitors at hget
    rw [hinit] at hget
    cases hget
  | none =>
    cases hres : srv.screenResources with
    | error err =>
      unfold GetMonitors at hget
      rw [hinit, hres] at hget
      cases hget
    | ok outputs =>
      cases hprim : srv.outputPrimary with
      | error err =>
        unfold GetMonitors at hget
        rw [hinit, hres, hprim] at hget
        cases hget
      | ok primaryOutput =>
        obtain ⟨hsome, hnone⟩ :=
          GetMonitors_ok sortSlice hsort srv screen outputs primaryOutput hinit hres hprim
        have hperm := (hsort monitorLess monitorLess_ordering
          (activeMonitors srv primaryOutput outputs)).1
        by_cases hne : activeMonitors srv primaryOutput outputs = []
        · rw [hnone hne] at hget
          cases hget
          intro m hm
          rw [List.mem_singleton] at hm
          subst hm
          rfl
        · rw [hsome hne] at hget
          cases hget
          intro m hm
          exact hactive _ _ m (hperm.mem_iff.1 hm)

/-- C15 fails on the code: when `GetMonitors` fails, here on a server without
the RandR extension, the list that `NewOverlay` substitutes and hands to
`SelectMonitor` holds one monitor "default" whose `Connected` flag is not set,
and this is the monitor the overlay keeps; the monitor that `GetMonitors`
itself synthesizes when no output is active has the flag set. -/
theorem resolveMonitors_unconnected :
    GetMonitors insertionSortSlice failingServer ⟨1920, 1080⟩ =
        .error (.wrap "failed to initialize RandR" (.message "RANDR extension missing"))
      ∧ resolveMonitors insertionSortSlice failingServer ⟨1920, 1080⟩ =
        [⟨"default", 0, 0, 1920, 1080, true, false⟩]
      ∧ (∃ m ∈ resolveMonitors insertionSortSlice failingServer ⟨1920, 1080⟩,
          m.Connected = false)
      ∧ (∀ cfg o, NewOverlay insertionSortSlice (.ok 1) none failingServer ⟨1920, 1080⟩ cfg
            = .ok o → o.monitor.Connected = false)
      ∧ resolveMonitors insertionSortSlice emptyServer ⟨1920, 1080⟩ =
        [⟨"default", 0, 0, 1920, 1080, true, true⟩] := by
  refine ⟨rfl, rfl, ⟨_, List.mem_singleton.2 rfl, rfl⟩, ?_, rfl⟩
  intro cfg o ho
  unfold NewOverlay at ho
  dsimp only at ho
  cases ho
  have hres : resolveMonitors insertionSortSlice failingServer ⟨1920, 1080⟩ =
      [⟨"default", 0, 0, 1920, 1080, true, false⟩] := rfl
  dsimp only
  rw [hres]
  rw [SelectMonitor_singleton]

/-! ## Totality of the shape generator -/

/-- A larger iteration budget does not change a result of the loop. -/
theorem circleLoop_mono (cx cy : Int) :
    ∀ (n : Nat) (x y d : Int) (acc res : List Rectangle),
      circleLoop cx cy n x y d acc = some res →
      ∀ m, n ≤ m → circleLoop cx cy m x y d acc = some res := by
  intro n
  induction n with
  | zero =>
    intro x y d acc res h m _
    unfold circleLoop at h
    by_cases hyx : y ≥ x
    · rw [if_pos hyx] at h
      exact absurd h (by simp)
    · rw [if_neg hyx] at h
      cases m with
      | zero =>
        unfold circleLoop
        rw [if_neg hyx]
        exact h
      | succ k =>
        unfold circleLoop
        rw [if_neg hyx]
        exact h
  | succ n ih =>
    intro x y d acc res h m hm
    obtain ⟨k, hk⟩ : ∃ k, m = k + 1 := ⟨m - 1, by omega⟩
    subst hk
    unfold circleLoop at h ⊢
    by_cases hyx : y ≥ x
    · rw [if_pos hyx] at h ⊢
      by_cases hd : d > 0
      · rw [if_pos hd] at h ⊢
        exact ih _ _ _ _ _ h k (by omega)
      · rw [if_neg hd] at h ⊢
        exact ih _ _ _ _ _ h k (by omega)
    · rw [if_neg hyx] at h ⊢
      exact h

/-- The loop of the circle of radius `0 <= r <= 32767` ends within `r + 1`
passes, with the result of `generateFilledCircle`. -/
theorem generateFilledCircle_passes (cx cy r : Int) (hr0 : 0 ≤ r) (hr : r ≤ 32767) :
    ∃ rects, circleLoop cx cy (r + 1).toNat 0 r (sub16 3 (mul16 2 r)) [] = some rects
      ∧ generateFilledCircle cx cy r = some rects := by
  have hd : r ≤ 32766 ∨ (0 < sub16 3 (mul16 2 r) ∧ (0 : Int) ≤ 32766) := by
    by_cases h : r ≤ 32766
    · exact Or.inl h
    · right
      have hr2 : r = 32767 := by omega
      subst hr2
      decide
  obtain ⟨rects, hrects, _⟩ :=
    circleLoop_rule cx cy r (fun _ => True) (fun _ _ _ _ _ _ _ => trivial) hr
      (r + 1).toNat 0 r (sub16 3 (mul16 2 r)) [] (le_refl 0) (le_refl r) hd (by omega) trivial
  refine ⟨rects, hrects, ?_⟩
  unfold generateFilledCircle
  exact circleLoop_mono cx cy _ _ _ _ _ _ hrects loopBudget (by unfold loopBudget; omega)

/-- `GenerateDot` returns for every size up to 32767. -/
theorem GenerateDot_total (cx cy size : Int) (hs : size ≤ 32767) :
    ∃ rects, GenerateDot cx cy size = some rects := by
  by_cases h : size ≤ 0
  · refine ⟨[], ?_⟩
    unfold GenerateDot
    rw [if_pos h]
  · exact GenerateDot_returns cx cy size ⟨by omega, hs⟩

/-- `GenerateCircle` returns for every radius up to 32767. -/
theorem GenerateCircle_total (cx cy r : Int) (hr : r ≤ 32767) :
    ∃ rects, GenerateCircle cx cy r = some rects := by
  unfold GenerateCircle
  by_cases h : r ≤ 0
  · rw [if_pos h]
    exact ⟨[], rfl⟩
  · rw [if_neg h]
    obtain ⟨rects, hrects, _⟩ := generateFilledCircle_positive cx cy r (by omega) hr
    exact ⟨rects, hrects⟩

/-- `GenerateShape` returns for every kind and every size up to 32767. -/
theorem GenerateShape_returns (shape : String) (cx cy size thickness gap : Int)
    (hs : size ≤ 32767) :
    ∃ rects, GenerateShape shape cx cy size thickness gap = some rects := by
  unfold GenerateShape
  split_ifs
  · exact ⟨_, rfl⟩
  · exact GenerateDot_total cx cy size hs
  · exact GenerateCircle_total cx cy size hs
  · have hdot := dotSize_range size
    obtain ⟨dot, hdoteq⟩ :=
      GenerateDot_returns cx cy (max (div16 size 3) 2) ⟨by omega, hdot.2⟩
    dsimp only
    unfold GenerateCrossDot
    rw [hdoteq]
    exact ⟨_, rfl⟩
  · exact ⟨_, rfl⟩

/-- C16. `GenerateShape` is total over the non-negative inputs: for every shape
string, every centre and every 16-bit size, thickness and gap (the size at most
32767; their sign does not matter) it returns a (possibly empty) sequence of
rectangles, never running out of the iteration budget; and for every radius
`1 <= r <= 32767` the loop of the circle rasterizer ends within `r + 1`
passes, the decision variable `d` and the offsets being 16-bit values that
wrap around. -/
theorem GenerateShape_total (shape : String) (cx cy size thickness gap : Int)
    (hs : size ≤ 32767) :
    (∃ rects, GenerateShape shape cx cy size thickness gap = some rects)
      ∧ (∀ r, 1 ≤ r → r ≤ 32767 →
          ∃ rects, circleLoop cx cy (r + 1).toNat 0 r (sub16 3 (mul16 2 r)) [] = some rects
            ∧ generateFilledCircle cx cy r = some rects) :=
  ⟨GenerateShape_returns shape cx cy size thickness gap hs,
    fun r hr0 hr => generateFilledCircle_passes cx cy r (by omega) hr⟩

/-- Witness of C16: the circle of size 500 around `(960, 540)`. -/
theorem GenerateShape_total_witness :
    (∃ rects, GenerateShape "circle" 960 540 500 2 0 = some rects)
      ∧ (∃ rects, circleLoop 960 540 501 0 500 (sub16 3 (mul16 2 500)) [] = some rects
          ∧ generateFilledCircle 960 540 500 = some rects) := by
  have h := GenerateShape_total "circle" 960 540 500 2 0 (by decide)
  exact ⟨h.1, h.2 500 (by decide) (by decide)⟩

/-! ## The regions and the painting of the overlay -/

/-- The shape of an overlay is always generated: the configured numbers are
converted to `int16`. -/
theorem overlayShape_returns (o : Overlay) : ∃ shapeRects, overlayShape o = some shapeRects :=
  GenerateShape_returns _ _ _ _ _ _ (isInt16_wrap16 _).2

/-- C17. For every configuration and centre, `applyShape` first sends the
request that sets (operation `set`, which replaces) the bounding region of the
window to the outline rectangles `GenerateOutline(shape, outlineThickness)`,
present only when the outline thickness is positive, followed by the shape
rectangles of `GenerateShape`; once the server has accepted it, `applyShape`
sends as a second and last request the one that sets the input region to the
empty list, whatever the visible rectangles are, and it returns no error when
both are accepted. The numbers of the configuration are converted to `int16`,
which changes nothing within the `int16` range. -/
theorem applyShape_regions (o : Overlay) (check : Request → Option GoError) :
    ∃ shapeRects, overlayShape o = some shapeRects ∧
      ∃ sent err, applyShape o check = some (sent, err)
        ∧ boundingRects o shapeRects =
            (if 0 < o.config.Crosshair.OutlineThickness then
                GenerateOutline shapeRects (wrap16 o.config.Crosshair.OutlineThickness)
              else [])
              ++ shapeRects
        ∧ (isInt16 o.config.Crosshair.OutlineThickness →
            wrap16 o.config.Crosshair.OutlineThickness = o.config.Crosshair.OutlineThickness)
        ∧ sent.head? = some (Request.shapeRectangles .set .bounding ClipOrderingUnsorted
            o.windowID 0 0 (boundingRects o shapeRects))
        ∧ (check (Request.shapeRectangles .set .bounding ClipOrderingUnsorted
              o.windowID 0 0 (boundingRects o shapeRects)) = none →
            sent = [Request.shapeRectangles .set .bounding ClipOrderingUnsorted
                o.windowID 0 0 (boundingRects o shapeRects),
              Request.shapeRectangles .set .input ClipOrderingUnsorted o.windowID 0 0 []]
            ∧ (check (Request.shapeRectangles .set .input ClipOrderingUnsorted
                o.windowID 0 0 []) = none → err = none)) := by
  obtain ⟨shapeRects, hshape⟩ := overlayShape_returns o
  refine ⟨shapeRects, hshape, ?_⟩
  have hbound : boundingRects o shapeRects =
      (if 0 < o.config.Crosshair.OutlineThickness then
          GenerateOutline shapeRects (wrap16 o.config.Crosshair.OutlineThickness)
        else [])
        ++ shapeRects := by
    unfold boundingRects
    by_cases h : 0 < o.config.Crosshair.OutlineThickness
    · rw [if_pos h, if_pos h, List.nil_append]
    · rw [if_neg h, if_neg h]
  unfold applyShape
  rw [hshape]
  dsimp only
  cases h1 : check (Request.shapeRectangles .set .bounding ClipOrderingUnsorted
      o.windowID 0 0 (boundingRects o shapeRects)) with
  | some err1 =>
    refine ⟨_, _, rfl, hbound, wrap16_of_isInt16, rfl, ?_⟩
    intro h
    exact absurd h (by simp)
  | none =>
    cases h2 : check (Request.shapeRectangles .set .input ClipOrderingUnsorted
        o.windowID 0 0 []) with
    | some err2 =>
      refine ⟨_, _, rfl, hbound, wrap16_of_isInt16, rfl, ?_⟩
      intro _
      refine ⟨rfl, ?_⟩
      intro h
      exact absurd h (by simp)
    | none =>
      exact ⟨_, _, rfl, hbound, wrap16_of_isInt16, rfl, fun _ => ⟨rfl, fun _ => rfl⟩⟩

/-- The slice of the loop only grows: the result extends the slice the loop was
entered with. -/
theorem circleLoop_extends (cx cy : Int) :
    ∀ (n : Nat) (x y d : Int) (acc res : List Rectangle),
      circleLoop cx cy n x y d acc = some res → acc <+: res := by
  have hemit : ∀ x y acc, acc <+: circleEmit cx cy x y acc := by
    intro x y acc
    unfold circleEmit
    dsimp only
    split_ifs <;> (try simp only [List.append_assoc]) <;> exact List.prefix_append _ _
  intro n
  induction n with
  | zero =>
    intro x y d acc res h
    unfold circleLoop at h
    split_ifs at h
    cases h
    exact List.prefix_refl _
  | succ n ih =>
    intro x y d acc res h
    unfold circleLoop at h
    dsimp only at h
    split_ifs at h
    · exact (hemit x y acc).trans (ih _ _ _ _ _ h)
    · exact (hemit x y acc).trans (ih _ _ _ _ _ h)
    · cases h
      exact List.prefix_refl _

/-- The filled circle of a radius `r >= 0` is not empty. -/
theorem generateFilledCircle_nonempty (cx cy r : Int) (hr0 : 0 ≤ r) (rects : List Rectangle)
    (h : generateFilledCircle cx cy r = some rects) : rects ≠ [] := by
  unfold generateFilledCircle at h
  have hb : loopBudget = 65535 + 1 := rfl
  rw [hb] at h
  unfold circleLoop at h
  rw [if_pos (by omega)] at h
  dsimp only at h
  have hne : circleEmit cx cy 0 r [] ≠ [] := by
    unfold circleEmit
    dsimp only
    split_ifs <;> simp
  intro hnil
  subst hnil
  split_ifs at h
  · exact hne (List.prefix_nil.1 (circleLoop_extends cx cy _ _ _ _ _ _ h))
  · exact hne (List.prefix_nil.1 (circleLoop_extends cx cy _ _ _ _ _ _ h))

/-- For every kind, the shape of a size `1 <= size <= 32767` is not empty. -/
theorem GenerateShape_nonempty (shape : String) (cx cy size thickness gap : Int)
    (hs : 1 ≤ size ∧ size ≤ 32767) (rects : List Rectangle)
    (h : GenerateShape shape cx cy size thickness gap = some rects) : rects ≠ [] := by
  have hcross : ∀ g, GenerateCross cx cy size thickness g ≠ [] := by
    intro g
    unfold GenerateCross
    dsimp only
    split_ifs <;> simp
  have hdot : ∀ s dot, 1 ≤ s → s ≤ 32767 → GenerateDot cx cy s = some dot → dot ≠ [] := by
    intro s dot hs1 hs2 hd
    unfold GenerateDot at hd
    rw [if_neg (by omega), div16_two (by omega) hs2] at hd
    dsimp only at hd
    split_ifs at hd
    · cases hd
      simp
    · exact generateFilledCircle_nonempty cx cy _ (by omega) dot hd
  unfold GenerateShape at h
  split_ifs at h
  · cases h
    exact hcross gap
  · exact hdot size rects hs.1 hs.2 h
  · unfold GenerateCircle at h
    rw [if_neg (by omega)] at h
    exact generateFilledCircle_nonempty cx cy size (by omega) rects h
  · dsimp only at h
    unfold GenerateCrossDot at h
    dsimp only at h
    split at h
    · cases h
    · cases h
      intro hnil
      exact hcross _ (List.append_eq_nil.1 hnil).1
  · cases h
    exact hcross gap

/-- When `createGraphicsContext` succeeds with non-zero identifiers, the
overlay it leaves has an outline graphics context whenever the outline
thickness is positive; the configuration and the centre are unchanged. -/
theorem createGraphicsContext_outlineGC (o o2 : Overlay) (colorOf : String → Nat)
    (newGcontextId : Nat → Except GoError Nat) (check : Request → Option GoError)
    (sent : List Request)
    (hids : ∀ k id, newGcontextId k = .ok id → id ≠ 0)
    (hok : createGraphicsContext o colorOf newGcontextId check = (o2, sent, none)) :
    (0 < o2.config.Crosshair.OutlineThickness → o2.outlineGC ≠ 0)
      ∧ o2.config = o.config ∧ o2.centerX = o.centerX ∧ o2.centerY = o.centerY
      ∧ o2.windowID = o.windowID := by
  unfold createGraphicsContext at hok
  cases h0 : newGcontextId 0 with
  | error err =>
    rw [h0] at hok
    cases hok
  | ok gcid =>
    rw [h0] at hok
    dsimp only at hok
    split at hok
    · cases hok
    · split_ifs at hok with hpos
      · cases h1 : newGcontextId 1 with
        | error err =>
          rw [h1] at hok
          cases hok
        | ok outlineGC =>
          rw [h1] at hok
          dsimp only at hok
          split at hok
          · cases hok
          · cases hok
            exact ⟨fun _ => hids 1 outlineGC h1, rfl, rfl, rfl, rfl⟩
      · cases hok
        exact ⟨fun h => absurd h hpos, rfl, rfl, rfl, rfl⟩

/-- The rectangles painted by the planned fills: the outline list with the
outline context, then the shape list with the main context; an empty list
paints nothing. -/
theorem paintedRects_plannedFills (o : Overlay) (shapeRects : List Rectangle) :
    paintedRects (plannedFills o shapeRects) =
      (if 0 < o.config.Crosshair.OutlineThickness ∧ o.outlineGC ≠ 0 then
          (GenerateOutline shapeRects (wrap16 o.config.Crosshair.OutlineThickness)).map
            fun r => (o.outlineGC, r)
        else [])
        ++ shapeRects.map fun r => (o.gcID, r) := by
  unfold plannedFills
  by_cases hs : shapeRects = []
  · subst hs
    have hout : ∀ t, GenerateOutline [] t = [] := by
      intro t
      unfold GenerateOutline
      split_ifs <;> rfl
    simp [hout, paintedRects]
  · by_cases h1 : 0 < o.config.Crosshair.OutlineThickness ∧ o.outlineGC ≠ 0
    · by_cases h2 : GenerateOutline shapeRects (wrap16 o.config.Crosshair.OutlineThickness) = []
      · simp [h1, h2, hs, paintedRects]
      · simp [h1, h2, hs, paintedRects]
    · have h3 : ¬ (0 < o.config.Crosshair.OutlineThickness ∧ o.outlineGC ≠ 0 ∧
          GenerateOutline shapeRects (wrap16 o.config.Crosshair.OutlineThickness) ≠ []) :=
        fun h => h1 ⟨h.1, h.2.1⟩
      rw [if_neg h3, if_neg h1, if_pos hs]
      simp [paintedRects]

/-- What `drawCrosshair` sends: a beginning of the planned fills, all of them
when it returns no error, which it does when the server accepts them. -/
theorem drawCrosshair_sent (o : Overlay) (check : Request → Option GoError)
    (shapeRects : List Rectangle) (hshape : overlayShape o = some shapeRects) :
    ∃ sent err, drawCrosshair o check = some (sent, err)
      ∧ sent <+: plannedFills o shapeRects
      ∧ (err = none → sent = plannedFills o shapeRects)
      ∧ ((∀ r, check r = none) → err = none) := by
  have hlen : ∀ l : List Rectangle, l.length > 0 ↔ l ≠ [] := by
    intro l
    rw [gt_iff_lt, List.length_pos]
  have hlayer : ∃ sent err, drawShapeLayer o check shapeRects = (sent, err)
      ∧ sent = (if shapeRects ≠ [] then
          [Request.polyFillRectangle o.windowID o.gcID shapeRects] else [])
      ∧ ((∀ r, check r = none) → err = none) := by
    unfold drawShapeLayer
    by_cases hs : shapeRects ≠ []
    · rw [if_pos ((hlen _).2 hs), if_pos hs]
      dsimp only
      cases hc : check (Request.polyFillRectangle o.windowID o.gcID shapeRects) with
      | some e =>
        refine ⟨_, _, rfl, rfl, ?_⟩
        intro hall
        rw [hall] at hc
        cases hc
      | none => exact ⟨_, _, rfl, rfl, fun _ => rfl⟩
    · rw [if_neg (fun h => hs ((hlen _).1 h)), if_neg hs]
      exact ⟨_, _, rfl, rfl, fun _ => rfl⟩
  obtain ⟨sentS, errS, hS, hsentS, hokS⟩ := hlayer
  unfold drawCrosshair plannedFills
  rw [hshape]
  dsimp only
  by_cases h1 : o.config.Crosshair.OutlineThickness > 0 ∧ o.outlineGC ≠ 0
  · rw [if_pos h1]
    by_cases h2 : GenerateOutline shapeRects (wrap16 o.config.Crosshair.OutlineThickness) ≠ []
    · rw [if_pos ((hlen _).2 h2), if_pos ⟨h1.1, h1.2, h2⟩]
      cases hc : check (Request.polyFillRectangle o.windowID o.outlineGC
          (GenerateOutline shapeRects (wrap16 o.config.Crosshair.OutlineThickness))) with
      | some e =>
        refine ⟨_, _, rfl, ?_, ?_, ?_⟩
        · exact List.prefix_append _ _
        · intro h
          cases h
        · intro hall
          rw [hall] at hc
          cases hc
      | none =>
        rw [hS]
        refine ⟨_, _, rfl, ?_, ?_, hokS⟩
        · rw [hsentS]
          exact List.prefix_refl _
        · intro _
          rw [hsentS]
          rfl
    · rw [if_neg (fun h => h2 ((hlen _).1 h)), if_neg (fun h => h2 h.2.2), hS]
      refine ⟨_, _, rfl, ?_, ?_, hokS⟩
      · rw [hsentS, List.nil_append]
      · intro _
        rw [hsentS, List.nil_append]
  · rw [if_neg h1, if_neg (fun h => h1 ⟨h.1, h.2.1⟩), hS]
    refine ⟨_, _, rfl, ?_, ?_, hokS⟩
    · rw [hsentS, List.nil_append]
    · intro _
      rw [hsentS, List.nil_append]

/-- C18. For every configuration, one call of `drawCrosshair` sends its fill
requests in this order: first the outline rectangles
`GenerateOutline(shape, outlineThickness)` with the outline graphics context,
then the shape rectangles `GenerateShape(...)` for the stored centre with the
main graphics context; what is sent is a beginning of this sequence (it stops
at a request that the server refuses), so the outline fill never comes after
the shape fill, and it is the whole sequence when no error is returned. The
rectangles painted are exactly these two lists. When the size and the outline
thickness are in the ranges that `Config.Validate` accepts and the overlay has
the outline context that `createGraphicsContext` creates for a positive
outline thickness, the outline fill is sent if and only if the outline
thickness is positive. -/
theorem drawCrosshair_order (o : Overlay) (check : Request → Option GoError) :
    ∃ shapeRects, overlayShape o = some shapeRects ∧
      ∃ sent err, drawCrosshair o check = some (sent, err)
        ∧ sent <+: plannedFills o shapeRects
        ∧ (err = none → sent = plannedFills o shapeRects)
        ∧ ((∀ r, check r = none) → err = none)
        ∧ paintedRects (plannedFills o shapeRects) =
            (if 0 < o.config.Crosshair.OutlineThickness ∧ o.outlineGC ≠ 0 then
                (GenerateOutline shapeRects (wrap16 o.config.Crosshair.OutlineThickness)).map
                  fun r => (o.outlineGC, r)
              else [])
              ++ shapeRects.map (fun r => (o.gcID, r))
        ∧ (1 ≤ o.config.Crosshair.Size → o.config.Crosshair.Size ≤ 500 →
            o.config.Crosshair.OutlineThickness ≤ 50 →
            (0 < o.config.Crosshair.OutlineThickness → o.outlineGC ≠ 0) →
            plannedFills o shapeRects =
              if 0 < o.config.Crosshair.OutlineThickness then
                [Request.polyFillRectangle o.windowID o.outlineGC
                    (GenerateOutline shapeRects o.config.Crosshair.OutlineThickness),
                  Request.polyFillRectangle o.windowID o.gcID shapeRects]
              else [Request.polyFillRectangle o.windowID o.gcID shapeRects]) := by
  obtain ⟨shapeRects, hshape⟩ := overlayShape_returns o
  obtain ⟨sent, err, hdraw, hpre, hall, hok⟩ := drawCrosshair_sent o check shapeRects hshape
  refine ⟨shapeRects, hshape, sent, err, hdraw, hpre, hall, hok,
    paintedRects_plannedFills o shapeRects, ?_⟩
  intro hs1 hs2 ht hgc
  have hsize : wrap16 o.config.Crosshair.Size = o.config.Crosshair.Size :=
    wrap16_of_isInt16 ⟨by omega, by omega⟩
  have hne : shapeRects ≠ [] := by
    unfold overlayShape at hshape
    rw [hsize] at hshape
    exact GenerateShape_nonempty _ _ _ _ _ _ ⟨hs1, by omega⟩ shapeRects hshape
  unfold plannedFills
  by_cases hpos : 0 < o.config.Crosshair.OutlineThickness
  · have hw : wrap16 o.config.Crosshair.OutlineThickness = o.config.Crosshair.OutlineThickness :=
      wrap16_of_isInt16 ⟨by omega, by omega⟩
    have hout : GenerateOutline shapeRects o.config.Crosshair.OutlineThickness ≠ [] := by
      unfold GenerateOutline
      rw [if_neg (by omega)]
      intro h
      exact hne (List.map_eq_nil_iff.1 h)
    rw [hw, if_pos ⟨hpos, hgc hpos, hout⟩, if_pos hne, if_pos hpos]
    rfl
  · rw [if_neg (fun h => hpos h.1), if_neg hpos, if_pos hne, List.nil_append]

/-- Witness of C18: the sample overlay (default cross, outline 1) paints the
outline bars with context 9, then the bars with context 8. -/
theorem drawCrosshair_order_witness :
    drawCrosshair sampleOverlay (fun _ => none) =
      some ([Request.polyFillRectangle 7 9 [⟨949, 538, 22, 4⟩, ⟨958, 529, 4, 22⟩],
        Request.polyFillRectangle 7 8 [⟨950, 539, 20, 2⟩, ⟨959, 530, 2, 20⟩]], none) := by
  obtain ⟨shapeRects, hshape, sent, err, hdraw, _, hall, hok, _, hvalid⟩ :=
    drawCrosshair_order sampleOverlay (fun _ => none)
  have hs : shapeRects = [⟨950, 539, 20, 2⟩, ⟨959, 530, 2, 20⟩] := by
    have h : overlayShape sampleOverlay = some [⟨950, 539, 20, 2⟩, ⟨959, 530, 2, 20⟩] := by
      decide
    rw [h] at hshape
    cases hshape
    rfl
  subst hs
  have herr := hok (fun _ => rfl)
  subst herr
  rw [hdraw, hall rfl, hvalid (by decide) (by decide) (by decide) (fun _ => by decide)]
  decide

/-! ## The event loop -/

/-- `drawCrosshair` always returns. -/
theorem drawCrosshair_returns (o : Overlay) (check : Request → Option GoError) :
    ∃ sent err, drawCrosshair o check = some (sent, err) := by
  obtain ⟨shapeRects, hshape⟩ := overlayShape_returns o
  obtain ⟨sent, err, hdraw, _⟩ := drawCrosshair_sent o check shapeRects hshape
  exact ⟨sent, err, hdraw⟩

/-- The pass of the loop on an exposure event: one call of `drawCrosshair`,
a warning when it fails, and the loop goes on with the next result. -/
theorem eventLoop_expose (o : Overlay) (checks : Nat → Request → Option GoError) (n : Nat)
    (rest : List WaitResult) (sent : List Request) (err : Option GoError)
    (more : List LoopEffect) (outcome : LoopOutcome)
    (hdraw : drawCrosshair o (checks n) = some (sent, err))
    (hrest : eventLoop o checks (n + 1) rest = some (more, outcome)) :
    eventLoop o checks n (⟨some .exposeEvent, none⟩ :: rest) =
      some (repaintEffects sent err ++ more, outcome) := by
  simp only [eventLoop, hdraw, hrest]

/-- The event loop returns or blocks after every sequence of results, with as
many calls of `drawCrosshair` as there are exposure events before the first
result that ends it. -/
theorem eventLoop_spec (o : Overlay) (checks : Nat → Request → Option GoError) :
    ∀ (waits : List WaitResult) (n : Nat),
      ∃ effects outcome, eventLoop o checks n waits = some (effects, outcome)
        ∧ countRepaints effects =
            ((waits.takeWhile WaitResult.continues).filter WaitResult.isExpose).length
        ∧ outcome = expectedOutcome waits := by
  intro waits
  induction waits with
  | nil =>
    intro n
    exact ⟨[], .waiting, rfl, rfl, rfl⟩
  | cons w rest ih =>
    intro n
    obtain ⟨ev, err⟩ := w
    cases err with
    | some e =>
      exact ⟨[], _, rfl, rfl, rfl⟩
    | none =>
      cases ev with
      | none =>
        exact ⟨[], _, rfl, rfl, rfl⟩
      | some event =>
        obtain ⟨more, outcome, hrest, hcount, hout⟩ := ih (n + 1)
        have hexp : expectedOutcome (⟨some event, none⟩ :: rest) = expectedOutcome rest := by
          unfold expectedOutcome
          rw [List.dropWhile_cons_of_pos (by rfl)]
        cases event with
        | exposeEvent =>
          obtain ⟨sent, derr, hdraw⟩ := drawCrosshair_returns o (checks n)
          refine ⟨_, outcome, eventLoop_expose o checks n rest sent derr more outcome hdraw hrest,
            ?_, ?_⟩
          · rw [List.takeWhile_cons_of_pos (by rfl), List.filter_cons_of_pos (by rfl),
              List.length_cons, ← hcount]
            cases derr <;> simp [repaintEffects, countRepaints]
          · rw [hexp]
            exact hout
        | otherEvent code =>
          refine ⟨more, outcome, ?_, ?_, ?_⟩
          · simp only [eventLoop]
            exact hrest
          · rw [List.takeWhile_cons_of_pos (by rfl),
              List.filter_cons_of_neg (by simp [WaitResult.isExpose])]
            exact hcount
          · rw [hexp]
            exact hout

/-- When the start-up sequence of `Run` succeeds, `Run` stands as its event
loop does. -/
theorem Run_loop (o o1 o2 : Overlay) (colorOf : String → Nat)
    (newWindowId : Except GoError Nat) (newGcontextId : Nat → Except GoError Nat)
    (checks : Nat → Request → Option GoError) (waits : List WaitResult)
    (sent1 sent2 sent3 sent4 : List Request) (effects : List LoopEffect)
    (outcome : LoopOutcome)
    (h1 : createWindow o newWindowId (checks 0) = (o1, sent1, none))
    (h2 : createGraphicsContext o1 colorOf newGcontextId (checks 0) = (o2, sent2, none))
    (h3 : applyShape o2 (checks 0) = some (sent3, none))
    (h4 : checks 0 (Request.mapWindow o2.windowID) = none)
    (h5 : drawCrosshair o2 (checks 0) = some (sent4, none))
    (h6 : eventLoop o2 checks 1 waits = some (effects, outcome)) :
    Run o colorOf newWindowId newGcontextId checks waits =
      some (sent1 ++ sent2 ++ sent3 ++ [Request.mapWindow o2.windowID] ++ sent4,
        effects, outcome) := by
  unfold Run
  rw [h1]
  dsimp only
  rw [h2]
  dsimp only
  rw [h3]
  dsimp only
  rw [h4]
  dsimp only
  rw [h5]
  dsimp only
  rw [h6]

/-- C19. In the running state, for every sequence of results of the blocking
wait and whatever the server answers to the repaints: the loop makes exactly
one call of `drawCrosshair` per exposure event and goes on, also when that call
fails (a warning is logged); it ignores any other event and goes on; a
connection error ends it and `Run` returns an error wrapping it; a nil event
ends it and `Run` returns no error. -/
theorem eventLoop_contract (o : Overlay) (checks : Nat → Request → Option GoError) (n : Nat) :
    (∀ rest, ∃ sent err more outcome,
        drawCrosshair o (checks n) = some (sent, err)
          ∧ eventLoop o checks (n + 1) rest = some (more, outcome)
          ∧ eventLoop o checks n (⟨some .exposeEvent, none⟩ :: rest) =
              some (repaintEffects sent err ++ more, outcome)
          ∧ countRepaints (repaintEffects sent err) = 1)
      ∧ (∀ code rest, eventLoop o checks n (⟨some (.otherEvent code), none⟩ :: rest) =
          eventLoop o checks (n + 1) rest)
      ∧ (∀ ev cause rest, eventLoop o checks n (⟨ev, some cause⟩ :: rest) =
          some ([], .returned (some (.wrap "X11 connection error" cause))))
      ∧ (∀ rest, eventLoop o checks n (⟨none, none⟩ :: rest) = some ([], .returned none))
      ∧ (∀ waits, ∃ effects outcome, eventLoop o checks n waits = some (effects, outcome)
          ∧ countRepaints effects =
              ((waits.takeWhile WaitResult.continues).filter WaitResult.isExpose).length
          ∧ outcome = expectedOutcome waits)
      ∧ (∀ o0 o1 colorOf newWindowId newGcontextId waits sent1 sent2 sent3 sent4,
          n = 1 →
          createWindow o0 newWindowId (checks 0) = (o1, sent1, none) →
          createGraphicsContext o1 colorOf newGcontextId (checks 0) = (o, sent2, none) →
          applyShape o (checks 0) = some (sent3, none) →
          checks 0 (Request.mapWindow o.windowID) = none →
          drawCrosshair o (checks 0) = some (sent4, none) →
          ∃ sent effects, Run o0 colorOf newWindowId newGcontextId checks waits =
              some (sent, effects, expectedOutcome waits)) := by
  refine ⟨?_, ?_, ?_, ?_, ?_, ?_⟩
  · intro rest
    obtain ⟨sent, err, hdraw⟩ := drawCrosshair_returns o (checks n)
    obtain ⟨more, outcome, hrest, _⟩ := eventLoop_spec o checks rest (n + 1)
    refine ⟨sent, err, more, outcome, hdraw, hrest,
      eventLoop_expose o checks n rest sent err more outcome hdraw hrest, ?_⟩
    cases err <;> rfl
  · intro code rest
    simp only [eventLoop]
  · intro ev cause rest
    simp only [eventLoop]
  · intro rest
    simp only [eventLoop]
  · intro waits
    exact eventLoop_spec o checks waits n
  · intro o0 o1 colorOf newWindowId newGcontextId waits sent1 sent2 sent3 sent4 hn h1 h2 h3 h4 h5
    subst hn
    obtain ⟨effects, outcome, hloop, _, hout⟩ := eventLoop_spec o checks waits 1
    rw [← hout]
    exact ⟨_, effects, Run_loop o0 o1 o colorOf newWindowId newGcontextId checks waits
      sent1 sent2 sent3 sent4 effects outcome h1 h2 h3 h4 h5 hloop⟩

/-- Witness of C19: an exposure, another event, an exposure whose repaint the
server refuses, then a connection error: two repaints, and the wrapped error
is returned without reading further. -/
theorem eventLoop_contract_witness :
    ∃ effects, eventLoop sampleOverlay sampleChecks 1 sampleWaits =
        some (effects, .returned (some (.wrap "X11 connection error" (.message "EOF"))))
      ∧ countRepaints effects = 2 := by
  obtain ⟨effects, outcome, hloop, hcount, hout⟩ :=
    (eventLoop_contract sampleOverlay sampleChecks 1).2.2.2.2.1 sampleWaits
  have h1 : expectedOutcome sampleWaits =
      .returned (some (.wrap "X11 connection error" (.message "EOF"))) := by decide
  have h2 : ((sampleWaits.takeWhile WaitResult.continues).filter WaitResult.isExpose).length
      = 2 := by decide
  rw [h1] at hout
  rw [h2] at hcount
  subst hout
  exact ⟨effects, hloop, hcount⟩

/-! ## Parity of the thickness -/

/-- C20 fails as stated: with the odd thickness 3 the horizontal bar of the solid
cross of size 10 around `(100, 100)` is `(90, 99, 20, 3)`, rows 99 to 101: one
row above the centre row 100 and one below, not one more above; the vertical
bar `(99, 90, 3, 20)` likewise has one column on each side of column 100. -/
theorem GenerateCross_bias_counterexample :
    GenerateCross 100 100 10 3 0 = [⟨90, 99, 20, 3⟩, ⟨99, 90, 3, 20⟩]
      ∧ linesBefore 100 99 = 1 ∧ linesAfter 100 99 3 = 1
      ∧ ¬ (linesBefore 100 99 = linesAfter 100 99 3 + 1)
      ∧ Rectangle.covers ⟨90, 99, 20, 3⟩ 100 99 ∧ Rectangle.covers ⟨90, 99, 20, 3⟩ 100 101
      ∧ ¬ Rectangle.covers ⟨90, 99, 20, 3⟩ 100 98 ∧ ¬ Rectangle.covers ⟨90, 99, 20, 3⟩ 100 102 := by
  decide

/-- C20, amended. For every centre, every non-negative `int16` size and every
gap `<= 0`: for every odd thickness the bars of the solid cross are centred,
the horizontal bar covering as many rows above the centre row as below it
(`(thickness - 1)/2`) and the vertical bar as many columns on the left of the
centre column as on the right; for every even thickness `>= 2` they are biased
by one pixel toward the negative axis, the horizontal bar covering
`thickness/2` rows above the centre row and one less below it, the vertical
bar likewise on the left and on the right. -/
theorem GenerateCross_bias (cx cy size thickness gap : Int)
    (hs : 0 ≤ size ∧ size ≤ 32767) (ht : 0 ≤ thickness ∧ thickness ≤ 32767)
    (hgap : gap ≤ 0) :
    ∃ hbar vbar, GenerateCross cx cy size thickness gap = [hbar, vbar]
      ∧ hbar.Height = thickness ∧ vbar.Width = thickness
      ∧ (thickness % 2 = 1 →
          linesBefore cy hbar.Y = (thickness - 1) / 2
            ∧ linesAfter cy hbar.Y hbar.Height = (thickness - 1) / 2
            ∧ linesBefore cx vbar.X = (thickness - 1) / 2
            ∧ linesAfter cx vbar.X vbar.Width = (thickness - 1) / 2)
      ∧ (thickness % 2 = 0 → 2 ≤ thickness →
          linesBefore cy hbar.Y = thickness / 2
            ∧ linesAfter cy hbar.Y hbar.Height = thickness / 2 - 1
            ∧ linesBefore cx vbar.X = thickness / 2
            ∧ linesAfter cx vbar.X vbar.Width = thickness / 2 - 1) := by
  refine ⟨_, _, GenerateCross_of_gap_nonpos cx cy size thickness gap hs ht hgap, rfl, rfl, ?_, ?_⟩
  · intro hodd
    unfold linesBefore linesAfter sub16 wrap16
    dsimp only
    refine ⟨?_, ?_, ?_, ?_⟩ <;> omega
  · intro heven h2
    unfold linesBefore linesAfter sub16 wrap16
    dsimp only
    refine ⟨?_, ?_, ?_, ?_⟩ <;> omega

/-- Witness of C20 (amended): thickness 2 around `(100, 100)`: the horizontal bar
`(90, 99, 20, 2)` has one row above the centre row and none below. -/
theorem GenerateCross_bias_witness :
    ∃ hbar vbar, GenerateCross 100 100 10 2 0 = [hbar, vbar]
      ∧ linesBefore 100 hbar.Y = 1 ∧ linesAfter 100 hbar.Y hbar.Height = 0
      ∧ linesBefore 100 vbar.X = 1 ∧ linesAfter 100 vbar.X vbar.Width = 0 := by
  obtain ⟨hbar, vbar, h, _, _, _, heven⟩ :=
    GenerateCross_bias 100 100 10 2 0 (by decide) (by decide) (by decide)
  obtain ⟨h1, h2, h3, h4⟩ := heven (by decide) (by decide)
  exact ⟨hbar, vbar, h, h1, h2, h3, h4⟩

/-! ## The loop of the circle rasterizer, with its state -/

/-- Invariant rule for the loop of `generateFilledCircle`, for properties of the
whole state: a property `I` of the offsets, the decision variable and the slice
that each pass maintains (in the branch `d > 0`, where `y` is decremented, and
in the branch `d <= 0`) holds when the loop is left, with `y < x`. The offsets
never wrap; the decision variable is updated in `int16` arithmetic. -/
theorem circleLoop_state_rule (cx cy r : Int) (I : Int → Int → Int → List Rectangle → Prop)
    (hpos : ∀ x y d acc, 0 ≤ x → x ≤ y → y ≤ r → 0 < d → I x y d acc →
      I (x + 1) (y - 1) (add16 (add16 d (mul16 4 (sub16 x (y - 1)))) 10)
        (circleEmit cx cy x y acc))
    (hneg : ∀ x y d acc, 0 ≤ x → x ≤ y → y ≤ r → d ≤ 0 → I x y d acc →
      I (x + 1) y (add16 (add16 d (mul16 4 x)) 6) (circleEmit cx cy x y acc))
    (hr : r ≤ 32767) :
    ∀ (fuel : Nat) (x y d : Int) (acc : List Rectangle),
      0 ≤ x → y ≤ r → (y ≤ 32766 ∨ (0 < d ∧ x ≤ 32766)) → y + 1 - x ≤ fuel → I x y d acc →
      ∃ res x2 y2 d2, circleLoop cx cy fuel x y d acc = some res ∧ y2 < x2 ∧ I x2 y2 d2 res := by
  intro fuel
  induction fuel with
  | zero =>
    intro x y d acc _ _ _ hfuel hacc
    refine ⟨acc, x, y, d, ?_, by omega, hacc⟩
    unfold circleLoop
    rw [if_neg (by omega)]
  | succ n ih =>
    intro x y d acc hx hy hd hfuel hacc
    unfold circleLoop
    by_cases hyx : y ≥ x
    · rw [if_pos hyx]
      have hx1 : add16 x 1 = x + 1 := by
        unfold add16 wrap16
        omega
      by_cases hdpos : d > 0
      · rw [if_pos hdpos]
        have hy1 : sub16 y 1 = y - 1 := by
          unfold sub16 wrap16
          omega
        dsimp only
        rw [hx1, hy1]
        exact ih _ _ _ _ (by omega) (by omega) (Or.inl (by omega)) (by omega)
          (hpos x y d acc hx hyx hy hdpos hacc)
      · rw [if_neg hdpos]
        rw [hx1]
        exact ih _ _ _ _ (by omega) hy (Or.inl (by omega)) (by omega)
          (hneg x y d acc hx hyx hy (by omega) hacc)
    · rw [if_neg hyx]
      exact ⟨acc, x, y, d, rfl, by omega, hacc⟩

/-- Invariant rule for `generateFilledCircle`, for properties of the whole
state, started at `x = 0`, `y = r`, `d = 3 - 2*r` with the empty slice. -/
theorem generateFilledCircle_state_rule (cx cy r : Int)
    (I : Int → Int → Int → List Rectangle → Prop)
    (hpos : ∀ x y d acc, 0 ≤ x → x ≤ y → y ≤ r → 0 < d → I x y d acc →
      I (x + 1) (y - 1) (add16 (add16 d (mul16 4 (sub16 x (y - 1)))) 10)
        (circleEmit cx cy x y acc))
    (hneg : ∀ x y d acc, 0 ≤ x → x ≤ y → y ≤ r → d ≤ 0 → I x y d acc →
      I (x + 1) y (add16 (add16 d (mul16 4 x)) 6) (circleEmit cx cy x y acc))
    (h0 : I 0 r (sub16 3 (mul16 2 r)) []) (hr0 : 0 ≤ r) (hr : r ≤ 32767) :
    ∃ res x2 y2 d2, generateFilledCircle cx cy r = some res ∧ y2 < x2 ∧ I x2 y2 d2 res := by
  unfold generateFilledCircle
  apply circleLoop_state_rule cx cy r I hpos hneg hr loopBudget 0 r _ [] (le_refl 0) (le_refl r)
  · by_cases h : r ≤ 32766
    · exact Or.inl h
    · right
      have hr2 : r = 32767 := by omega
      subst hr2
      decide
  · unfold loopBudget
    omega
  · exact h0

/-- The rectangles in the slice after one pass of the loop body, as scanlines:
at offsets `0 <= x <= y` the pass appends the lines of half-width `y` on the
rows at offsets `-x` and `x` (one line on the centre row when `x = 0`) and,
when `x != y`, the lines of half-width `x` on the rows at offsets `-y` and
`y`. -/
theorem mem_circleEmit_scanline {cx cy x y : Int} {acc : List Rectangle} {rect : Rectangle}
    (hcy : isInt16 cy) (hx : 0 ≤ x) (hxy : x ≤ y) (hy : y ≤ 32767) :
    rect ∈ circleEmit cx cy x y acc ↔
      rect ∈ acc
      ∨ (0 < x ∧ (rect = scanline cx cy y (-x) ∨ rect = scanline cx cy y x))
      ∨ (x = 0 ∧ rect = scanline cx cy y 0)
      ∨ (x ≠ y ∧ (rect = scanline cx cy x (-y) ∨ rect = scanline cx cy x y)) := by
  have hy0 : 0 ≤ y := by omega
  have hx1 : x ≤ 32767 := by omega
  rw [mem_circleEmit, makeCenteredLine_above cx cy x hy0 hy, makeCenteredLine_below cx cy x hy0 hy,
    makeCenteredLine_center cx hcy hy0 hy, makeCenteredLine_above cx cy y hx hx1,
    makeCenteredLine_below cx cy y hx hx1]
  have h0 : ¬ 0 < x ↔ x = 0 := by omega
  rw [h0]

/-- Two scanlines of the same circle are the same rectangle only if they have
the same half-width and the same row offset. -/
theorem scanline_inj {cx cy k dy k2 dy2 : Int}
    (hdy : -32767 ≤ dy ∧ dy ≤ 32767) (hdy2 : -32767 ≤ dy2 ∧ dy2 ≤ 32767)
    (h : scanline cx cy k dy = scanline cx cy k2 dy2) : k = k2 ∧ dy = dy2 := by
  unfold scanline add16 wrap16 at h
  simp only [Rectangle.mk.injEq] at h
  obtain ⟨_, h2, h3, _⟩ := h
  constructor <;> omega


/-- One pass of the loop maintains the invariant on the rows, whether it
decrements `y` or not. -/
theorem rowsInvariant_step (cx cy r x y y2 : Int) (acc : List Rectangle)
    (hcy : isInt16 cy) (hr : r ≤ 32767) (hx : 0 ≤ x) (hxy : x ≤ y) (hy : y ≤ r)
    (hy2 : y2 = y ∨ y2 = y - 1) (h : rowsInvariant cx cy r x y acc) :
    rowsInvariant cx cy r (x + 1) y2 (circleEmit cx cy x y acc) := by
  obtain ⟨_, h0, hform, hlow, hhigh, hcentre⟩ := h
  have hmem : ∀ rect, rect ∈ circleEmit cx cy x y acc ↔
      rect ∈ acc
      ∨ (0 < x ∧ (rect = scanline cx cy y (-x) ∨ rect = scanline cx cy y x))
      ∨ (x = 0 ∧ rect = scanline cx cy y 0)
      ∨ (x ≠ y ∧ (rect = scanline cx cy x (-y) ∨ rect = scanline cx cy x y)) :=
    fun rect => mem_circleEmit_scanline hcy hx hxy (by omega)
  have hold : ∀ rect, rect ∈ acc → rect ∈ circleEmit cx cy x y acc :=
    fun rect hrect => (hmem rect).2 (Or.inl hrect)
  refine ⟨by omega, ?_, ?_, ?_, ?_, ?_⟩
  · intro hx0
    omega
  · intro rect hrect
    rcases (hmem rect).1 hrect with h | ⟨hpos, h | h⟩ | ⟨hzero, h⟩ | ⟨hne, h | h⟩
    · exact hform rect h
    · exact ⟨y, -x, h, by omega, by omega, by omega, hy, by omega⟩
    · exact ⟨y, x, h, by omega, by omega, by omega, hy, by omega⟩
    · exact ⟨y, 0, h, by omega, by omega, by omega, hy, fun _ => h0 hzero⟩
    · exact ⟨x, -y, h, by omega, by omega, hx, by omega, by omega⟩
    · exact ⟨x, y, h, by omega, by omega, hx, by omega, by omega⟩
  · intro dy h1 h2
    by_cases hin : -x < dy ∧ dy < x
    · obtain ⟨k, hk⟩ := hlow dy hin.1 hin.2
      exact ⟨k, hold _ hk⟩
    · by_cases hx0 : x = 0
      · have hdy : dy = 0 := by omega
        subst hdy
        exact ⟨y, (hmem _).2 (Or.inr (Or.inr (Or.inl ⟨hx0, rfl⟩)))⟩
      · have hpos : 0 < x := by omega
        have hdy : dy = -x ∨ dy = x := by omega
        rcases hdy with hdy | hdy
        · subst hdy
          exact ⟨y, (hmem _).2 (Or.inr (Or.inl ⟨hpos, Or.inl rfl⟩))⟩
        · subst hdy
          exact ⟨y, (hmem _).2 (Or.inr (Or.inl ⟨hpos, Or.inr rfl⟩))⟩
  · intro dy hout h1 h2
    by_cases hold2 : dy < -y ∨ y < dy
    · obtain ⟨k, hk⟩ := hhigh dy hold2 h1 h2
      exact ⟨k, hold _ hk⟩
    · have hdy : dy = -y ∨ dy = y := by omega
      by_cases hne : x = y
      · by_cases hx0 : x = 0
        · have hdy0 : dy = 0 := by omega
          subst hdy0
          exact ⟨y, (hmem _).2 (Or.inr (Or.inr (Or.inl ⟨hx0, rfl⟩)))⟩
        · have hpos : 0 < x := by omega
          rcases hdy with hdy | hdy
          · have hdx : dy = -x := by omega
            subst hdx
            exact ⟨y, (hmem _).2 (Or.inr (Or.inl ⟨hpos, Or.inl rfl⟩))⟩
          · have hdx : dy = x := by omega
            subst hdx
            exact ⟨y, (hmem _).2 (Or.inr (Or.inl ⟨hpos, Or.inr rfl⟩))⟩
      · rcases hdy with hdy | hdy
        · subst hdy
          exact ⟨x, (hmem _).2 (Or.inr (Or.inr (Or.inr ⟨hne, Or.inl rfl⟩)))⟩
        · subst hdy
          exact ⟨x, (hmem _).2 (Or.inr (Or.inr (Or.inr ⟨hne, Or.inr rfl⟩)))⟩
  · intro _
    by_cases hx0 : x = 0
    · have hyr : y = r := h0 hx0
      rw [← hyr]
      exact (hmem _).2 (Or.inr (Or.inr (Or.inl ⟨hx0, rfl⟩)))
    · exact hold _ (hcentre (by omega))

/-- The rows of the filled circle of radius `1 <= r <= 32767`: every rectangle
is a scanline within the radius, every row at an offset in `[-r, r]` has one,
and the centre row has exactly the line of half-width `r`. -/
theorem generateFilledCircle_rows (cx cy r : Int) (hcy : isInt16 cy)
    (hr0 : 1 ≤ r) (hr : r ≤ 32767) :
    ∃ rects, generateFilledCircle cx cy r = some rects
      ∧ (∀ rect ∈ rects, ∃ k dy, rect = scanline cx cy k dy ∧ -r ≤ dy ∧ dy ≤ r ∧ 0 ≤ k ∧ k ≤ r
          ∧ (dy = 0 → k = r))
      ∧ (∀ dy, -r ≤ dy → dy ≤ r → ∃ k, scanline cx cy k dy ∈ rects)
      ∧ scanline cx cy r 0 ∈ rects := by
  obtain ⟨rects, x2, y2, d2, hres, hexit, hinv⟩ :=
    generateFilledCircle_state_rule cx cy r (fun x y _ acc => rowsInvariant cx cy r x y acc)
      (fun x y _ acc hx hxy hy _ h =>
        rowsInvariant_step cx cy r x y (y - 1) acc hcy hr hx hxy hy (Or.inr rfl) h)
      (fun x y _ acc hx hxy hy _ h =>
        rowsInvariant_step cx cy r x y y acc hcy hr hx hxy hy (Or.inl rfl) h)
      ⟨le_refl 0, fun _ => rfl, fun rect hrect => absurd hrect (List.not_mem_nil rect),
        fun dy h1 h2 => absurd h2 (by omega), fun dy hout h1 h2 => absurd hout (by omega),
        fun h => absurd h (by omega)⟩
      (by omega) hr
  obtain ⟨hx2, h0, hform, hlow, hhigh, hcentre⟩ := hinv
  refine ⟨rects, hres, hform, ?_, ?_⟩
  · intro dy h1 h2
    by_cases hin : -x2 < dy ∧ dy < x2
    · exact hlow dy hin.1 hin.2
    · exact hhigh dy (by omega) h1 h2
  · apply hcentre
    by_contra hx
    have := h0 (by omega)
    omega

/-- C24. For every radius `1 <= r <= 500` and every centre, the filled circle has
no missing scanline: for every `dy` with `-r <= dy <= r` the rasterizer emits a
rectangle on row `cy + dy`; the rectangle on row `cy` is the line of
half-width exactly `r`, `(cx - r, cy, 2r + 1, 1)`, and no rectangle is wider or
on a row further away, so the circle spans exactly `2r + 1` pixels on both
axes. Rows and columns are those of the `int16` coordinate space; they are the
plain integers `cy + dy` when `cy - r` and `cy + r` lie in the `int16`
range. -/
theorem GenerateCircle_no_missing_row (cx cy r : Int) (hcy : isInt16 cy)
    (hr0 : 1 ≤ r) (hr : r ≤ 500) :
    ∃ rects, GenerateCircle cx cy r = some rects
      ∧ (∀ dy, -r ≤ dy → dy ≤ r → ∃ rect ∈ rects, rect.Y = add16 cy dy)
      ∧ (⟨sub16 cx r, cy, 2 * r + 1, 1⟩ : Rectangle) ∈ rects
      ∧ (∀ rect ∈ rects, rect.Y = cy → rect = ⟨sub16 cx r, cy, 2 * r + 1, 1⟩)
      ∧ (∀ rect ∈ rects, rect.Width ≤ 2 * r + 1 ∧ rect.Height = 1
          ∧ ∃ dy, -r ≤ dy ∧ dy ≤ r ∧ rect.Y = add16 cy dy)
      ∧ (isInt16 (cy - r) → isInt16 (cy + r) →
          ∀ dy, -r ≤ dy → dy ≤ r → ∃ rect ∈ rects, rect.Y = cy + dy) := by
  obtain ⟨rects, hrects, hform, hrows, hcentre⟩ :=
    generateFilledCircle_rows cx cy r hcy hr0 (by omega)
  have hc0 : scanline cx cy r 0 = ⟨sub16 cx r, cy, 2 * r + 1, 1⟩ := by
    unfold scanline add16
    rw [Int.add_zero, wrap16_of_isInt16 hcy]
  refine ⟨rects, ?_, ?_, ?_, ?_, ?_, ?_⟩
  · unfold GenerateCircle
    rw [if_neg (by omega)]
    exact hrects
  · intro dy h1 h2
    obtain ⟨k, hk⟩ := hrows dy h1 h2
    exact ⟨_, hk, rfl⟩
  · rw [← hc0]
    exact hcentre
  · intro rect hrect hy
    obtain ⟨k, dy, heq, h1, h2, h3, h4, h5⟩ := hform rect hrect
    have hdy : dy = 0 := by
      rw [heq] at hy
      unfold scanline add16 wrap16 at hy
      unfold isInt16 at hcy
      dsimp only at hy
      omega
    rw [heq, hdy, h5 hdy, hc0]
  · intro rect hrect
    obtain ⟨k, dy, heq, h1, h2, h3, h4, _⟩ := hform rect hrect
    rw [heq]
    unfold scanline
    exact ⟨by dsimp only; omega, rfl, dy, h1, h2, rfl⟩
  · intro hy1 hy2 dy h1 h2
    obtain ⟨k, hk⟩ := hrows dy h1 h2
    refine ⟨_, hk, ?_⟩
    unfold scanline add16
    unfold isInt16 at hy1 hy2
    exact wrap16_of_isInt16 ⟨by omega, by omega⟩

/-- Witness of C24: the circle of radius 2 around `(100, 100)` has a rectangle on
each of the rows 98 to 102 and the line `(98, 100, 5, 1)` on row 100. -/
theorem GenerateCircle_no_missing_row_witness :
    ∃ rects, GenerateCircle 100 100 2 = some rects
      ∧ (∀ dy, -2 ≤ dy → dy ≤ 2 → ∃ rect ∈ rects, rect.Y = 100 + dy)
      ∧ (⟨98, 100, 5, 1⟩ : Rectangle) ∈ rects := by
  obtain ⟨rects, h1, _, h3, _, _, h6⟩ :=
    GenerateCircle_no_missing_row 100 100 2 (by decide) (by decide) (by decide)
  exact ⟨rects, h1, h6 (by decide) (by decide), h3⟩

/-! ## Distance of the scanlines from the centre -/

/-- The invariant on the distances bounds the decision variable of a pass. -/
theorem distInvariant_bound (cx cy r x y d : Int) (acc : List Rectangle)
    (hx : 0 ≤ x) (hxy : x ≤ y) (hy : y ≤ r) (h : distInvariant cx cy r x y d acc) :
    -4 * r ≤ d ∧ d ≤ 10 * r + 3 := by
  obtain ⟨hd, hlow, hgeo, _⟩ := h
  have hg := hgeo hxy
  constructor
  · exact hlow
  · nlinarith

/-- The scanlines appended by a pass at offsets within `r^2 + r` of the centre
are within that distance. -/
theorem distInvariant_emit (cx cy r x y : Int) (acc : List Rectangle)
    (hcy : isInt16 cy) (hr : r ≤ 32767) (hx : 0 ≤ x) (hxy : x ≤ y) (hy : y ≤ r)
    (hg : x * x + y * y ≤ r * r + r)
    (hacc : ∀ rect ∈ acc, ∃ k dy, rect = scanline cx cy k dy ∧ 0 ≤ k ∧ k ≤ r ∧ -r ≤ dy ∧ dy ≤ r
        ∧ k * k + dy * dy ≤ r * r + r) :
    ∀ rect ∈ circleEmit cx cy x y acc, ∃ k dy, rect = scanline cx cy k dy ∧ 0 ≤ k ∧ k ≤ r
      ∧ -r ≤ dy ∧ dy ≤ r ∧ k * k + dy * dy ≤ r * r + r := by
  intro rect hrect
  rcases (mem_circleEmit_scanline hcy hx hxy (by omega)).1 hrect with
    h | ⟨_, h | h⟩ | ⟨hzero, h⟩ | ⟨_, h | h⟩
  · exact hacc rect h
  · exact ⟨y, -x, h, by omega, hy, by omega, by omega, by nlinarith⟩
  · exact ⟨y, x, h, by omega, hy, by omega, by omega, by nlinarith⟩
  · exact ⟨y, 0, h, by omega, hy, by omega, by omega, by subst hzero; nlinarith⟩
  · exact ⟨x, -y, h, hx, by omega, by omega, by omega, by nlinarith⟩
  · exact ⟨x, y, h, hx, by omega, by omega, by omega, by nlinarith⟩

/-- A pass that decrements `y` maintains the invariant on the distances. -/
theorem distInvariant_pos (cx cy r x y d : Int) (acc : List Rectangle)
    (hcy : isInt16 cy) (hr : r ≤ 3000) (hx : 0 ≤ x) (hxy : x ≤ y) (hy : y ≤ r) (hd : 0 < d)
    (h : distInvariant cx cy r x y d acc) :
    distInvariant cx cy r (x + 1) (y - 1) (add16 (add16 d (mul16 4 (sub16 x (y - 1)))) 10)
      (circleEmit cx cy x y acc) := by
  obtain ⟨hlo, hhi⟩ := distInvariant_bound cx cy r x y d acc hx hxy hy h
  obtain ⟨hform, _, hgeo, hacc⟩ := h
  have hg := hgeo hxy
  have hnew : add16 (add16 d (mul16 4 (sub16 x (y - 1)))) 10 = d + 4 * (x - (y - 1)) + 10 := by
    unfold add16 mul16 sub16 wrap16
    omega
  rw [hnew]
  refine ⟨?_, by omega, ?_, distInvariant_emit cx cy r x y acc hcy (by omega) hx hxy hy hg hacc⟩
  · rw [hform]
    ring
  · intro hle
    nlinarith

/-- A pass that keeps `y` maintains the invariant on the distances. -/
theorem distInvariant_neg (cx cy r x y d : Int) (acc : List Rectangle)
    (hcy : isInt16 cy) (hr : r ≤ 3000) (hx : 0 ≤ x) (hxy : x ≤ y) (hy : y ≤ r) (hd : d ≤ 0)
    (h : distInvariant cx cy r x y d acc) :
    distInvariant cx cy r (x + 1) y (add16 (add16 d (mul16 4 x)) 6)
      (circleEmit cx cy x y acc) := by
  obtain ⟨hlo, hhi⟩ := distInvariant_bound cx cy r x y d acc hx hxy hy h
  obtain ⟨hform, _, hgeo, hacc⟩ := h
  have hg := hgeo hxy
  have hnew : add16 (add16 d (mul16 4 x)) 6 = d + 4 * x + 6 := by
    unfold add16 mul16 wrap16
    omega
  rw [hnew]
  refine ⟨?_, by omega, ?_, distInvariant_emit cx cy r x y acc hcy (by omega) hx hxy hy hg hacc⟩
  · rw [hform]
    ring
  · intro hle
    rw [hform] at hd
    nlinarith

/-- The scanlines of the filled circle of radius `1 <= r <= 3000` end within
`r^2 + r` of the centre. -/
theorem generateFilledCircle_dist (cx cy r : Int) (hcy : isInt16 cy)
    (hr0 : 1 ≤ r) (hr : r ≤ 3000) :
    ∃ rects, generateFilledCircle cx cy r = some rects
      ∧ ∀ rect ∈ rects, ∃ k dy, rect = scanline cx cy k dy ∧ 0 ≤ k ∧ k ≤ r ∧ -r ≤ dy ∧ dy ≤ r
          ∧ k * k + dy * dy ≤ r * r + r := by
  have hd0 : sub16 3 (mul16 2 r) = 3 - 2 * r := by
    unfold sub16 mul16 wrap16
    omega
  obtain ⟨rects, x2, y2, d2, hres, _, hinv⟩ :=
    generateFilledCircle_state_rule cx cy r (fun x y d acc => distInvariant cx cy r x y d acc)
      (fun x y d acc hx hxy hy hd h => distInvariant_pos cx cy r x y d acc hcy hr hx hxy hy hd h)
      (fun x y d acc hx hxy hy hd h => distInvariant_neg cx cy r x y d acc hcy hr hx hxy hy hd h)
      (by
        rw [hd0]
        refine ⟨by ring, by omega, fun _ => by nlinarith,
          fun rect hrect => absurd hrect (List.not_mem_nil rect)⟩)
      (by omega) (by omega)
  exact ⟨rects, hres, hinv.2.2.2⟩

/-- C25. For every radius `1 <= r <= 500`, every pixel covered by a rectangle of
the circle rasterizer lies within Euclidean distance `r + 1` of the centre
pixel: at every offset `(dx, dy)` of a covered pixel,
`dx*dx + dy*dy <= r*r + r < (r + 1)*(r + 1)`. Each rectangle is the line
`(cx - k, cy + dy, 2k + 1, 1)` of the `int16` coordinate space, covering the
column offsets `-k <= dx <= k`; when `cx - r`, `cx + r`, `cy - r` and `cy + r`
lie in the `int16` range the offsets are the plain differences `px - cx` and
`py - cy` of every covered pixel `(px, py)`. -/
theorem GenerateCircle_within_distance (cx cy r : Int) (hcy : isInt16 cy)
    (hr0 : 1 ≤ r) (hr : r ≤ 500) :
    r * r + r < (r + 1) * (r + 1)
      ∧ ∃ rects, GenerateCircle cx cy r = some rects
        ∧ (∀ rect ∈ rects, ∃ k dy, rect = ⟨sub16 cx k, add16 cy dy, 2 * k + 1, 1⟩
            ∧ ∀ dx, -k ≤ dx → dx ≤ k → dx * dx + dy * dy ≤ r * r + r)
        ∧ (isInt16 (cx - r) → isInt16 (cx + r) → isInt16 (cy - r) → isInt16 (cy + r) →
            ∀ rect ∈ rects, ∀ px py, rect.covers px py →
              (px - cx) * (px - cx) + (py - cy) * (py - cy) ≤ r * r + r) := by
  obtain ⟨rects, hrects, hdist⟩ := generateFilledCircle_dist cx cy r hcy hr0 (by omega)
  have hsq : ∀ k dx : Int, -k ≤ dx → dx ≤ k → dx * dx ≤ k * k := by
    intro k dx h1 h2
    nlinarith [mul_nonneg (sub_nonneg.2 h2) (by omega : (0 : Int) ≤ k + dx)]
  refine ⟨by nlinarith, rects, ?_, ?_, ?_⟩
  · unfold GenerateCircle
    rw [if_neg (by omega)]
    exact hrects
  · intro rect hrect
    obtain ⟨k, dy, heq, _, _, _, _, hle⟩ := hdist rect hrect
    refine ⟨k, dy, heq, ?_⟩
    intro dx h1 h2
    have := hsq k dx h1 h2
    omega
  · intro hx1 hx2 hy1 hy2 rect hrect px py hcov
    obtain ⟨k, dy, heq, hk0, hk, hdy1, hdy2, hle⟩ := hdist rect hrect
    unfold isInt16 at hx1 hx2 hy1 hy2
    have hX : sub16 cx k = cx - k := wrap16_of_isInt16 ⟨by omega, by omega⟩
    have hY : add16 cy dy = cy + dy := wrap16_of_isInt16 ⟨by omega, by omega⟩
    rw [heq] at hcov
    unfold Rectangle.covers scanline at hcov
    rw [hX, hY] at hcov
    dsimp only at hcov
    have hpy : py - cy = dy := by omega
    have := hsq k (px - cx) (by omega) (by omega)
    rw [hpy]
    omega

/-- Witness of C25: the circle of radius 5 around `(100, 100)`; every covered
pixel is within `5*5 + 5 = 30` of the centre in squared distance. -/
theorem GenerateCircle_within_distance_witness :
    ∃ rects, GenerateCircle 100 100 5 = some rects
      ∧ ∀ rect ∈ rects, ∀ px py, rect.covers px py →
          (px - 100) * (px - 100) + (py - 100) * (py - 100) ≤ 30 := by
  obtain ⟨_, rects, h1, _, h3⟩ :=
    GenerateCircle_within_distance 100 100 5 (by decide) (by decide) (by decide)
  exact ⟨rects, h1, h3 (by decide) (by decide) (by decide) (by decide)⟩

/-! ## Repetitions and nesting among the scanlines -/

/-- One pass of the loop body appends its scanlines to the slice. -/
theorem circleEmit_eq_append (cx cy x y : Int) (acc : List Rectangle)
    (hcy : isInt16 cy) (hx : 0 ≤ x) (hxy : x ≤ y) (hy : y ≤ 32767) :
    circleEmit cx cy x y acc = acc ++ passLines cx cy x y := by
  have hy0 : 0 ≤ y := by omega
  have hx1 : x ≤ 32767 := by omega
  unfold circleEmit passLines
  rw [makeCenteredLine_above cx cy x hy0 hy, makeCenteredLine_below cx cy x hy0 hy,
    makeCenteredLine_center cx hcy hy0 hy, makeCenteredLine_above cx cy y hx hx1,
    makeCenteredLine_below cx cy y hx hx1]
  dsimp only
  have hgt : x > 0 ↔ 0 < x := Iff.rfl
  by_cases h1 : 0 < x <;> by_cases h2 : x ≠ y <;>
    simp only [hgt, h1, h2, if_true, if_false, List.append_assoc, List.singleton_append,
      List.cons_append, List.nil_append, List.append_nil, ne_eq, not_true_eq_false,
      not_false_eq_true]

/-- The scanlines of one pass are pairwise different. -/
theorem passLines_nodup (cx cy x y : Int) (hx : 0 ≤ x) (hxy : x ≤ y) (hy : y ≤ 32767) :
    (passLines cx cy x y).Nodup := by
  have hne : ∀ k dy k2 dy2 : Int, -32767 ≤ dy → dy ≤ 32767 → -32767 ≤ dy2 → dy2 ≤ 32767 →
      (k ≠ k2 ∨ dy ≠ dy2) → scanline cx cy k dy ≠ scanline cx cy k2 dy2 := by
    intro k dy k2 dy2 h1 h2 h3 h4 hdiff heq
    obtain ⟨e1, e2⟩ := scanline_inj ⟨h1, h2⟩ ⟨h3, h4⟩ heq
    omega
  unfold passLines
  by_cases h1 : 0 < x <;> by_cases h2 : x ≠ y
  · rw [if_pos h1, if_pos h2]
    simp only [List.cons_append, List.nil_append, List.nodup_cons, List.mem_cons,
      List.mem_singleton, List.not_mem_nil, not_or, List.nodup_nil, not_false_eq_true,
      and_true]
    refine ⟨⟨?_, ?_, ?_⟩, ⟨?_, ?_⟩, ?_⟩ <;>
      exact hne _ _ _ _ (by omega) (by omega) (by omega) (by omega) (by omega)
  · rw [if_pos h1, if_neg h2]
    simp only [List.append_nil, List.nodup_cons, List.mem_singleton, List.not_mem_nil,
      List.nodup_nil, not_false_eq_true, and_true]
    exact hne _ _ _ _ (by omega) (by omega) (by omega) (by omega) (by omega)
  · rw [if_neg h1, if_pos h2]
    simp only [List.cons_append, List.nil_append, List.nodup_cons, List.mem_cons,
      List.mem_singleton, List.not_mem_nil, not_or, List.nodup_nil, not_false_eq_true,
      and_true]
    refine ⟨⟨?_, ?_⟩, ?_⟩ <;>
      exact hne _ _ _ _ (by omega) (by omega) (by omega) (by omega) (by omega)
  · rw [if_neg h1, if_neg h2]
    simp

/-- The scanlines of one pass, by half-width and row offset. -/
theorem mem_passLines {cx cy x y : Int} {rect : Rectangle} (hx : 0 ≤ x)
    (h : rect ∈ passLines cx cy x y) :
    (rect = scanline cx cy y (-x) ∨ rect = scanline cx cy y x)
      ∨ (x ≠ y ∧ (rect = scanline cx cy x (-y) ∨ rect = scanline cx cy x y)) := by
  unfold passLines at h
  by_cases h1 : 0 < x <;> by_cases h2 : x ≠ y
  · rw [if_pos h1, if_pos h2] at h
    simp only [List.cons_append, List.nil_append, List.mem_cons, List.mem_singleton,
      List.not_mem_nil, or_false] at h
    rcases h with h | h | h | h
    · exact Or.inl (Or.inl h)
    · exact Or.inl (Or.inr h)
    · exact Or.inr ⟨h2, Or.inl h⟩
    · exact Or.inr ⟨h2, Or.inr h⟩
  · rw [if_pos h1, if_neg h2] at h
    simp only [List.append_nil, List.mem_cons, List.mem_singleton, List.not_mem_nil,
      or_false] at h
    exact Or.inl h
  · rw [if_neg h1, if_pos h2] at h
    have hx0 : x = 0 := by omega
    subst hx0
    simp only [List.cons_append, List.nil_append, List.mem_cons, List.mem_singleton,
      List.not_mem_nil, or_false] at h
    rcases h with h | h | h
    · exact Or.inl (Or.inr h)
    · exact Or.inr ⟨h2, Or.inl h⟩
    · exact Or.inr ⟨h2, Or.inr h⟩
  · rw [if_neg h1, if_neg h2] at h
    have hx0 : x = 0 := by omega
    subst hx0
    simp only [List.append_nil, List.mem_singleton] at h
    exact Or.inl (Or.inr h)

/-- Each pass of the loop maintains `nodupInvariant`, whether it decrements `y`
or not. -/
theorem nodupInvariant_step (cx cy r x y y2 : Int) (acc : List Rectangle)
    (hcy : isInt16 cy) (hr : r ≤ 32767) (hx : 0 ≤ x) (hxy : x ≤ y) (hy : y ≤ r)
    (hy2 : y2 = y ∨ y2 = y - 1) (h : nodupInvariant cx cy r x y acc) :
    nodupInvariant cx cy r (x + 1) y2 (circleEmit cx cy x y acc) := by
  obtain ⟨hnodup, hform⟩ := h
  rw [circleEmit_eq_append cx cy x y acc hcy hx hxy (by omega)]
  constructor
  · rw [List.nodup_append]
    refine ⟨hnodup, passLines_nodup cx cy x y hx hxy (by omega), ?_⟩
    intro rect hacc hnew
    obtain ⟨k, dy, heq, h1, h2, hkind⟩ := hform rect hacc
    rcases mem_passLines hx hnew with (h | h) | ⟨_, h | h⟩ <;>
    · rw [heq] at h
      obtain ⟨e1, e2⟩ := scanline_inj ⟨by omega, by omega⟩ ⟨by omega, by omega⟩ h
      omega
  · intro rect hrect
    rw [List.mem_append] at hrect
    rcases hrect with hacc | hnew
    · obtain ⟨k, dy, heq, h1, h2, hkind⟩ := hform rect hacc
      refine ⟨k, dy, heq, h1, h2, ?_⟩
      rcases hkind with hk | hk
      · exact Or.inl ⟨by omega, by omega, by omega⟩
      · exact Or.inr ⟨by omega, by omega⟩
    · rcases mem_passLines hx hnew with (h | h) | ⟨hne, h | h⟩
      · exact ⟨y, -x, h, by omega, by omega, Or.inl ⟨by omega, by omega, by omega⟩⟩
      · exact ⟨y, x, h, by omega, by omega, Or.inl ⟨by omega, by omega, by omega⟩⟩
      · exact ⟨x, -y, h, by omega, by omega, Or.inr ⟨by omega, by omega⟩⟩
      · exact ⟨x, y, h, by omega, by omega, Or.inr ⟨by omega, by omega⟩⟩

/-- No rectangle occurs twice in the slice of `generateFilledCircle`, for every
radius of the `int16` range. -/
theorem generateFilledCircle_nodup (cx cy r : Int) (hcy : isInt16 cy)
    (hr0 : 0 ≤ r) (hr : r ≤ 32767) :
    ∃ rects, generateFilledCircle cx cy r = some rects ∧ rects.Nodup := by
  obtain ⟨rects, x2, y2, d2, hres, _, hinv⟩ :=
    generateFilledCircle_state_rule cx cy r (fun x y _ acc => nodupInvariant cx cy r x y acc)
      (fun x y _ acc hx hxy hy _ h =>
        nodupInvariant_step cx cy r x y (y - 1) acc hcy hr hx hxy hy (Or.inr rfl) h)
      (fun x y _ acc hx hxy hy _ h =>
        nodupInvariant_step cx cy r x y y acc hcy hr hx hxy hy (Or.inl rfl) h)
      ⟨List.nodup_nil, fun rect hrect => absurd hrect (List.not_mem_nil rect)⟩
      hr0 hr
  exact ⟨rects, hres, hinv.1⟩

/-- A pass of the loop in the branch `d <= 0`. -/
theorem circleLoop_pass_neg (cx cy : Int) (n : Nat) (x y d : Int) (acc : List Rectangle)
    (hxy : x ≤ y) (hd : d ≤ 0) :
    circleLoop cx cy (n + 1) x y d acc =
      circleLoop cx cy n (add16 x 1) y (add16 (add16 d (mul16 4 x)) 6)
        (circleEmit cx cy x y acc) := by
  rw [circleLoop, if_pos (by omega), if_neg (by omega)]

/-- What a pass of the loop appends stays in the result. -/
theorem circleLoop_pass_extends (cx cy : Int) (n : Nat) (x y d : Int)
    (acc res : List Rectangle) (hxy : x ≤ y)
    (h : circleLoop cx cy (n + 1) x y d acc = some res) :
    circleEmit cx cy x y acc <+: res := by
  rw [circleLoop, if_pos (by omega)] at h
  by_cases hd : d > 0
  · rw [if_pos hd] at h
    exact circleLoop_extends cx cy n _ _ _ _ res h
  · rw [if_neg hd] at h
    exact circleLoop_extends cx cy n _ _ _ _ res h

/-- For a radius from 2 on (up to 16383, where `3 - 2*r` is still computed
without wrap), the first two passes run at `y = r` with `x = 0` and `x = 1`, so
the rows at offsets `-r` and `r` receive the scanline of half-width 0 and the
scanline of half-width 1. -/
theorem generateFilledCircle_top_rows (cx cy r : Int) (rects : List Rectangle)
    (hcy : isInt16 cy) (hr0 : 2 ≤ r) (hr : r ≤ 16383)
    (h : generateFilledCircle cx cy r = some rects) :
    scanline cx cy 0 (-r) ∈ rects ∧ scanline cx cy 0 r ∈ rects
      ∧ scanline cx cy 1 (-r) ∈ rects ∧ scanline cx cy 1 r ∈ rects := by
  have hd0 : sub16 3 (mul16 2 r) ≤ 0 := by
    unfold sub16 mul16 wrap16
    omega
  have hone : add16 0 1 = 1 := by decide
  have hbudget : loopBudget = 65534 + 1 + 1 := rfl
  unfold generateFilledCircle at h
  rw [hbudget, circleLoop_pass_neg cx cy _ 0 r _ [] (by omega) hd0, hone] at h
  have hpre := circleLoop_pass_extends cx cy _ 1 r _ _ rects (by omega) h
  have hsub : ∀ rect, rect ∈ circleEmit cx cy 1 r (circleEmit cx cy 0 r []) → rect ∈ rects :=
    fun rect hrect => hpre.subset hrect
  have hm1 : ∀ rect acc, rect ∈ circleEmit cx cy 1 r acc ↔ _ :=
    fun rect acc => @mem_circleEmit_scanline cx cy 1 r acc rect hcy
      (by omega : (0 : Int) ≤ 1) (by omega : (1 : Int) ≤ r) (by omega)
  have hm0 : ∀ rect acc, rect ∈ circleEmit cx cy 0 r acc ↔ _ :=
    fun rect acc => @mem_circleEmit_scanline cx cy 0 r acc rect hcy
      (le_refl (0 : Int)) (by omega : (0 : Int) ≤ r) (by omega)
  refine ⟨?_, ?_, ?_, ?_⟩
  · apply hsub
    rw [hm1]
    left
    rw [hm0]
    exact Or.inr (Or.inr (Or.inr ⟨by omega, Or.inl rfl⟩))
  · apply hsub
    rw [hm1]
    left
    rw [hm0]
    exact Or.inr (Or.inr (Or.inr ⟨by omega, Or.inr rfl⟩))
  · apply hsub
    rw [hm1]
    exact Or.inr (Or.inr (Or.inr ⟨by omega, Or.inl rfl⟩))
  · apply hsub
    rw [hm1]
    exact Or.inr (Or.inr (Or.inr ⟨by omega, Or.inr rfl⟩))

/-- Two different members of a list make it at least two long. -/
theorem two_le_length_of_mem {α : Type} {l : List α} {a b : α} (ha : a ∈ l) (hb : b ∈ l)
    (hab : a ≠ b) : 2 ≤ l.length := by
  have hnd : [a, b].Nodup := by
    simp only [List.nodup_cons, List.mem_singleton, List.not_mem_nil, not_false_eq_true,
      List.nodup_nil, and_true]
    exact hab
  have hsub : [a, b] ⊆ l := by
    intro c hc
    simp only [List.mem_cons, List.mem_singleton, List.not_mem_nil, or_false] at hc
    rcases hc with hc | hc <;> rw [hc] <;> assumption
  exact (List.subperm_of_subset hnd hsub).length_le

/-- C21 fails as stated: the circle of radius 2 around `(0, 0)` consists of seven
rectangles for five rows; the rectangle `(0, -2, 1, 1)` of the first pass lies
inside the rectangle `(-1, -2, 3, 1)` of the second pass, so the row `-2` (and
likewise the row `2`) receives two rectangles. -/
theorem GenerateCircle_nested_counterexample :
    GenerateCircle 0 0 2 =
        some [ ⟨-2, 0, 5, 1⟩, ⟨0, -2, 1, 1⟩, ⟨0, 2, 1, 1⟩, ⟨-2, -1, 5, 1⟩, ⟨-2, 1, 5, 1⟩,
          ⟨-1, -2, 3, 1⟩, ⟨-1, 2, 3, 1⟩ ]
      ∧ Rectangle.within ⟨0, -2, 1, 1⟩ ⟨-1, -2, 3, 1⟩
      ∧ (∃ rects, GenerateCircle 0 0 2 = some rects ∧ ¬ NoneWithinAnother rects
          ∧ countOnRow rects (-2) = 2 ∧ countOnRow rects 2 = 2) := by
  refine ⟨by decide, by decide,
    [ ⟨-2, 0, 5, 1⟩, ⟨0, -2, 1, 1⟩, ⟨0, 2, 1, 1⟩, ⟨-2, -1, 5, 1⟩, ⟨-2, 1, 5, 1⟩,
      ⟨-1, -2, 3, 1⟩, ⟨-1, 2, 3, 1⟩ ], by decide, by decide, by decide, by decide⟩

/-- C21, amended. For every centre and every radius `r >= 1` the circle
rasterizer emits no rectangle twice (what skipping the case `x == y` achieves).
For `r = 1` the sequence is the centre line and one single-pixel line above and
below: no rectangle lies inside another and each of the three rows receives
exactly one rectangle. For every `r >= 2` (up to 16383, where `3 - 2*r` is
computed without wrap) the rows at offsets `-r` and `r` each receive both the
line of half-width 0 and the line of half-width 1, two different rectangles of
which the first lies inside the second, so the sequence is not minimal. -/
theorem GenerateCircle_no_repetition (cx cy r : Int) (hcy : isInt16 cy)
    (hr0 : 1 ≤ r) (hr : r ≤ 32767) :
    ∃ rects, GenerateCircle cx cy r = some rects
      ∧ rects.Nodup
      ∧ (r = 1 →
          rects = [scanline cx cy 1 0, scanline cx cy 0 (-1), scanline cx cy 0 1]
            ∧ NoneWithinAnother rects
            ∧ ∀ dy, -1 ≤ dy → dy ≤ 1 → countOnRow rects (add16 cy dy) = 1)
      ∧ (2 ≤ r → r ≤ 16383 → ∀ dy, dy = -r ∨ dy = r →
          scanline cx cy 0 dy ∈ rects ∧ scanline cx cy 1 dy ∈ rects
            ∧ scanline cx cy 0 dy ≠ scanline cx cy 1 dy
            ∧ 2 ≤ countOnRow rects (add16 cy dy)
            ∧ (isInt16 cx → isInt16 (cx - 1) →
                (scanline cx cy 0 dy).within (scanline cx cy 1 dy))) := by
  obtain ⟨rects, hrects, hnodup⟩ := generateFilledCircle_nodup cx cy r hcy (by omega) hr
  have hgen : GenerateCircle cx cy r = some rects := by
    unfold GenerateCircle
    rw [if_neg (by omega)]
    exact hrects
  refine ⟨rects, hgen, hnodup, ?_, ?_⟩
  · intro h1
    subst h1
    have hone : add16 0 1 = 1 := by decide
    have hd0 : sub16 3 (mul16 2 1) > 0 := by decide
    have hy1 : sub16 1 1 = 0 := by decide
    have hbudget : loopBudget = 65534 + 1 + 1 := rfl
    have hlist : rects = [scanline cx cy 1 0, scanline cx cy 0 (-1), scanline cx cy 0 1] := by
      unfold generateFilledCircle at hrects
      rw [hbudget, circleLoop, if_pos (by decide), if_pos hd0] at hrects
      dsimp only at hrects
      rw [hone, hy1, circleLoop, if_neg (by decide),
        circleEmit_eq_append cx cy 0 1 [] hcy (by decide) (by decide) (by decide)] at hrects
      have hrects2 := Option.some.inj hrects
      rw [← hrects2]
      unfold passLines
      rw [if_neg (by decide), if_pos (by decide)]
      rfl
    have h01 : add16 cy 0 ≠ add16 cy (-1) := by
      unfold add16 wrap16
      omega
    have h02 : add16 cy 0 ≠ add16 cy 1 := by
      unfold add16 wrap16
      omega
    have h12 : add16 cy (-1) ≠ add16 cy 1 := by
      unfold add16 wrap16
      omega
    refine ⟨hlist, ?_, ?_⟩
    · rw [hlist]
      unfold NoneWithinAnother Rectangle.within scanline
      simp only [List.pairwise_cons, List.mem_cons, List.mem_singleton, List.not_mem_nil,
        forall_eq_or_imp, forall_eq, IsEmpty.forall_iff, implies_true, List.Pairwise.nil,
        and_true, or_false]
      refine ⟨⟨⟨?_, ?_⟩, ?_, ?_⟩, ?_, ?_⟩ <;> omega
    · intro dy hlo hhi
      rw [hlist]
      unfold countOnRow scanline
      have hcases : dy = -1 ∨ dy = 0 ∨ dy = 1 := by omega
      rcases hcases with hdy | hdy | hdy <;> subst hdy <;>
        simp [List.filter, h01, h02, h12, h01.symm, h02.symm, h12.symm]
  · intro h2 h16 dy hdy
    obtain ⟨ha, hb, hc, hd⟩ := generateFilledCircle_top_rows cx cy r rects hcy h2 h16 hrects
    have hne : ∀ e : Int, scanline cx cy 0 e ≠ scanline cx cy 1 e := by
      intro e heq
      unfold scanline at heq
      simp only [Rectangle.mk.injEq] at heq
      omega
    have hwithin : ∀ e : Int, isInt16 cx → isInt16 (cx - 1) →
        (scanline cx cy 0 e).within (scanline cx cy 1 e) := by
      intro e hcx hcx1
      unfold isInt16 at hcx hcx1
      unfold Rectangle.within scanline sub16 wrap16
      dsimp only
      omega
    have hcount : ∀ e : Int, scanline cx cy 0 e ∈ rects → scanline cx cy 1 e ∈ rects →
        2 ≤ countOnRow rects (add16 cy e) := by
      intro e h0 h1
      unfold countOnRow
      apply two_le_length_of_mem (a := scanline cx cy 0 e) (b := scanline cx cy 1 e) _ _ (hne e)
      · rw [List.mem_filter]
        exact ⟨h0, decide_eq_true rfl⟩
      · rw [List.mem_filter]
        exact ⟨h1, decide_eq_true rfl⟩
    rcases hdy with hdy | hdy <;> subst hdy
    · exact ⟨ha, hc, hne _, hcount _ ha hc, hwithin _⟩
    · exact ⟨hb, hd, hne _, hcount _ hb hd, hwithin _⟩

/-- Witness of C21 (amended): the circle of radius 2 around `(100, 100)` repeats
no rectangle, and its row 98 receives the two rectangles `(100, 98, 1, 1)` and
`(99, 98, 3, 1)`, the first inside the second. -/
theorem GenerateCircle_no_repetition_witness :
    ∃ rects, GenerateCircle 100 100 2 = some rects ∧ rects.Nodup
      ∧ (⟨100, 98, 1, 1⟩ : Rectangle) ∈ rects ∧ (⟨99, 98, 3, 1⟩ : Rectangle) ∈ rects
      ∧ 2 ≤ countOnRow rects 98
      ∧ Rectangle.within ⟨100, 98, 1, 1⟩ ⟨99, 98, 3, 1⟩ := by
  obtain ⟨rects, h1, h2, _, h4⟩ :=
    GenerateCircle_no_repetition 100 100 2 (by decide) (by decide) (by decide)
  obtain ⟨ha, hb, _, hc, hd⟩ := h4 (by decide) (by decide) (-2) (Or.inl rfl)
  exact ⟨rects, h1, h2, ha, hb, hc, hd (by decide) (by decide)⟩

/-! ## Colour strings -/

/-- A hexadecimal digit is no white space, takes one byte, is neither `#`, `x`
nor `X`, and is read by `strconv.ParseUint` as its value, below 16. -/
theorem isHexDigit_facts (c : Char) (h : isHexDigit c) :
    IsSpace c = false ∧ utf8Len c = 1 ∧ c ≠ '#' ∧ c ≠ 'x' ∧ c ≠ 'X'
      ∧ digitValue c = some (hexDigitValue c) ∧ hexDigitValue c < 16 := by
  unfold isHexDigit at h
  have hne : ∀ k : Char, c.toNat ≠ k.toNat → c ≠ k := fun k hk heq => hk (by rw [heq])
  refine ⟨?_, ?_, hne _ ?_, hne _ ?_, hne _ ?_, ?_, ?_⟩
  · unfold IsSpace
    dsimp only
    rw [if_pos (by omega)]
    exact decide_eq_false (by omega)
  · unfold utf8Len
    rw [if_pos (by omega)]
  · show c.toNat ≠ 35
    omega
  · show c.toNat ≠ 120
    omega
  · show c.toNat ≠ 88
    omega
  · unfold digitValue hexDigitValue
    dsimp only
    split_ifs <;> first | omega | (simp only [Option.some.injEq] <;> omega)
  · unfold hexDigitValue
    split_ifs <;> omega

/-- A string of six hexadecimal digits has six bytes. -/
theorem len_of_hexDigits (h : List Char) (hh : ∀ c ∈ h, isHexDigit c) : len h = h.length := by
  unfold len
  induction h with
  | nil => rfl
  | cons c rest ih =>
    rw [List.map_cons, List.sum_cons, List.length_cons,
      (isHexDigit_facts c (hh c (List.mem_cons_self c rest))).2.1,
      ih (fun e he => hh e (List.mem_cons_of_mem c he))]
    omega

/-- The loop of `strconv.ParseUint` in base 16 for 32 bits reads a string of
hexadecimal digits as its positional value, as long as this fits 32 bits. -/
theorem parseUintLoop_hex (s0 : List Char) :
    ∀ (h : List Char) (n : Nat), (∀ c ∈ h, isHexDigit c) → (n + 1) * 16 ^ h.length ≤ 2 ^ 32 →
      parseUintLoop 16 1152921504606846976 4294967295 s0 h n
          = .ok (h.foldl (fun m c => 16 * m + hexDigitValue c) n)
        ∧ h.foldl (fun m c => 16 * m + hexDigitValue c) n + 1 ≤ (n + 1) * 16 ^ h.length := by
  intro h
  induction h with
  | nil =>
    intro n _ _
    exact ⟨rfl, by simp⟩
  | cons c rest ih =>
    intro n hh hn
    obtain ⟨_, _, _, _, _, hval, hlt⟩ := isHexDigit_facts c (hh c (List.mem_cons_self c rest))
    have hpow : 1 ≤ 16 ^ rest.length := Nat.one_le_pow _ _ (by decide)
    rw [List.length_cons, pow_succ] at hn
    have hn1 : (n + 1) * 16 ≤ 2 ^ 32 :=
      le_trans (Nat.mul_le_mul_left _ (by omega)) hn
    have hn2 : n * 16 + hexDigitValue c < 4294967296 := by omega
    have hstep : (16 * n + hexDigitValue c + 1) * 16 ^ rest.length ≤ 2 ^ 32 := by
      have : (16 * n + hexDigitValue c + 1) * 16 ^ rest.length
          ≤ ((n + 1) * 16) * 16 ^ rest.length :=
        Nat.mul_le_mul_right _ (by omega)
      have h3 : ((n + 1) * 16) * 16 ^ rest.length = (n + 1) * (16 ^ rest.length * 16) := by ring
      omega
    obtain ⟨ih1, ih2⟩ := ih (16 * n + hexDigitValue c)
      (fun e he => hh e (List.mem_cons_of_mem c he)) hstep
    have hmod : (n * 16 % 2 ^ 64 + hexDigitValue c) % 2 ^ 64 = 16 * n + hexDigitValue c := by
      omega
    have hmod0 : n * 16 % 2 ^ 64 = 16 * n := by omega
    constructor
    · rw [parseUintLoop, hval]
      dsimp only
      rw [if_neg (by omega), if_neg (by omega), hmod, hmod0, if_neg (by omega)]
      exact ih1
    · rw [List.foldl_cons, List.length_cons, pow_succ]
      have h3 : (n + 1) * (16 ^ rest.length * 16) = ((n + 1) * 16) * 16 ^ rest.length := by ring
      have : (16 * n + hexDigitValue c + 1) * 16 ^ rest.length
          ≤ ((n + 1) * 16) * 16 ^ rest.length :=
        Nat.mul_le_mul_right _ (by omega)
      omega

/-- The loop of `strconv.ParseUint` in base 16 fails on a string with a
character that is no hexadecimal digit. -/
theorem parseUintLoop_not_hex (cutoff maxVal : Nat) (s0 : List Char) :
    ∀ (h : List Char) (n : Nat), (∃ c ∈ h, ¬ isHexDigit c) →
      ∃ err, parseUintLoop 16 cutoff maxVal s0 h n = .error err := by
  intro h
  induction h with
  | nil =>
    intro n hbad
    obtain ⟨c, hc, _⟩ := hbad
    exact absurd hc (List.not_mem_nil c)
  | cons c rest ih =>
    intro n hbad
    rw [parseUintLoop]
    cases hd : digitValue c with
    | none => exact ⟨_, rfl⟩
    | some d =>
      dsimp only
      by_cases h1 : d ≥ 16
      · rw [if_pos h1]
        exact ⟨_, rfl⟩
      · rw [if_neg h1]
        by_cases h2 : n ≥ cutoff
        · rw [if_pos h2]
          exact ⟨_, rfl⟩
        · rw [if_neg h2]
          split_ifs
          · exact ⟨_, rfl⟩
          · apply ih
            obtain ⟨e, he, hne⟩ := hbad
            rcases List.mem_cons.1 he with heq | hrest
            · exfalso
              apply hne
              rw [heq]
              unfold digitValue at hd
              unfold isHexDigit
              dsimp only at hd
              split_ifs at hd <;> simp only [Option.some.injEq] at hd <;> omega
            · exact ⟨e, hrest, hne⟩

/-- `ParseColor` by what remains after trimming and removing the leads: it
returns the base-16 value, below `2^24`, when six hexadecimal digits remain,
and fails otherwise. -/
theorem ParseColor_by_remainder (s : String) :
    (sixHexDigits (afterLeads s) →
        ParseColor s = .ok (baseSixteenValue (afterLeads s))
          ∧ baseSixteenValue (afterLeads s) < 2 ^ 24)
      ∧ (¬ sixHexDigits (afterLeads s) → ∃ err, ParseColor s = .error err) := by
  have hdef : ParseColor s =
      if len (afterLeads s) ≠ 6 then .error (.notSixBytes (afterLeads s))
      else
        match ParseUint (afterLeads s) 16 32 with
        | .error err => .error (.invalidHex err)
        | .ok val => .ok (val % 2 ^ 32) := rfl
  have hcut : (2 ^ 64 - 1) / 16 + 1 = 1152921504606846976 := by norm_num
  have hmax : 2 ^ 32 - 1 = 4294967295 := by norm_num
  constructor
  · intro hsix
    obtain ⟨hlen, hhex⟩ := hsix
    obtain ⟨hloop, hbound⟩ := parseUintLoop_hex (afterLeads s) (afterLeads s) 0 hhex
      (by rw [hlen]; norm_num)
    rw [hlen] at hbound
    have hlt : baseSixteenValue (afterLeads s) < 2 ^ 24 := by
      unfold baseSixteenValue
      norm_num at hbound ⊢
      omega
    have hne : afterLeads s ≠ [] := by
      intro h0
      rw [h0] at hlen
      exact absurd hlen (by decide)
    refine ⟨?_, hlt⟩
    rw [hdef, if_neg (by rw [len_of_hexDigits _ hhex, hlen]; exact fun h => h rfl)]
    unfold ParseUint
    rw [if_neg hne, hcut, hmax, hloop]
    show Except.ok (baseSixteenValue (afterLeads s) % 2 ^ 32) = _
    rw [Nat.mod_eq_of_lt (by omega)]
  · intro hnot
    rw [hdef]
    by_cases hlen : len (afterLeads s) ≠ 6
    · rw [if_pos hlen]
      exact ⟨_, rfl⟩
    · rw [if_neg hlen]
      have hbad : ∃ c ∈ afterLeads s, ¬ isHexDigit c := by
        by_contra hall
        push_neg at hall
        apply hnot
        refine ⟨?_, hall⟩
        rw [← len_of_hexDigits _ hall]
        omega
      unfold ParseUint
      by_cases hnil : afterLeads s = []
      · rw [if_pos hnil]
        exact ⟨_, rfl⟩
      · rw [if_neg hnil]
        obtain ⟨err, herr⟩ := parseUintLoop_not_hex ((2 ^ 64 - 1) / 16 + 1) (2 ^ 32 - 1)
          (afterLeads s) (afterLeads s) 0 hbad
        rw [herr]
        exact ⟨_, rfl⟩

/-- A list of length six, by its six elements. -/
theorem length_six {α : Type} (l : List α) (h : l.length = 6) :
    ∃ a b c d e f, l = [a, b, c, d, e, f] := by
  match l, h with
  | [a, b, c, d, e, f], _ => exact ⟨a, b, c, d, e, f, rfl⟩

/-- Nothing but the written lead is removed from the three formats `#RRGGBB`,
`0xRRGGBB` and `RRGGBB`. -/
theorem afterLeads_formats (l : List Char) (hl : sixHexDigits l) :
    afterLeads (String.mk ('#' :: l)) = l ∧ afterLeads (String.mk ('0' :: 'x' :: l)) = l
      ∧ afterLeads (String.mk l) = l := by
  obtain ⟨hlen, hhex⟩ := hl
  obtain ⟨a, b, c, d, e, f, rfl⟩ := length_six l hlen
  have ha := isHexDigit_facts a (hhex a (by simp))
  have hb := isHexDigit_facts b (hhex b (by simp))
  have hf := isHexDigit_facts f (hhex f (by simp))
  have hsharp : IsSpace '#' = false := by decide
  have hzero : IsSpace '0' = false := by decide
  have ha1 : ('#' == a) = false := beq_false_of_ne (Ne.symm ha.2.2.1)
  have hb1 : ('x' == b) = false := beq_false_of_ne (Ne.symm hb.2.2.2.1)
  have hb2 : ('X' == b) = false := beq_false_of_ne (Ne.symm hb.2.2.2.2.1)
  refine ⟨?_, ?_, ?_⟩
  · simp [afterLeads, TrimSpace, TrimPrefix, List.dropWhile, List.isPrefixOf, hsharp, hf.1,
      hb1, hb2]
  · simp [afterLeads, TrimSpace, TrimPrefix, List.dropWhile, List.isPrefixOf, hzero, hf.1,
      hb1, hb2]
  · simp [afterLeads, TrimSpace, TrimPrefix, List.dropWhile, List.isPrefixOf, ha.1, hf.1,
      ha1, hb1, hb2]

/-- C22 fails as stated: `#0xABCDEF` and `0XABCDEF` are accepted, with the value
`0xABCDEF`, although what remains of them after trimming and removing the
optional lead (`#` or `0x`) of the three formats, `0xABCDEF` and `0XABCDEF`, is
not six hexadecimal digits: `ParseColor` removes a `#`, then a `0x`, then a
`0X`. -/
theorem ParseColor_leads_counterexample :
    ParseColor "#0xABCDEF" = .ok 11259375
      ∧ afterOptionalLead "#0xABCDEF" = ['0', 'x', 'A', 'B', 'C', 'D', 'E', 'F']
      ∧ ¬ sixHexDigits (afterOptionalLead "#0xABCDEF")
      ∧ ParseColor "0XABCDEF" = .ok 11259375
      ∧ afterOptionalLead "0XABCDEF" = ['0', 'X', 'A', 'B', 'C', 'D', 'E', 'F']
      ∧ ¬ sixHexDigits (afterOptionalLead "0XABCDEF") := by
  refine ⟨by rfl, by decide, by decide, by rfl, by decide, by decide⟩

/-- C22, amended. `ParseColor` supports the formats `#RRGGBB`, `0xRRGGBB` and
`RRGGBB`: for every string `h` of exactly six hexadecimal digits,
`ParseColor("#" + h)`, `ParseColor("0x" + h)` and `ParseColor(h)` all succeed
with the base-16 value of `h`, which is below `2^24`. For every input,
`ParseColor` fails whenever what remains after trimming the surrounding white
space and removing, in this order, a leading `#`, a leading `0x` and a leading
`0X` (each if present) is not exactly six hexadecimal digits, and succeeds with
their base-16 value when it is. -/
theorem ParseColor_formats (h : String) (hh : sixHexDigits h.data) :
    ParseColor ("#" ++ h) = .ok (baseSixteenValue h.data)
      ∧ ParseColor ("0x" ++ h) = .ok (baseSixteenValue h.data)
      ∧ ParseColor h = .ok (baseSixteenValue h.data)
      ∧ baseSixteenValue h.data < 2 ^ 24
      ∧ (∀ s : String, ¬ sixHexDigits (afterLeads s) → ∃ err, ParseColor s = .error err)
      ∧ (∀ s : String, sixHexDigits (afterLeads s) →
          ParseColor s = .ok (baseSixteenValue (afterLeads s))) := by
  obtain ⟨l⟩ := h
  obtain ⟨h1, h2, h3⟩ := afterLeads_formats l hh
  have hval : ∀ s : String, afterLeads s = l →
      ParseColor s = .ok (baseSixteenValue l) ∧ baseSixteenValue l < 2 ^ 24 := by
    intro s hs
    have := (ParseColor_by_remainder s).1 (by rw [hs]; exact hh)
    rw [hs] at this
    exact this
  exact ⟨(hval (String.mk ('#' :: l)) h1).1, (hval (String.mk ('0' :: 'x' :: l)) h2).1,
    (hval (String.mk l) h3).1,
    (hval (String.mk l) h3).2, fun s hs => (ParseColor_by_remainder s).2 hs,
    fun s hs => ((ParseColor_by_remainder s).1 hs).1⟩

/-- Witness of C22 (amended): the default colour `#00FF00` and its two other
spellings parse to `0x00FF00 = 65280`. -/
theorem ParseColor_formats_witness :
    ParseColor "#00FF00" = .ok 65280 ∧ ParseColor "0x00FF00" = .ok 65280
      ∧ ParseColor "00FF00" = .ok 65280 := by
  obtain ⟨h1, h2, h3, _⟩ := ParseColor_formats "00FF00" (by decide)
  exact ⟨h1, h2, h3⟩

/-! ## Closing the overlay -/

/-- C23 fails as stated: the overlay records no closed state, so a second `Close`
on the overlay with connection 1 calls the `Close` of the connection again:
`Close` followed by `Close` makes two calls where a single `Close` makes one, and
a connection that counts the calls it receives ends at 2, not at 1. -/
theorem Close_twice_counterexample :
    (Close sampleOverlay).2 = [.close 1]
      ∧ (Close (Close sampleOverlay).1).2 = [.close 1]
      ∧ (Close sampleOverlay).2 ++ (Close (Close sampleOverlay).1).2 ≠ (Close sampleOverlay).2
      ∧ connAfter (fun _ n => n + 1) ((Close sampleOverlay).2 ++ (Close (Close sampleOverlay).1).2)
          0 = 2
      ∧ connAfter (fun _ n => n + 1) (Close sampleOverlay).2 0 = 1 := by
  refine ⟨by decide, by decide, by decide, by decide, by decide⟩

/-- C23, amended. `Close` on an overlay whose connection is nil has no effect, and
`Close` never changes the overlay. On an overlay with a connection every `Close`
calls the `Close` of the connection exactly once, also when the overlay was
closed before: `Close` followed by `Close` leaves the same overlay as a single
`Close` and calls the `Close` of the connection twice, so it has the effect of a
single `Close` exactly when the second call of the connection's `Close` changes
nothing. -/
theorem Close_effects (o : Overlay) :
    (Close o).1 = o
      ∧ (Close (Close o).1).1 = (Close o).1
      ∧ (o.conn = none → (Close o).2 = [] ∧ (Close (Close o).1).2 = [])
      ∧ ∀ c, o.conn = some c →
          (Close o).2 = [.close c] ∧ (Close (Close o).1).2 = [.close c]
            ∧ ∀ (σ : Type) (connClose : Nat → σ → σ) (s : σ),
                connAfter connClose (Close o).2 s = connClose c s
                  ∧ connAfter connClose ((Close o).2 ++ (Close (Close o).1).2) s
                      = connClose c (connClose c s)
                  ∧ (connAfter connClose ((Close o).2 ++ (Close (Close o).1).2) s
                        = connAfter connClose (Close o).2 s
                      ↔ connClose c (connClose c s) = connClose c s) := by
  have hsame : (Close o).1 = o := by
    unfold Close
    cases o.conn <;> rfl
  refine ⟨hsame, ?_, ?_, ?_⟩
  · rw [hsame]
    exact hsame
  · intro hnil
    rw [hsame]
    unfold Close
    rw [hnil]
    exact ⟨rfl, rfl⟩
  · intro c hc
    have hcalls : (Close o).2 = [.close c] := by
      unfold Close
      rw [hc]
    rw [hsame, hcalls]
    exact ⟨rfl, rfl, fun σ connClose s => ⟨rfl, rfl, Iff.rfl⟩⟩

/-- Witness of C23 (amended): closing the overlay with connection 1 leaves it
as it is and calls the `Close` of connection 1 once. -/
theorem Close_effects_witness :
    (Close sampleOverlay).1 = sampleOverlay ∧ (Close sampleOverlay).2 = [.close 1] := by
  obtain ⟨h1, _, _, h4⟩ := Close_effects sampleOverlay
  exact ⟨h1, (h4 1 rfl).1⟩

end Overlay
